import Mathlib

/-!
# Interpolation and iteration: `v3/interp/interp.go`, `v3/iterate/iterate.go`

A shallow embedding of the `interp` package (Meeus, chapter 3) and of the
`iterate` package (Meeus, chapter 5), and theorems about them.

Numbers: the source computes in `float64`.  The embedding computes in exact
rational arithmetic (`ℚ`), so every statement below is a statement about the
formulas of the source without rounding, overflow or NaN operands.  The one
place where the source itself inspects non-finite values (`iterate`, which
stops on `math.IsInf` / `math.IsNaN`) is modelled with `Option ℚ`: `none`
stands for a non-finite float (a division by zero), `some q` for a finite one.
The range guard of `Len3.InterpolateXStrict` is also given with float64
rounding (namespace `binary64`): at the ends of a table its outcome depends on
the rounding of `xSum` and of the quotient.

Go results: a method returning `(y float64, err error)` is a pair
`ℚ × Option Error` (`none` is the `nil` error); a constructor returning
`(*Len3, error)` is `Except Error Len3`, its `nil` pointer carrying no data.

Loops: a bounded `for` loop is a recursion on the number of rounds left, or a
fold over the indices.  Where a claim counts the calls of a function argument,
the loop carries a ghost counter (or the list of evaluation points) next to
its result.  The work arrays of `LagrangePoly` are functions of the index.
-/

namespace interp

/-- Error values of the package (`var ( ErrorNot3 = errors.New(...) ... )`). -/
inductive Error where
  | ErrorNot3
  | ErrorNot4
  | ErrorNot5
  | ErrorNoXRange
  | ErrorNOutOfRange
  | ErrorXOutOfRange
  | ErrorNoExtremum
  | ErrorExtremumOutside
  | ErrorZeroOutside
  | ErrorNoConverge
  deriving DecidableEq, Repr

open Error

/-- Modelled from the spec: `base.Horner` of the imported package `base`, which
is not among the source files; the spec names it "Horner's method" over
coefficients in ascending order (constant term first):
`c[0] + x*(c[1] + x*(c[2] + ...))`. -/
def Horner (x : ℚ) : List ℚ → ℚ
  | [] => 0
  | c :: cs => c + x * Horner x cs

/-! ## Len3 -/

/-- The struct `Len3`. -/
structure Len3 where
  x1 : ℚ
  x3 : ℚ
  y : List ℚ
  a : ℚ
  b : ℚ
  c : ℚ
  abSum : ℚ
  xSum : ℚ
  xDiff : ℚ
  deriving DecidableEq, Repr

/-- The constructor `NewLen3(x1, x3, y)`. -/
def NewLen3 (x1 x3 : ℚ) (y : List ℚ) : Except Error Len3 :=
  if y.length ≠ 3 then
    .error ErrorNot3
  else if x3 = x1 then
    .error ErrorNoXRange
  else
    let a := y.getD 1 0 - y.getD 0 0
    let b := y.getD 2 0 - y.getD 1 0
    let c := b - a
    .ok { x1 := x1, x3 := x3, y := y, a := a, b := b, c := c,
          abSum := a + b, xSum := x3 + x1, xDiff := x3 - x1 }

/-- The method `Len3.InterpolateN`, formula (3.3). -/
def Len3.InterpolateN (d : Len3) (n : ℚ) : ℚ :=
  d.y.getD 1 0 + n * (1 / 2) * (d.abSum + n * d.c)

/-- The method `Len3.InterpolateX`. -/
def Len3.InterpolateX (d : Len3) (x : ℚ) : ℚ :=
  let n := (2 * x - d.xSum) / d.xDiff
  d.InterpolateN n

/-- The method `Len3.InterpolateNStrict`. -/
def Len3.InterpolateNStrict (d : Len3) (n : ℚ) : ℚ × Option Error :=
  if n < -1 ∨ n > 1 then
    (0, some ErrorNOutOfRange)
  else
    (d.InterpolateN n, none)

/-- The method `Len3.InterpolateXStrict`. -/
def Len3.InterpolateXStrict (d : Len3) (x : ℚ) : ℚ × Option Error :=
  let n := (2 * x - d.xSum) / d.xDiff
  let r := d.InterpolateNStrict n
  if r.2 = some ErrorNOutOfRange then (r.1, some ErrorXOutOfRange) else r

/-- The method `Len3.Extremum`, returning `(x, y, err)`. -/
def Len3.Extremum (d : Len3) : ℚ × ℚ × Option Error :=
  if d.c = 0 then
    (0, 0, some ErrorNoExtremum)
  else
    let n := d.abSum / (-2 * d.c)
    if n < -1 ∨ n > 1 then
      (0, 0, some ErrorExtremumOutside)
    else
      let x := (1 / 2) * (d.xSum + d.xDiff * n)
      let y := d.y.getD 1 0 - (d.abSum * d.abSum) / (8 * d.c)
      (x, y, none)

/-- The type `iterFunc`: an estimate function; `none` is a non-finite result. -/
abbrev iterFunc := ℚ → Option ℚ

/-- Float division as far as finiteness goes: dividing by zero gives an
infinity or a NaN (`none`), anything else a finite quotient. -/
def fdiv (p q : ℚ) : Option ℚ :=
  if q = 0 then none else some (p / q)

/-- The loop of `iterate` with `limit` rounds left.  The test
`math.Abs((n1-n0)/n0) < 1e-15` is false when `n0` is zero, the quotient being
an infinity or a NaN. -/
def iterateLoop (f : iterFunc) : Nat → ℚ → ℚ × Bool
  | 0, _ => (0, false)
  | limit + 1, n0 =>
    match f n0 with
    | none => (0, false)
    | some n1 =>
      if n0 ≠ 0 ∧ |(n1 - n0) / n0| < 1 / 10 ^ 15 then
        (n1, true)
      else
        iterateLoop f limit n1

/-- The function `iterate(n0, f)`, returning `(n1, ok)`; at most 50 rounds. -/
def iterate (n0 : ℚ) (f : iterFunc) : ℚ × Bool :=
  iterateLoop f 50 n0

/-- The estimate function chosen by `Len3.Zero`: (3.7) when `strong`,
(3.6) otherwise. -/
def Len3.zeroEstimate (d : Len3) (strong : Bool) : iterFunc :=
  if strong then
    fun n0 =>
      (fdiv (2 * d.y.getD 1 0 + n0 * (d.abSum + d.c * n0)) (d.abSum + 2 * d.c * n0)).map
        fun q => n0 - q
  else
    fun n0 => fdiv (-2 * d.y.getD 1 0) (d.abSum + d.c * n0)

/-- The method `Len3.Zero`. -/
def Len3.Zero (d : Len3) (strong : Bool) : ℚ × Option Error :=
  let r := iterate 0 (d.zeroEstimate strong)
  if r.2 = false then
    (0, some ErrorNoConverge)
  else if r.1 > 1 ∨ r.1 < -1 then
    (0, some ErrorZeroOutside)
  else
    ((1 / 2) * (d.xSum + d.xDiff * r.1), none)

/-! ## Len5 -/

/-- The struct `Len5`. -/
structure Len5 where
  x1 : ℚ
  x5 : ℚ
  y : List ℚ
  a : ℚ
  b : ℚ
  c : ℚ
  d : ℚ
  e : ℚ
  f : ℚ
  g : ℚ
  h : ℚ
  j : ℚ
  k : ℚ
  y3 : ℚ
  xSum : ℚ
  xDiff : ℚ
  interpCoeff : List ℚ
  deriving DecidableEq, Repr

/-- The constructor `NewLen5(x1, x5, y)`. -/
def NewLen5 (x1 x5 : ℚ) (y : List ℚ) : Except Error Len5 :=
  if y.length ≠ 5 then
    .error ErrorNot5
  else if x5 = x1 then
    .error ErrorNoXRange
  else
    let y3 := y.getD 2 0
    let a := y.getD 1 0 - y.getD 0 0
    let b := y.getD 2 0 - y.getD 1 0
    let c := y.getD 3 0 - y.getD 2 0
    let d := y.getD 4 0 - y.getD 3 0
    let e := b - a
    let f := c - b
    let g := d - c
    let h := f - e
    let j := g - f
    let k := j - h
    .ok { x1 := x1, x5 := x5, y := y, y3 := y3,
          a := a, b := b, c := c, d := d, e := e, f := f, g := g,
          h := h, j := j, k := k,
          xSum := x5 + x1, xDiff := x5 - x1,
          interpCoeff :=
            [y3, (b + c) / 2 - (h + j) / 12, f / 2 - k / 24, (h + j) / 12, k / 24] }

/-- The method `Len5.InterpolateN`. -/
def Len5.InterpolateN (d : Len5) (n : ℚ) : ℚ :=
  Horner n d.interpCoeff

/-- The method `Len5.InterpolateX`. -/
def Len5.InterpolateX (d : Len5) (x : ℚ) : ℚ :=
  let n := (4 * x - 2 * d.xSum) / d.xDiff
  d.InterpolateN n

/-- The method `Len5.InterpolateNStrict`. -/
def Len5.InterpolateNStrict (d : Len5) (n : ℚ) : ℚ × Option Error :=
  if n < -1 ∨ n > 1 then
    (0, some ErrorNOutOfRange)
  else
    (Horner n d.interpCoeff, none)

/-- The method `Len5.InterpolateXStrict`. -/
def Len5.InterpolateXStrict (d : Len5) (x : ℚ) : ℚ × Option Error :=
  let n := (4 * x - 2 * d.xSum) / d.xDiff
  let r := d.InterpolateNStrict n
  if r.2 = some ErrorNOutOfRange then (r.1, some ErrorXOutOfRange) else r

/-! ## Polynomials used to state the interpolation claims -/

/-- A polynomial of degree at most 2, `p(x) = q0 + q1 x + q2 x²`. -/
def quadratic (q0 q1 q2 x : ℚ) : ℚ :=
  q0 + q1 * x + q2 * x ^ 2

/-- A polynomial of degree at most 4. -/
def quartic (q0 q1 q2 q3 q4 x : ℚ) : ℚ :=
  q0 + q1 * x + q2 * x ^ 2 + q3 * x ^ 3 + q4 * x ^ 4

/-- The parabola `p(x) = A (x - v)² + B` with vertex `(v, B)`. -/
def vertexParabola (A v B x : ℚ) : ℚ :=
  A * (x - v) ^ 2 + B

/-! ## Ghost counter and estimates of `iterate` -/

/-- The loop of `iterate` once more, with a ghost counter: the third component
is the number of calls of `f`. -/
def iterateLoopCalls (f : iterFunc) : Nat → ℚ → ℚ × Bool × ℕ
  | 0, _ => (0, false, 0)
  | limit + 1, n0 =>
    match f n0 with
    | none => (0, false, 1)
    | some n1 =>
      if n0 ≠ 0 ∧ |(n1 - n0) / n0| < 1 / 10 ^ 15 then
        (n1, true, 1)
      else
        let r := iterateLoopCalls f limit n1
        (r.1, r.2.1, r.2.2 + 1)

/-- The number of calls of `f` made by `iterate(n0, f)` (ghost counter). -/
def iterateCalls (n0 : ℚ) (f : iterFunc) : ℕ :=
  (iterateLoopCalls f 50 n0).2.2

/-- The sequence of estimates `n0, f(n0), f(f(n0)), ...`; `none` from the first
non-finite estimate on. -/
def estimate (f : iterFunc) : ℚ → ℕ → Option ℚ
  | n0, 0 => some n0
  | n0, k + 1 => (f n0).bind fun n1 => estimate f n1 k

/-! ## Len5.Extremum -/

/-- The estimate function that `Len5.Extremum` gives to `iterate`:
`base.Horner(n0, nCoeff...) / den`. -/
def Len5.extremumEstimate (d : Len5) : iterFunc :=
  fun n0 =>
    fdiv (Horner n0 [6 * (d.b + d.c) - d.h - d.j, 0, 3 * (d.h + d.j), 2 * d.k])
      (d.k - 12 * d.f)

/-- The method `Len5.Extremum`, returning `(x, y, err)`. -/
def Len5.Extremum (d : Len5) : ℚ × ℚ × Option Error :=
  let den := d.k - 12 * d.f
  if den = 0 then
    (0, 0, some ErrorExtremumOutside)
  else
    let r := iterate 0 d.extremumEstimate
    if r.2 = false then
      (0, 0, some ErrorNoConverge)
    else if r.1 < -2 ∨ r.1 > 2 then
      (0, 0, some ErrorExtremumOutside)
    else
      ((1 / 2) * d.xSum + (1 / 4) * d.xDiff * r.1, Horner r.1 d.interpCoeff, none)

/-! ## Lagrange -/

/-- A row `struct{ X, Y float64 }` of a table. -/
structure Row where
  X : ℚ
  Y : ℚ
  deriving DecidableEq, Repr

/-- The function `Lagrange(x, table)`: both loops run over the row indices. -/
def Lagrange (x : ℚ) (table : List Row) : ℚ :=
  (List.range table.length).foldl
    (fun sum i =>
      let xi := (table.getD i ⟨0, 0⟩).X
      let prod := (List.range table.length).foldl
        (fun prod j =>
          if i ≠ j then
            let xj := (table.getD j ⟨0, 0⟩).X
            prod * ((x - xj) / (xi - xj))
          else prod)
        1
      sum + (table.getD i ⟨0, 0⟩).Y * prod)
    0

/-- The body of the `j` loop of `LagrangePoly` for one `j ≠ i`, on the work
array `prod` (an array is a function of the index):
`prod[n-1] = prod[n] * -xj; for k := n; k < last; k++ { prod[k] -= prod[k+1] * xj }`. -/
def LagrangePoly.mulStep (xj : ℚ) (last n : ℕ) (prod : ℕ → ℚ) : ℕ → ℚ :=
  (List.range' n (last - n)).foldl
    (fun p k => Function.update p k (p k - p (k + 1) * xj))
    (Function.update prod (n - 1) (prod n * -xj))

/-- The body of the `j` loop of `LagrangePoly` for row `i`, on the state
`(prod, den, n)`: for `j ≠ i` it updates `prod` as above, multiplies `den` by
`xi - xj` and decrements `n`. -/
def LagrangePoly.rowStep (table : List Row) (i : ℕ) (st : (ℕ → ℚ) × ℚ × ℕ) (j : ℕ) :
    (ℕ → ℚ) × ℚ × ℕ :=
  if i ≠ j then
    let xj := (table.getD j ⟨0, 0⟩).X
    (LagrangePoly.mulStep xj (table.length - 1) st.2.2 st.1,
      st.2.1 * ((table.getD i ⟨0, 0⟩).X - xj), st.2.2 - 1)
  else st

/-- The `j` loop of `LagrangePoly` for row `i`, after `prod[last] = 1`,
`den := 1.`, `n := last`; the state is `(prod, den, n)`. -/
def LagrangePoly.row (table : List Row) (i : ℕ) (prod : ℕ → ℚ) : (ℕ → ℚ) × ℚ × ℕ :=
  (List.range table.length).foldl (LagrangePoly.rowStep table i)
    (Function.update prod (table.length - 1) 1, 1, table.length - 1)

/-- The body of the `i` loop of `LagrangePoly` on the arrays `(sum, prod)`: the
`j` loop, then `for j, pj := range prod { sum[j] += yi * pj / den }`. -/
def LagrangePoly.arraysStep (table : List Row) (st : (ℕ → ℚ) × (ℕ → ℚ)) (i : ℕ) :
    (ℕ → ℚ) × (ℕ → ℚ) :=
  let r := LagrangePoly.row table i st.2
  (fun j => st.1 j + (table.getD i ⟨0, 0⟩).Y * r.1 j / r.2.1, r.1)

/-- The `i` loop of `LagrangePoly` on the arrays `(sum, prod)`, both
`make([]float64, len(table))`. -/
def LagrangePoly.arrays (table : List Row) : (ℕ → ℚ) × (ℕ → ℚ) :=
  (List.range table.length).foldl (LagrangePoly.arraysStep table) (fun _ => 0, fun _ => 0)

/-- The function `LagrangePoly(table)`: the array `sum`, of length
`len(table)`. -/
def LagrangePoly (table : List Row) : List ℚ :=
  (List.range table.length).map (LagrangePoly.arrays table).1

/-! ## Len5.Zero -/

/-- The estimate function chosen by `Len5.Zero`: (3.11) when `strong`,
(3.10) otherwise. -/
def Len5.zeroEstimate (d : Len5) (strong : Bool) : iterFunc :=
  if strong then
    let M := d.k / 24
    let N := (d.h + d.j) / 12
    let P := d.f / 2 - M
    let Q := (d.b + d.c) / 2 - N
    fun n0 =>
      (fdiv (Horner n0 [d.y3, Q, P, N, M]) (Horner n0 [Q, 2 * P, 3 * N, 4 * M])).map
        fun q => n0 - q
  else
    fun n0 =>
      fdiv (Horner n0 [-24 * d.y3, 0, d.k - 12 * d.f, -2 * (d.h + d.j), -d.k])
        (12 * (d.b + d.c) - 2 * (d.h + d.j))

/-- The method `Len5.Zero`. -/
def Len5.Zero (d : Len5) (strong : Bool) : ℚ × Option Error :=
  let r := iterate 0 (d.zeroEstimate strong)
  if r.2 = false then
    (0, some ErrorNoConverge)
  else if r.1 > 2 ∨ r.1 < -2 then
    (0, some ErrorZeroOutside)
  else
    ((1 / 2) * d.xSum + (1 / 4) * d.xDiff * r.1, none)

/-! ## Len3ForInterpolateX and Len4Half -/

/-- The Go conversion `int(f)` of a float to an integer: the fraction is
discarded (truncation towards zero). -/
def intOfFloat (q : ℚ) : ℤ :=
  if 0 ≤ q then ⌊q⌋ else ⌈q⌉

/-- The constructor `Len3ForInterpolateX(x, x1, xn, y)`; the slice
`y[nearestX-1 : nearestX+2]` is `(y.drop (nearestX-1)).take 3`. -/
def Len3ForInterpolateX (x x1 xn : ℚ) (y : List ℚ) : Except Error Len3 :=
  if y.length > 3 then
    let interval := (xn - x1) / (((y.length : ℤ) - 1 : ℤ) : ℚ)
    if interval = 0 then
      .error ErrorNoXRange
    else
      let nearestX := intOfFloat ((x - x1) / interval + 1 / 2)
      let nearestX :=
        if nearestX < 1 then 1
        else if nearestX > (y.length : ℤ) - 2 then (y.length : ℤ) - 2
        else nearestX
      NewLen3 (x1 + ((nearestX - 1 : ℤ) : ℚ) * interval)
        (x1 + ((nearestX + 1 : ℤ) : ℚ) * interval)
        ((y.drop (nearestX - 1).toNat).take 3)
  else
    NewLen3 x1 xn y

/-- The function `Len4Half(y)`, formula (3.12). -/
def Len4Half (y : List ℚ) : ℚ × Option Error :=
  if y.length ≠ 4 then
    (0, some ErrorNot4)
  else
    ((9 * (y.getD 1 0 + y.getD 2 0) - y.getD 0 0 - y.getD 3 0) / 16, none)

/-- A polynomial of degree at most 3. -/
def cubic (q0 q1 q2 q3 x : ℚ) : ℚ :=
  q0 + q1 * x + q2 * x ^ 2 + q3 * x ^ 3

/-! ## The float64 arithmetic of `Len3`

The definitions above compute in exact arithmetic.  The range guard of
`InterpolateXStrict` compares a rounded quotient with -1 and 1, so its outcome at
the ends of a table depends on the rounding; the definitions of this section
round every arithmetic operation to float64 as the Go code does.  A float64 is
the rational number it stands for; overflow to an infinity is not modelled. -/

namespace binary64

/-- The integer nearest to `q`, the even one of the two when `q` is half way
between two integers. -/
def roundHalfEven (q : ℚ) : ℤ :=
  if q - ⌊q⌋ < 1 / 2 then ⌊q⌋
  else if 1 / 2 < q - ⌊q⌋ then ⌊q⌋ + 1
  else if ⌊q⌋ % 2 = 0 then ⌊q⌋
  else ⌊q⌋ + 1

/-- The float64 nearest to `q` (IEEE 754 binary64, round to nearest, ties to
even): a multiple of `2 ^ e` with `e = ⌊log₂ |q|⌋ - 52`, so that the significand
has 53 bits, and `e` at least -1074 (subnormal numbers). -/
def nearest (q : ℚ) : ℚ :=
  let e := max (Int.log 2 |q| - 52) (-1074)
  (roundHalfEven (q / 2 ^ e) : ℚ) * 2 ^ e

/-- The constructor `NewLen3(x1, x3, y)` on float64 values. -/
def NewLen3 (x1 x3 : ℚ) (y : List ℚ) : Except Error Len3 :=
  if y.length ≠ 3 then
    .error ErrorNot3
  else if x3 = x1 then
    .error ErrorNoXRange
  else
    let a := nearest (y.getD 1 0 - y.getD 0 0)
    let b := nearest (y.getD 2 0 - y.getD 1 0)
    let c := nearest (b - a)
    .ok { x1 := x1, x3 := x3, y := y, a := a, b := b, c := c,
          abSum := nearest (a + b), xSum := nearest (x3 + x1), xDiff := nearest (x3 - x1) }

/-- The method `Len3.InterpolateN` on float64 values:
`d.y[1] + n*.5*(d.abSum+n*d.c)`, every operation rounded. -/
def Len3.InterpolateN (d : Len3) (n : ℚ) : ℚ :=
  nearest (d.y.getD 1 0 +
    nearest (nearest (n * (1 / 2)) * nearest (d.abSum + nearest (n * d.c))))

/-- The method `Len3.InterpolateNStrict` on float64 values. -/
def Len3.InterpolateNStrict (d : Len3) (n : ℚ) : ℚ × Option Error :=
  if n < -1 ∨ n > 1 then
    (0, some ErrorNOutOfRange)
  else
    (Len3.InterpolateN d n, none)

/-- The method `Len3.InterpolateXStrict` on float64 values, for a table made by
`NewLen3` (`xDiff` is not zero): `n := (2*x - d.xSum) / d.xDiff`, every operation
rounded. -/
def Len3.InterpolateXStrict (d : Len3) (x : ℚ) : ℚ × Option Error :=
  let n := nearest (nearest (nearest (2 * x) - d.xSum) / d.xDiff)
  let r := Len3.InterpolateNStrict d n
  if r.2 = some ErrorNOutOfRange then (r.1, some ErrorXOutOfRange) else r

/-- The constructor `Len3ForInterpolateX(x, x1, xn, y)` on float64 values;
`float64(i)` of an integer `i` is `nearest i`. -/
def Len3ForInterpolateX (x x1 xn : ℚ) (y : List ℚ) : Except Error Len3 :=
  if y.length > 3 then
    let interval := nearest (nearest (xn - x1) / nearest (((y.length : ℤ) - 1 : ℤ) : ℚ))
    if interval = 0 then
      .error ErrorNoXRange
    else
      let nearestX := intOfFloat (nearest (nearest (nearest (x - x1) / interval) + 1 / 2))
      let nearestX :=
        if nearestX < 1 then 1
        else if nearestX > (y.length : ℤ) - 2 then (y.length : ℤ) - 2
        else nearestX
      NewLen3 (nearest (x1 + nearest (nearest ((nearestX - 1 : ℤ) : ℚ) * interval)))
        (nearest (x1 + nearest (nearest ((nearestX + 1 : ℤ) : ℚ) * interval)))
        ((y.drop (nearestX - 1).toNat).take 3)
  else
    NewLen3 x1 xn y

end binary64

end interp

/-! ## Package `iterate` (`v3/iterate/iterate.go`) -/

namespace iterate

/-- The error value `errors.New("Maximum iterations reached")`. -/
inductive Error where
  | MaximumIterationsReached
  deriving DecidableEq, Repr

open Error

/-- The type `BetterFunc`. -/
abbrev BetterFunc := ℚ → ℚ

/-- The loop of `DecimalPlaces` with `rounds` rounds left.  The third component
is a ghost counter: the number of calls of `better`. -/
def DecimalPlacesLoop (better : BetterFunc) (d : ℚ) : ℕ → ℚ → ℚ × Option Error × ℕ
  | 0, _ => (0, some MaximumIterationsReached, 0)
  | rounds + 1, start =>
    let n := better start
    if |n - start| < d then
      (n, none, 1)
    else
      let r := DecimalPlacesLoop better d rounds n
      (r.1, r.2.1, r.2.2 + 1)

/-- The function `DecimalPlaces`; `d` is `math.Pow(10, float64(-places))` and
the loop `for i := 0; i < maxIterations; i++` runs `maxIterations` rounds, none
when `maxIterations` is not positive. -/
def DecimalPlaces (better : BetterFunc) (start : ℚ) (places maxIterations : ℤ) :
    ℚ × Option Error :=
  let r := DecimalPlacesLoop better ((10 : ℚ) ^ (-places)) maxIterations.toNat start
  (r.1, r.2.1)

/-- The number of calls of `better` made by `DecimalPlaces` (ghost counter). -/
def DecimalPlacesCalls (better : BetterFunc) (start : ℚ) (places maxIterations : ℤ) : ℕ :=
  (DecimalPlacesLoop better ((10 : ℚ) ^ (-places)) maxIterations.toNat start).2.2

/-- The loop of `FullPrecision` with `rounds` rounds left.  The test
`math.Abs((n-start)/n) < 1e-15` is false when `n` is zero, the quotient being
an infinity or a NaN.  The third component is a ghost counter: the number of
calls of `better`. -/
def FullPrecisionLoop (better : BetterFunc) : ℕ → ℚ → ℚ × Option Error × ℕ
  | 0, _ => (0, some MaximumIterationsReached, 0)
  | rounds + 1, start =>
    let n := better start
    if n ≠ 0 ∧ |(n - start) / n| < 1 / 10 ^ 15 then
      (n, none, 1)
    else
      let r := FullPrecisionLoop better rounds n
      (r.1, r.2.1, r.2.2 + 1)

/-- The function `FullPrecision`. -/
def FullPrecision (better : BetterFunc) (start : ℚ) (maxIterations : ℤ) : ℚ × Option Error :=
  let r := FullPrecisionLoop better maxIterations.toNat start
  (r.1, r.2.1)

/-- The type `RootFunc`. -/
abbrev RootFunc := ℚ → ℚ

/-- The function `math.Signbit` on exact numbers (there is no negative zero). -/
def Signbit (x : ℚ) : Bool :=
  decide (x < 0)

/-- The loop of `BinaryRoot` with `rounds` rounds left, on the state
`lower, upper, yLower, mid`.  It returns `mid` at the exit and, as a ghost
value, the list of midpoints at which `f` was evaluated, in order. -/
def BinaryRootLoop (f : RootFunc) : ℕ → ℚ → ℚ → ℚ → ℚ → ℚ × List ℚ
  | 0, _, _, _, mid => (mid, [])
  | rounds + 1, lower, upper, yLower, _ =>
    let mid := (lower + upper) / 2
    let yMid := f mid
    if yMid = 0 then
      (mid, [mid])
    else if Signbit yLower = Signbit yMid then
      let r := BinaryRootLoop f rounds mid upper yMid mid
      (r.1, mid :: r.2)
    else
      let r := BinaryRootLoop f rounds lower mid yLower mid
      (r.1, mid :: r.2)

/-- The function `BinaryRoot`: 52 rounds, `yLower := f(lower)`, `var mid float64`. -/
def BinaryRoot (f : RootFunc) (lower upper : ℚ) : ℚ :=
  (BinaryRootLoop f 52 lower upper (f lower) 0).1

/-- The midpoints at which `BinaryRoot` evaluates `f`, in order (ghost value). -/
def BinaryRootMidpoints (f : RootFunc) (lower upper : ℚ) : List ℚ :=
  (BinaryRootLoop f 52 lower upper (f lower) 0).2

end iterate

/-! ## Package `julian` (`v3/julian/julian.go`)

Go `int` and `int64` are `ℤ` (no overflow is modelled); the Go operators `/`
and `%` on integers truncate towards zero and are `Int.tdiv` and `Int.tmod`. -/

namespace julian

/-- Modelled from the spec: `base.FloorDiv` and `base.FloorDiv64` of the imported
package `base`, which is not among the source files; the package comment of
`julian.go` names them as the functions for the INT function of Meeus: the
integer floor of `x / y`. -/
def FloorDiv (x y : ℤ) : ℤ :=
  Int.fdiv x y

/-- The function `CalendarGregorianToJD(y, m, d)`. -/
def CalendarGregorianToJD (y m : ℤ) (d : ℚ) : ℚ :=
  let ym : ℤ × ℤ := if m = 1 ∨ m = 2 then (y - 1, m + 12) else (y, m)
  let a := FloorDiv ym.1 100
  let b := 2 - a + FloorDiv a 4
  ((FloorDiv (36525 * (ym.1 + 4716)) 100 : ℤ) : ℚ) +
    ((FloorDiv (306 * (ym.2 + 1)) 10 + b : ℤ) : ℚ) + d - 1524.5

/-- The function `LeapYearGregorian(y)`. -/
def LeapYearGregorian (y : ℤ) : Bool :=
  (Int.tmod y 4 == 0 && Int.tmod y 100 != 0) || Int.tmod y 400 == 0

/-- The function `math.Modf`: integer and fractional part, both with the sign
of the argument; the integer part is given as the integer it is. -/
def Modf (q : ℚ) : ℤ × ℚ :=
  (interp.intOfFloat q, q - (interp.intOfFloat q : ℤ))

/-- The function `JDToCalendar(jd)`, returning `(year, month, day)`. -/
def JDToCalendar (jd : ℚ) : ℤ × ℤ × ℚ :=
  let zf := Modf (jd + 1 / 2)
  let z := zf.1
  let a :=
    if z ≥ 2299161 then
      let α := FloorDiv (z * 100 - 186721625) 3652425
      z + 1 + α - FloorDiv α 4
    else z
  let b := a + 1524
  let c := FloorDiv (b * 100 - 12210) 36525
  let d := FloorDiv (36525 * c) 100
  let e := FloorDiv ((b - d) * 10000) 306001
  let day : ℚ := (((b - d) - FloorDiv (306001 * e) 10000 : ℤ) : ℚ) + zf.2
  let month := if e = 14 ∨ e = 15 then e - 13 else e - 1
  let year := if month = 1 ∨ month = 2 then c - 4715 else c - 4716
  (year, month, day)

/-- The function `DayOfWeek(jd)`: `int(jd+1.5) % 7`. -/
def DayOfWeek (jd : ℚ) : ℤ :=
  Int.tmod (interp.intOfFloat (jd + 1.5)) 7

/-- The function `wholeMonths(m, k)`. -/
def wholeMonths (m k : ℤ) : ℤ :=
  Int.tdiv (275 * m) 9 - k * Int.tdiv (m + 9) 12 - 30

/-- The function `DayOfYear(y, m, d, leap)`. -/
def DayOfYear (_y m d : ℤ) (leap : Bool) : ℤ :=
  let k : ℤ := if leap then 2 - 1 else 2
  wholeMonths m k + d

/-- The function `DayOfYearToCalendar(n, leap)`, returning `(m, d)`. -/
def DayOfYearToCalendar (n : ℤ) (leap : Bool) : ℤ × ℤ :=
  let k : ℤ := if leap then 2 - 1 else 2
  let m : ℤ := if n < 32 then 1 else Int.tdiv (900 * (k + n) + 98 * 275) 27500
  (m, n - wholeMonths m k)

/-- The function `DayOfYearGregorian(y, m, d)`. -/
def DayOfYearGregorian (y m d : ℤ) : ℤ :=
  DayOfYear y m d (LeapYearGregorian y)

/-- The number of days of month `m` in a year that is a leap year or not. -/
def monthLength (m : ℤ) (leap : Bool) : ℤ :=
  if m = 2 then (if leap then 29 else 28)
  else if m = 4 ∨ m = 6 ∨ m = 9 ∨ m = 11 then 30
  else 31

end julian

namespace interp

open Error

/-! ## Helper lemmas -/

theorem length_three {y : List ℚ} (h : y.length = 3) : ∃ y0 y1 y2, y = [y0, y1, y2] := by
  rcases y with _ | ⟨y0, _ | ⟨y1, _ | ⟨y2, _ | ⟨y3, t⟩⟩⟩⟩ <;> simp at h
  exact ⟨y0, y1, y2, rfl⟩

theorem length_five {y : List ℚ} (h : y.length = 5) :
    ∃ y0 y1 y2 y3 y4, y = [y0, y1, y2, y3, y4] := by
  rcases y with _ | ⟨y0, _ | ⟨y1, _ | ⟨y2, _ | ⟨y3, _ | ⟨y4, _ | ⟨y5, t⟩⟩⟩⟩⟩⟩ <;> simp at h
  exact ⟨y0, y1, y2, y3, y4, rfl⟩

theorem NewLen3_eq_ok {x1 x3 : ℚ} {y : List ℚ} {d : Len3} (h : NewLen3 x1 x3 y = .ok d) :
    ∃ y0 y1 y2, y = [y0, y1, y2] ∧ x1 ≠ x3 ∧
      d = { x1 := x1, x3 := x3, y := [y0, y1, y2], a := y1 - y0, b := y2 - y1,
            c := (y2 - y1) - (y1 - y0), abSum := (y1 - y0) + (y2 - y1),
            xSum := x3 + x1, xDiff := x3 - x1 } := by
  unfold NewLen3 at h
  split_ifs at h with h1 h2
  obtain ⟨y0, y1, y2, rfl⟩ := length_three (not_not.mp h1)
  refine ⟨y0, y1, y2, rfl, fun e => h2 e.symm, ?_⟩
  simpa using (Except.ok.inj h).symm

theorem NewLen3_ok (x1 x3 y0 y1 y2 : ℚ) (h : x1 ≠ x3) :
    NewLen3 x1 x3 [y0, y1, y2] =
      .ok { x1 := x1, x3 := x3, y := [y0, y1, y2], a := y1 - y0, b := y2 - y1,
            c := (y2 - y1) - (y1 - y0), abSum := (y1 - y0) + (y2 - y1),
            xSum := x3 + x1, xDiff := x3 - x1 } := by
  have h' : ¬ x3 = x1 := fun e => h e.symm
  simp [NewLen3, h']

theorem NewLen5_eq_ok {x1 x5 : ℚ} {y : List ℚ} {d : Len5} (h : NewLen5 x1 x5 y = .ok d) :
    ∃ y0 y1 y2 y3 y4, y = [y0, y1, y2, y3, y4] ∧ x1 ≠ x5 ∧ d.y = y ∧
      d.x1 = x1 ∧ d.x5 = x5 ∧ d.xSum = x5 + x1 ∧ d.xDiff = x5 - x1 ∧
      d.interpCoeff =
        [y2,
         ((y2 - y1) + (y3 - y2)) / 2 -
           ((((y3 - y2) - (y2 - y1)) - ((y2 - y1) - (y1 - y0))) +
             (((y4 - y3) - (y3 - y2)) - ((y3 - y2) - (y2 - y1)))) / 12,
         ((y3 - y2) - (y2 - y1)) / 2 -
           ((((y4 - y3) - (y3 - y2)) - ((y3 - y2) - (y2 - y1))) -
             (((y3 - y2) - (y2 - y1)) - ((y2 - y1) - (y1 - y0)))) / 24,
         ((((y3 - y2) - (y2 - y1)) - ((y2 - y1) - (y1 - y0))) +
             (((y4 - y3) - (y3 - y2)) - ((y3 - y2) - (y2 - y1)))) / 12,
         ((((y4 - y3) - (y3 - y2)) - ((y3 - y2) - (y2 - y1))) -
             (((y3 - y2) - (y2 - y1)) - ((y2 - y1) - (y1 - y0)))) / 24] := by
  unfold NewLen5 at h
  split_ifs at h with h1 h2
  obtain ⟨y0, y1, y2, y3, y4, rfl⟩ := length_five (not_not.mp h1)
  have hd := (Except.ok.inj h).symm
  subst hd
  exact ⟨y0, y1, y2, y3, y4, rfl, fun e => h2 e.symm, rfl, rfl, rfl, rfl, rfl, by simp⟩

theorem NewLen5_isOk (x1 x5 y0 y1 y2 y3 y4 : ℚ) (h : x1 ≠ x5) :
    ∃ d, NewLen5 x1 x5 [y0, y1, y2, y3, y4] = .ok d := by
  have h' : ¬ x5 = x1 := fun e => h e.symm
  simp [NewLen5, h']

theorem len5_interpolateN_nodes {x1 x5 : ℚ} {y : List ℚ} {d : Len5}
    (h : NewLen5 x1 x5 y = .ok d) :
    d.InterpolateN (-2) = y.getD 0 0 ∧ d.InterpolateN (-1) = y.getD 1 0 ∧
      d.InterpolateN 0 = y.getD 2 0 ∧ d.InterpolateN 1 = y.getD 3 0 ∧
      d.InterpolateN 2 = y.getD 4 0 := by
  obtain ⟨y0, y1, y2, y3, y4, rfl, -, -, -, -, -, -, hc⟩ := NewLen5_eq_ok h
  simp only [Len5.InterpolateN, hc, Horner, List.getD_cons_zero, List.getD_cons_succ]
  refine ⟨?_, ?_, ?_, ?_, ?_⟩ <;> ring

/-- The factor `n = (2x - xSum)/xDiff` of a three-row table lies in `[-1, 1]`
exactly when `x` lies between `x1` and `x3`. -/
theorem factor3_mem_iff (x1 x3 x : ℚ) (hx : x1 ≠ x3) :
    ¬ ((2 * x - (x3 + x1)) / (x3 - x1) < -1 ∨ (2 * x - (x3 + x1)) / (x3 - x1) > 1) ↔
      (min x1 x3 ≤ x ∧ x ≤ max x1 x3) := by
  rw [not_or, not_lt, not_lt]
  rcases lt_or_gt_of_ne hx with hlt | hgt
  · have hpos : 0 < x3 - x1 := sub_pos.mpr hlt
    rw [min_eq_left hlt.le, max_eq_right hlt.le, le_div_iff₀ hpos, div_le_iff₀ hpos]
    constructor <;> rintro ⟨h1, h2⟩ <;> constructor <;> linarith
  · have hneg : x3 - x1 < 0 := sub_neg.mpr hgt
    rw [min_eq_right hgt.le, max_eq_left hgt.le, le_div_iff_of_neg hneg,
      div_le_iff_of_neg hneg]
    constructor <;> rintro ⟨h1, h2⟩ <;> constructor <;> linarith

/-- The abscissa `(xSum + xDiff*n)/2` of a factor `n` in `[-1, 1]` lies between
`x1` and `x3`. -/
theorem abscissa3_mem (x1 x3 n : ℚ) (h1 : -1 ≤ n) (h2 : n ≤ 1) :
    min x1 x3 ≤ (1 / 2) * ((x3 + x1) + (x3 - x1) * n) ∧
      (1 / 2) * ((x3 + x1) + (x3 - x1) * n) ≤ max x1 x3 := by
  rcases le_total x1 x3 with hle | hge
  · rw [min_eq_left hle, max_eq_right hle]
    constructor
    · nlinarith [mul_nonneg (sub_nonneg.mpr hle) (by linarith : (0 : ℚ) ≤ 1 + n)]
    · nlinarith [mul_nonneg (sub_nonneg.mpr hle) (by linarith : (0 : ℚ) ≤ 1 - n)]
  · rw [min_eq_right hge, max_eq_left hge]
    constructor
    · nlinarith [mul_nonneg (sub_nonneg.mpr hge) (by linarith : (0 : ℚ) ≤ 1 - n)]
    · nlinarith [mul_nonneg (sub_nonneg.mpr hge) (by linarith : (0 : ℚ) ≤ 1 + n)]

theorem extremum_of_c_zero (d : Len3) (hc : d.c = 0) :
    d.Extremum = (0, 0, some ErrorNoExtremum) := by
  simp only [Len3.Extremum, if_pos hc]

theorem extremum_of_outside (d : Len3) (hc : d.c ≠ 0)
    (hn : d.abSum / (-2 * d.c) < -1 ∨ d.abSum / (-2 * d.c) > 1) :
    d.Extremum = (0, 0, some ErrorExtremumOutside) := by
  simp only [Len3.Extremum, if_neg hc, if_pos hn]

theorem extremum_of_inside (d : Len3) (hc : d.c ≠ 0)
    (hn : ¬ (d.abSum / (-2 * d.c) < -1 ∨ d.abSum / (-2 * d.c) > 1)) :
    d.Extremum =
      ((1 / 2) * (d.xSum + d.xDiff * (d.abSum / (-2 * d.c))),
        d.y.getD 1 0 - (d.abSum * d.abSum) / (8 * d.c), none) := by
  simp only [Len3.Extremum, if_neg hc, if_neg hn]

theorem zero_of_no_converge (d : Len3) (strong : Bool)
    (hr : (iterate 0 (d.zeroEstimate strong)).2 = false) :
    d.Zero strong = (0, some ErrorNoConverge) := by
  simp only [Len3.Zero, if_pos hr]

theorem zero_of_outside (d : Len3) (strong : Bool)
    (hr : (iterate 0 (d.zeroEstimate strong)).2 = true)
    (hn : (iterate 0 (d.zeroEstimate strong)).1 > 1 ∨
      (iterate 0 (d.zeroEstimate strong)).1 < -1) :
    d.Zero strong = (0, some ErrorZeroOutside) := by
  have hr' : ¬ (iterate 0 (d.zeroEstimate strong)).2 = false := by simp [hr]
  simp only [Len3.Zero, if_neg hr', if_pos hn]

theorem zero_of_inside (d : Len3) (strong : Bool)
    (hr : (iterate 0 (d.zeroEstimate strong)).2 = true)
    (hn : ¬ ((iterate 0 (d.zeroEstimate strong)).1 > 1 ∨
      (iterate 0 (d.zeroEstimate strong)).1 < -1)) :
    d.Zero strong =
      ((1 / 2) * (d.xSum + d.xDiff * (iterate 0 (d.zeroEstimate strong)).1), none) := by
  have hr' : ¬ (iterate 0 (d.zeroEstimate strong)).2 = false := by simp [hr]
  simp only [Len3.Zero, if_neg hr', if_neg hn]

/-! ## Theorems -/

/-- C1: for every polynomial `p` of degree at most 2 and every `x1 ≠ x3`, the
table built by `NewLen3` from the samples of `p` at `x1`, `(x1+x3)/2` and `x3`
exists and its `InterpolateX` equals `p` at every `x`; in particular
`InterpolateX` gives back the three samples at the three abscissae. -/
theorem len3_interpolateX_quadratic (q0 q1 q2 x1 x3 x : ℚ) (hx : x1 ≠ x3) :
    ∃ d, NewLen3 x1 x3
          [quadratic q0 q1 q2 x1, quadratic q0 q1 q2 ((x1 + x3) / 2), quadratic q0 q1 q2 x3]
          = .ok d ∧
      d.InterpolateX x = quadratic q0 q1 q2 x ∧
      d.InterpolateX x1 = d.y.getD 0 0 ∧
      d.InterpolateX ((x1 + x3) / 2) = d.y.getD 1 0 ∧
      d.InterpolateX x3 = d.y.getD 2 0 := by
  have hne : x3 - x1 ≠ 0 := sub_ne_zero.mpr (Ne.symm hx)
  refine ⟨_, NewLen3_ok x1 x3 _ _ _ hx, ?_, ?_, ?_, ?_⟩ <;>
    simp only [Len3.InterpolateX, Len3.InterpolateN, quadratic, List.getD_cons_zero,
      List.getD_cons_succ] <;>
    field_simp <;> ring

/-- Witness of C1: `p(x) = 1 + 2x + 3x²` sampled on `[0, 2]`, read at `x = 5`. -/
theorem len3_interpolateX_quadratic_witness :
    (0 : ℚ) ≠ 2 ∧
    ∃ d, NewLen3 0 2 [quadratic 1 2 3 0, quadratic 1 2 3 ((0 + 2) / 2), quadratic 1 2 3 2]
          = .ok d ∧
      d.InterpolateX 5 = quadratic 1 2 3 5 ∧
      d.InterpolateX 0 = d.y.getD 0 0 ∧
      d.InterpolateX ((0 + 2) / 2) = d.y.getD 1 0 ∧
      d.InterpolateX 2 = d.y.getD 2 0 :=
  ⟨by norm_num, len3_interpolateX_quadratic 1 2 3 0 2 5 (by norm_num)⟩

/-- C2: for every polynomial `p` of degree at most 4 and every `x1 ≠ x5`, the
table built by `NewLen5` from the five equally spaced samples of `p` on
`x1 .. x5` exists and its `InterpolateX` equals `p` at every `x`; in particular
`InterpolateN k` is the sample `y[k+2]` for `k = -2, -1, 0, 1, 2`. -/
theorem len5_interpolateX_quartic (q0 q1 q2 q3 q4 x1 x5 x : ℚ) (hx : x1 ≠ x5) :
    ∃ d, NewLen5 x1 x5
          [quartic q0 q1 q2 q3 q4 x1,
           quartic q0 q1 q2 q3 q4 (x1 + (x5 - x1) / 4),
           quartic q0 q1 q2 q3 q4 (x1 + 2 * ((x5 - x1) / 4)),
           quartic q0 q1 q2 q3 q4 (x1 + 3 * ((x5 - x1) / 4)),
           quartic q0 q1 q2 q3 q4 x5] = .ok d ∧
      d.InterpolateX x = quartic q0 q1 q2 q3 q4 x ∧
      d.InterpolateN (-2) = d.y.getD 0 0 ∧ d.InterpolateN (-1) = d.y.getD 1 0 ∧
      d.InterpolateN 0 = d.y.getD 2 0 ∧ d.InterpolateN 1 = d.y.getD 3 0 ∧
      d.InterpolateN 2 = d.y.getD 4 0 := by
  have hne : x5 - x1 ≠ 0 := sub_ne_zero.mpr (Ne.symm hx)
  obtain ⟨d, hd⟩ := NewLen5_isOk x1 x5 (quartic q0 q1 q2 q3 q4 x1)
    (quartic q0 q1 q2 q3 q4 (x1 + (x5 - x1) / 4))
    (quartic q0 q1 q2 q3 q4 (x1 + 2 * ((x5 - x1) / 4)))
    (quartic q0 q1 q2 q3 q4 (x1 + 3 * ((x5 - x1) / 4)))
    (quartic q0 q1 q2 q3 q4 x5) hx
  refine ⟨d, hd, ?_, ?_⟩
  · obtain ⟨y0, y1, y2, y3, y4, hy, -, -, -, -, hs, hdiff, hc⟩ := NewLen5_eq_ok hd
    simp only [List.cons.injEq, and_true] at hy
    obtain ⟨e0, e1, e2, e3, e4⟩ := hy
    simp only [Len5.InterpolateX, Len5.InterpolateN, hc, hs, hdiff, Horner,
      ← e0, ← e1, ← e2, ← e3, ← e4, quartic]
    field_simp
    ring
  · obtain ⟨-, -, -, -, -, -, -, hy, -⟩ := NewLen5_eq_ok hd
    rw [hy]
    exact len5_interpolateN_nodes hd

/-- Witness of C2: `p(x) = 1 - x + 2x² + x³ + 3x⁴` sampled on `[0, 4]`, read at
`x = 7`. -/
theorem len5_interpolateX_quartic_witness :
    (0 : ℚ) ≠ 4 ∧
    ∃ d, NewLen5 0 4
          [quartic 1 (-1) 2 1 3 0,
           quartic 1 (-1) 2 1 3 (0 + (4 - 0) / 4),
           quartic 1 (-1) 2 1 3 (0 + 2 * ((4 - 0) / 4)),
           quartic 1 (-1) 2 1 3 (0 + 3 * ((4 - 0) / 4)),
           quartic 1 (-1) 2 1 3 4] = .ok d ∧
      d.InterpolateX 7 = quartic 1 (-1) 2 1 3 7 ∧
      d.InterpolateN (-2) = d.y.getD 0 0 ∧ d.InterpolateN (-1) = d.y.getD 1 0 ∧
      d.InterpolateN 0 = d.y.getD 2 0 ∧ d.InterpolateN 1 = d.y.getD 3 0 ∧
      d.InterpolateN 2 = d.y.getD 4 0 :=
  ⟨by norm_num, len5_interpolateX_quartic 1 (-1) 2 1 3 0 4 7 (by norm_num)⟩

/-- C3: for every table constructed by `NewLen3`, `InterpolateN 0` is exactly
the middle sample `y[1]`, and for every table constructed by `NewLen5`,
`InterpolateN 0` is exactly the middle sample `y[2]`. -/
theorem interpolateN_zero_middle (x1 x3 : ℚ) (y : List ℚ) (d3 : Len3)
    (x1' x5 : ℚ) (y' : List ℚ) (d5 : Len5)
    (h3 : NewLen3 x1 x3 y = .ok d3) (h5 : NewLen5 x1' x5 y' = .ok d5) :
    (d3.InterpolateN 0 = y.getD 1 0 ∧ d3.InterpolateN 0 = d3.y.getD 1 0) ∧
      (d5.InterpolateN 0 = y'.getD 2 0 ∧ d5.InterpolateN 0 = d5.y.getD 2 0) := by
  obtain ⟨y0, y1, y2, rfl, -, rfl⟩ := NewLen3_eq_ok h3
  obtain ⟨-, -, -, -, -, -, -, hy, -⟩ := NewLen5_eq_ok h5
  refine ⟨by simp [Len3.InterpolateN], ?_⟩
  rw [hy]
  exact ⟨(len5_interpolateN_nodes h5).2.2.1, (len5_interpolateN_nodes h5).2.2.1⟩

/-- Witness of C3: the tables on `[7, 9]` with samples `1, 4, 9` and on `[0, 4]`
with samples `0, 1, 16, 81, 256`. -/
theorem interpolateN_zero_middle_witness :
    (NewLen3 7 9 [1, 4, 9] =
        .ok { x1 := 7, x3 := 9, y := [1, 4, 9], a := 3, b := 5, c := 2, abSum := 8,
              xSum := 16, xDiff := 2 } ∧
      NewLen5 0 4 [0, 1, 16, 81, 256] =
        .ok { x1 := 0, x5 := 4, y := [0, 1, 16, 81, 256], a := 1, b := 15, c := 65,
              d := 175, e := 14, f := 50, g := 110, h := 36, j := 60, k := 24, y3 := 16,
              xSum := 4, xDiff := 4, interpCoeff := [16, 32, 24, 8, 1] }) ∧
    (((({ x1 := 7, x3 := 9, y := [1, 4, 9], a := 3, b := 5, c := 2, abSum := 8,
          xSum := 16, xDiff := 2 } : Len3).InterpolateN 0 = ([1, 4, 9] : List ℚ).getD 1 0) ∧
      (({ x1 := 7, x3 := 9, y := [1, 4, 9], a := 3, b := 5, c := 2, abSum := 8,
          xSum := 16, xDiff := 2 } : Len3).InterpolateN 0 = ([1, 4, 9] : List ℚ).getD 1 0)) ∧
     ((({ x1 := 0, x5 := 4, y := [0, 1, 16, 81, 256], a := 1, b := 15, c := 65,
          d := 175, e := 14, f := 50, g := 110, h := 36, j := 60, k := 24, y3 := 16,
          xSum := 4, xDiff := 4, interpCoeff := [16, 32, 24, 8, 1] } : Len5).InterpolateN 0 =
        ([0, 1, 16, 81, 256] : List ℚ).getD 2 0) ∧
      (({ x1 := 0, x5 := 4, y := [0, 1, 16, 81, 256], a := 1, b := 15, c := 65,
          d := 175, e := 14, f := 50, g := 110, h := 36, j := 60, k := 24, y3 := 16,
          xSum := 4, xDiff := 4, interpCoeff := [16, 32, 24, 8, 1] } : Len5).InterpolateN 0 =
        ([0, 1, 16, 81, 256] : List ℚ).getD 2 0))) :=
  have h3 : NewLen3 7 9 [1, 4, 9] =
      .ok { x1 := 7, x3 := 9, y := [1, 4, 9], a := 3, b := 5, c := 2, abSum := 8,
            xSum := 16, xDiff := 2 } := by norm_num [NewLen3]
  have h5 : NewLen5 0 4 [0, 1, 16, 81, 256] =
      .ok { x1 := 0, x5 := 4, y := [0, 1, 16, 81, 256], a := 1, b := 15, c := 65,
            d := 175, e := 14, f := 50, g := 110, h := 36, j := 60, k := 24, y3 := 16,
            xSum := 4, xDiff := 4, interpCoeff := [16, 32, 24, 8, 1] } := by norm_num [NewLen5]
  ⟨⟨h3, h5⟩, interpolateN_zero_middle 7 9 [1, 4, 9] _ 0 4 [0, 1, 16, 81, 256] _ h3 h5⟩

/-- C4: for `N` in `{3, 5}`, `NewLenN x1 xN y` returns the length error
(`ErrorNot3` / `ErrorNot5`) exactly when `len(y) ≠ N`, whatever `x1` and `xN`
are; returns `ErrorNoXRange` exactly when `len(y) = N` and `x1 = xN`; and
otherwise returns a table, which then has `xDiff ≠ 0` and exactly `N` samples
(those given).  Four samples given to `NewLen3` yield `ErrorNot3`. -/
theorem newLen_error_cases (x1 xn : ℚ) (y : List ℚ) :
    ((NewLen3 x1 xn y = .error ErrorNot3 ↔ y.length ≠ 3) ∧
      (NewLen3 x1 xn y = .error ErrorNoXRange ↔ y.length = 3 ∧ x1 = xn) ∧
      ((∃ d, NewLen3 x1 xn y = .ok d) ↔ ¬ y.length ≠ 3 ∧ ¬ (y.length = 3 ∧ x1 = xn)) ∧
      (∀ d, NewLen3 x1 xn y = .ok d → d.xDiff ≠ 0 ∧ d.y.length = 3 ∧ d.y = y) ∧
      (∀ e, NewLen3 x1 xn y = .error e → e = ErrorNot3 ∨ e = ErrorNoXRange)) ∧
    ((NewLen5 x1 xn y = .error ErrorNot5 ↔ y.length ≠ 5) ∧
      (NewLen5 x1 xn y = .error ErrorNoXRange ↔ y.length = 5 ∧ x1 = xn) ∧
      ((∃ d, NewLen5 x1 xn y = .ok d) ↔ ¬ y.length ≠ 5 ∧ ¬ (y.length = 5 ∧ x1 = xn)) ∧
      (∀ d, NewLen5 x1 xn y = .ok d → d.xDiff ≠ 0 ∧ d.y.length = 5 ∧ d.y = y) ∧
      (∀ e, NewLen5 x1 xn y = .error e → e = ErrorNot5 ∨ e = ErrorNoXRange)) ∧
    (∀ y0 y1 y2 y3 : ℚ, NewLen3 x1 xn [y0, y1, y2, y3] = .error ErrorNot3) := by
  refine ⟨⟨?_, ?_, ?_, ?_, ?_⟩, ⟨?_, ?_, ?_, ?_, ?_⟩, ?_⟩
  · unfold NewLen3; split_ifs <;> simp_all
  · unfold NewLen3; split_ifs with h1 h2 <;> simp_all
    exact fun e => h2 e.symm
  · unfold NewLen3; split_ifs with h1 h2 <;> simp_all
    exact fun e => h2 e.symm
  · intro d hd
    unfold NewLen3 at hd
    split_ifs at hd with h1 h2
    have hd' := (Except.ok.inj hd).symm
    subst hd'
    exact ⟨sub_ne_zero.mpr h2, not_not.mp h1, rfl⟩
  · intro e he
    unfold NewLen3 at he
    split_ifs at he with h1 h2
    · exact Or.inl (Except.error.inj he).symm
    · exact Or.inr (Except.error.inj he).symm
  · unfold NewLen5; split_ifs <;> simp_all
  · unfold NewLen5; split_ifs with h1 h2 <;> simp_all
    exact fun e => h2 e.symm
  · unfold NewLen5; split_ifs with h1 h2 <;> simp_all
    exact fun e => h2 e.symm
  · intro d hd
    unfold NewLen5 at hd
    split_ifs at hd with h1 h2
    have hd' := (Except.ok.inj hd).symm
    subst hd'
    exact ⟨sub_ne_zero.mpr h2, not_not.mp h1, rfl⟩
  · intro e he
    unfold NewLen5 at he
    split_ifs at he with h1 h2
    · exact Or.inl (Except.error.inj he).symm
    · exact Or.inr (Except.error.inj he).symm
  · intro y0 y1 y2 y3
    simp [NewLen3]

/-- C5: for every `Len3` and `Len5` table and every factor `n`,
`InterpolateNStrict n` returns `ErrorNOutOfRange` with value 0 exactly when
`n < -1` or `n > 1`, and otherwise returns the value of `InterpolateN n` with
a nil error; in particular `InterpolateNStrict 1.5` fails on every table. -/
theorem interpolateNStrict_cases (d3 : Len3) (d5 : Len5) (n : ℚ) :
    (((d3.InterpolateNStrict n).2 = some ErrorNOutOfRange ↔ (n < -1 ∨ n > 1)) ∧
      (d3.InterpolateNStrict n = (0, some ErrorNOutOfRange) ↔ (n < -1 ∨ n > 1)) ∧
      (d3.InterpolateNStrict n = (d3.InterpolateN n, none) ↔ ¬ (n < -1 ∨ n > 1)) ∧
      d3.InterpolateNStrict (3 / 2) = (0, some ErrorNOutOfRange)) ∧
    (((d5.InterpolateNStrict n).2 = some ErrorNOutOfRange ↔ (n < -1 ∨ n > 1)) ∧
      (d5.InterpolateNStrict n = (0, some ErrorNOutOfRange) ↔ (n < -1 ∨ n > 1)) ∧
      (d5.InterpolateNStrict n = (d5.InterpolateN n, none) ↔ ¬ (n < -1 ∨ n > 1)) ∧
      d5.InterpolateNStrict (3 / 2) = (0, some ErrorNOutOfRange)) := by
  refine ⟨⟨?_, ?_, ?_, ?_⟩, ⟨?_, ?_, ?_, ?_⟩⟩
  · unfold Len3.InterpolateNStrict; split_ifs with h <;> simp [h]
  · unfold Len3.InterpolateNStrict; split_ifs with h <;> simp [h]
  · unfold Len3.InterpolateNStrict; split_ifs with h <;> simp [h]
  · have h : ((3 : ℚ) / 2 < -1 ∨ (3 : ℚ) / 2 > 1) := Or.inr (by norm_num)
    simp only [Len3.InterpolateNStrict, if_pos h]
  · unfold Len5.InterpolateNStrict; split_ifs with h <;> simp [h]
  · unfold Len5.InterpolateNStrict; split_ifs with h <;> simp [h]
  · unfold Len5.InterpolateNStrict Len5.InterpolateN; split_ifs with h <;> simp [h]
  · have h : ((3 : ℚ) / 2 < -1 ∨ (3 : ℚ) / 2 > 1) := Or.inr (by norm_num)
    simp only [Len5.InterpolateNStrict, if_pos h]

/-- In exact arithmetic (no operation rounded): for every table `d` constructed
by `NewLen3 x1 x3 y` and every `x`, `InterpolateXStrict x` succeeds exactly when
`x` lies in the closed range between `x1` and `x3` (in either orientation), and
then returns `InterpolateX x`; otherwise it returns `ErrorXOutOfRange`; it never
returns `ErrorNOutOfRange`.  The float64 code differs at the ends of the range,
see the section on float64 below. -/
theorem len3_interpolateXStrict_cases (x1 x3 : ℚ) (y : List ℚ) (d : Len3) (x : ℚ)
    (h : NewLen3 x1 x3 y = .ok d) :
    ((d.InterpolateXStrict x).2 = none ↔ (min x1 x3 ≤ x ∧ x ≤ max x1 x3)) ∧
      ((min x1 x3 ≤ x ∧ x ≤ max x1 x3) →
        d.InterpolateXStrict x = (d.InterpolateX x, none)) ∧
      (¬ (min x1 x3 ≤ x ∧ x ≤ max x1 x3) →
        d.InterpolateXStrict x = (0, some ErrorXOutOfRange)) ∧
      (d.InterpolateXStrict x).2 ≠ some ErrorNOutOfRange := by
  obtain ⟨y0, y1, y2, rfl, hx, rfl⟩ := NewLen3_eq_ok h
  have key := factor3_mem_iff x1 x3 x hx
  by_cases hr : (min x1 x3 ≤ x ∧ x ≤ max x1 x3)
  · have hn := key.mpr hr
    have e : Len3.InterpolateXStrict
        { x1 := x1, x3 := x3, y := [y0, y1, y2], a := y1 - y0, b := y2 - y1,
          c := (y2 - y1) - (y1 - y0), abSum := (y1 - y0) + (y2 - y1),
          xSum := x3 + x1, xDiff := x3 - x1 } x =
        (Len3.InterpolateX
          { x1 := x1, x3 := x3, y := [y0, y1, y2], a := y1 - y0, b := y2 - y1,
            c := (y2 - y1) - (y1 - y0), abSum := (y1 - y0) + (y2 - y1),
            xSum := x3 + x1, xDiff := x3 - x1 } x, none) := by
      simp only [Len3.InterpolateXStrict, Len3.InterpolateNStrict, Len3.InterpolateX,
        if_neg hn]
      simp
    rw [e]
    exact ⟨⟨fun _ => hr, fun _ => rfl⟩, fun _ => rfl, fun hc => absurd hr hc, by simp⟩
  · have hn : ((2 * x - (x3 + x1)) / (x3 - x1) < -1 ∨ (2 * x - (x3 + x1)) / (x3 - x1) > 1) :=
      not_not.mp (fun hc => hr (key.mp hc))
    have e : Len3.InterpolateXStrict
        { x1 := x1, x3 := x3, y := [y0, y1, y2], a := y1 - y0, b := y2 - y1,
          c := (y2 - y1) - (y1 - y0), abSum := (y1 - y0) + (y2 - y1),
          xSum := x3 + x1, xDiff := x3 - x1 } x = (0, some ErrorXOutOfRange) := by
      simp only [Len3.InterpolateXStrict, Len3.InterpolateNStrict, if_pos hn]
      simp
    rw [e]
    exact ⟨⟨fun hc => by simp at hc, fun hc => absurd hc hr⟩, fun hc => absurd hc hr,
      fun _ => rfl, by simp⟩

/-- An instance of the exact-arithmetic statement: the table on `[7, 9]` with
samples `1, 4, 9`, read at `x = 8`. -/
theorem len3_interpolateXStrict_cases_witness :
    NewLen3 7 9 [1, 4, 9] =
        .ok { x1 := 7, x3 := 9, y := [1, 4, 9], a := 3, b := 5, c := 2, abSum := 8,
              xSum := 16, xDiff := 2 } ∧
    (({ x1 := 7, x3 := 9, y := [1, 4, 9], a := 3, b := 5, c := 2, abSum := 8,
          xSum := 16, xDiff := 2 } : Len3).InterpolateXStrict 8).2 = none :=
  have h3 : NewLen3 7 9 [1, 4, 9] =
      .ok { x1 := 7, x3 := 9, y := [1, 4, 9], a := 3, b := 5, c := 2, abSum := 8,
            xSum := 16, xDiff := 2 } := by norm_num [NewLen3]
  ⟨h3, (len3_interpolateXStrict_cases 7 9 [1, 4, 9] _ 8 h3).1.mpr (by norm_num)⟩

/-- C7 (the code at a failing input): on the `Len5` table built on `[0, 4]`,
`InterpolateXStrict` returns `ErrorXOutOfRange` at `x = 0` and at `x = 4`, the
two end abscissae given to `NewLen5`, and at `x = 1/2`, although all three lie
in the closed range between `x1` and `x5`; it succeeds at `x = 1` and `x = 3`,
the second and fourth abscissae. -/
theorem len5_interpolateXStrict_rejects_table_ends :
    NewLen5 0 4 [0, 1, 16, 81, 256] =
        .ok { x1 := 0, x5 := 4, y := [0, 1, 16, 81, 256], a := 1, b := 15, c := 65,
              d := 175, e := 14, f := 50, g := 110, h := 36, j := 60, k := 24, y3 := 16,
              xSum := 4, xDiff := 4, interpCoeff := [16, 32, 24, 8, 1] } ∧
    ({ x1 := 0, x5 := 4, y := [0, 1, 16, 81, 256], a := 1, b := 15, c := 65,
       d := 175, e := 14, f := 50, g := 110, h := 36, j := 60, k := 24, y3 := 16,
       xSum := 4, xDiff := 4, interpCoeff := [16, 32, 24, 8, 1] } : Len5).InterpolateXStrict 0
      = (0, some ErrorXOutOfRange) ∧
    ({ x1 := 0, x5 := 4, y := [0, 1, 16, 81, 256], a := 1, b := 15, c := 65,
       d := 175, e := 14, f := 50, g := 110, h := 36, j := 60, k := 24, y3 := 16,
       xSum := 4, xDiff := 4, interpCoeff := [16, 32, 24, 8, 1] } : Len5).InterpolateXStrict 4
      = (0, some ErrorXOutOfRange) ∧
    ({ x1 := 0, x5 := 4, y := [0, 1, 16, 81, 256], a := 1, b := 15, c := 65,
       d := 175, e := 14, f := 50, g := 110, h := 36, j := 60, k := 24, y3 := 16,
       xSum := 4, xDiff := 4, interpCoeff := [16, 32, 24, 8, 1] } : Len5).InterpolateXStrict
        (1 / 2)
      = (0, some ErrorXOutOfRange) ∧
    ({ x1 := 0, x5 := 4, y := [0, 1, 16, 81, 256], a := 1, b := 15, c := 65,
       d := 175, e := 14, f := 50, g := 110, h := 36, j := 60, k := 24, y3 := 16,
       xSum := 4, xDiff := 4, interpCoeff := [16, 32, 24, 8, 1] } : Len5).InterpolateXStrict 1
      = (1, none) ∧
    ({ x1 := 0, x5 := 4, y := [0, 1, 16, 81, 256], a := 1, b := 15, c := 65,
       d := 175, e := 14, f := 50, g := 110, h := 36, j := 60, k := 24, y3 := 16,
       xSum := 4, xDiff := 4, interpCoeff := [16, 32, 24, 8, 1] } : Len5).InterpolateXStrict 3
      = (81, none) ∧
    (min (0 : ℚ) 4 ≤ 0 ∧ (0 : ℚ) ≤ max 0 4) ∧ (min (0 : ℚ) 4 ≤ 4 ∧ (4 : ℚ) ≤ max 0 4) ∧
    (min (0 : ℚ) 4 ≤ 1 / 2 ∧ (1 / 2 : ℚ) ≤ max 0 4) := by
  refine ⟨by norm_num [NewLen5], ?_, ?_, ?_, ?_, ?_, ?_, ?_, ?_⟩ <;>
    norm_num [Len5.InterpolateXStrict, Len5.InterpolateNStrict, Horner] <;>
    simp

/-- C8: for every parabola `p(x) = A (x - v)² + B` with `A ≠ 0` and every
`x1 ≠ x3` whose closed range contains the vertex abscissa `v`, the table built
by `NewLen3` from the samples of `p` at `x1`, `(x1+x3)/2`, `x3` exists and its
`Extremum` returns `(v, B)` with no error. -/
theorem len3_extremum_vertex (A v B x1 x3 : ℚ) (hA : A ≠ 0) (hx : x1 ≠ x3)
    (hv : min x1 x3 ≤ v ∧ v ≤ max x1 x3) :
    ∃ d, NewLen3 x1 x3
          [vertexParabola A v B x1, vertexParabola A v B ((x1 + x3) / 2),
           vertexParabola A v B x3] = .ok d ∧
      d.Extremum = (v, B, none) := by
  have hne : x3 - x1 ≠ 0 := sub_ne_zero.mpr (Ne.symm hx)
  refine ⟨_, NewLen3_ok x1 x3 _ _ _ hx, ?_⟩
  have hc : (vertexParabola A v B x3 - vertexParabola A v B ((x1 + x3) / 2)) -
      (vertexParabola A v B ((x1 + x3) / 2) - vertexParabola A v B x1) =
      A * (x3 - x1) ^ 2 / 2 := by
    simp only [vertexParabola]; ring
  have hab : (vertexParabola A v B ((x1 + x3) / 2) - vertexParabola A v B x1) +
      (vertexParabola A v B x3 - vertexParabola A v B ((x1 + x3) / 2)) =
      A * (x3 - x1) * (x3 + x1 - 2 * v) := by
    simp only [vertexParabola]; ring
  have hc0 : A * (x3 - x1) ^ 2 / 2 ≠ 0 := by positivity
  have hn : A * (x3 - x1) * (x3 + x1 - 2 * v) / (-2 * (A * (x3 - x1) ^ 2 / 2)) =
      (2 * v - (x3 + x1)) / (x3 - x1) := by
    field_simp; ring
  have hin := (factor3_mem_iff x1 x3 v hx).mpr hv
  simp only [Len3.Extremum, hc, hab, if_neg hc0, hn, if_neg hin, List.getD_cons_zero,
    List.getD_cons_succ, Prod.mk.injEq, and_true]
  constructor
  · field_simp
  · simp only [vertexParabola]; field_simp; ring

/-- Witness of C8: `p(x) = -(x - 2)² + 5` sampled at 1, 2, 3 gives `(2, 5)`. -/
theorem len3_extremum_vertex_witness :
    ((-1 : ℚ) ≠ 0 ∧ (1 : ℚ) ≠ 3 ∧ (min (1 : ℚ) 3 ≤ 2 ∧ (2 : ℚ) ≤ max 1 3)) ∧
    ∃ d, NewLen3 1 3
          [vertexParabola (-1) 2 5 1, vertexParabola (-1) 2 5 ((1 + 3) / 2),
           vertexParabola (-1) 2 5 3] = .ok d ∧
      d.Extremum = (2, 5, none) :=
  ⟨⟨by norm_num, by norm_num, by norm_num⟩,
    len3_extremum_vertex (-1) 2 5 1 3 (by norm_num) (by norm_num) (by norm_num)⟩

/-- C9: for every table `d` constructed by `NewLen3 x1 x3 y`, with
`c = y[0] + y[2] - 2*y[1]` (the field `d.c`) and `n0 = abSum / (-2c)`:
`Extremum` returns `ErrorNoExtremum` exactly when `c = 0`; otherwise it returns
`ErrorExtremumOutside` exactly when `n0` is outside `[-1, 1]`; otherwise it
succeeds, the returned `x` lies between `x1` and `x3`, and the returned `y` is
`InterpolateX x`. -/
theorem len3_extremum_cases (x1 x3 : ℚ) (y : List ℚ) (d : Len3)
    (h : NewLen3 x1 x3 y = .ok d) :
    d.c = y.getD 0 0 + y.getD 2 0 - 2 * y.getD 1 0 ∧
    (d.Extremum.2.2 = some ErrorNoExtremum ↔
      y.getD 0 0 + y.getD 2 0 - 2 * y.getD 1 0 = 0) ∧
    (d.Extremum.2.2 = some ErrorExtremumOutside ↔
      y.getD 0 0 + y.getD 2 0 - 2 * y.getD 1 0 ≠ 0 ∧
        (d.abSum / (-2 * (y.getD 0 0 + y.getD 2 0 - 2 * y.getD 1 0)) < -1 ∨
          d.abSum / (-2 * (y.getD 0 0 + y.getD 2 0 - 2 * y.getD 1 0)) > 1)) ∧
    (y.getD 0 0 + y.getD 2 0 - 2 * y.getD 1 0 ≠ 0 →
      ¬ (d.abSum / (-2 * (y.getD 0 0 + y.getD 2 0 - 2 * y.getD 1 0)) < -1 ∨
          d.abSum / (-2 * (y.getD 0 0 + y.getD 2 0 - 2 * y.getD 1 0)) > 1) →
      d.Extremum.2.2 = none ∧
        d.Extremum.1 =
          (1 / 2) * (d.xSum +
            d.xDiff * (d.abSum / (-2 * (y.getD 0 0 + y.getD 2 0 - 2 * y.getD 1 0)))) ∧
        min x1 x3 ≤ d.Extremum.1 ∧ d.Extremum.1 ≤ max x1 x3 ∧
        d.Extremum.2.1 = d.InterpolateX d.Extremum.1) := by
  obtain ⟨y0, y1, y2, hy, hx, hd⟩ := NewLen3_eq_ok h
  have hdc : d.c = y.getD 0 0 + y.getD 2 0 - 2 * y.getD 1 0 := by
    rw [hd, hy]; simp only [List.getD_cons_zero, List.getD_cons_succ]; ring
  have hxs : d.xSum = x3 + x1 := by rw [hd]
  have hxd : d.xDiff = x3 - x1 := by rw [hd]
  have hxd0 : d.xDiff ≠ 0 := by rw [hxd]; exact sub_ne_zero.mpr (Ne.symm hx)
  rw [← hdc]
  refine ⟨rfl, ?_, ?_, ?_⟩
  · by_cases hc : d.c = 0
    · rw [extremum_of_c_zero d hc]; simp [hc]
    · by_cases hn : d.abSum / (-2 * d.c) < -1 ∨ d.abSum / (-2 * d.c) > 1
      · rw [extremum_of_outside d hc hn]; simp [hc]
      · rw [extremum_of_inside d hc hn]; simp [hc]
  · by_cases hc : d.c = 0
    · rw [extremum_of_c_zero d hc]; simp [hc]
    · by_cases hn : d.abSum / (-2 * d.c) < -1 ∨ d.abSum / (-2 * d.c) > 1
      · rw [extremum_of_outside d hc hn]
        exact ⟨fun _ => ⟨hc, hn⟩, fun _ => rfl⟩
      · rw [extremum_of_inside d hc hn]
        exact ⟨fun e => by simp at e, fun e => absurd e.2 hn⟩
  · intro hc hn
    rw [extremum_of_inside d hc hn]
    have hn1 : -1 ≤ d.abSum / (-2 * d.c) := by
      by_contra hlt
      exact hn (Or.inl (not_le.mp hlt))
    have hn2 : d.abSum / (-2 * d.c) ≤ 1 := by
      by_contra hgt
      exact hn (Or.inr (not_le.mp hgt))
    have hmem := abscissa3_mem x1 x3 (d.abSum / (-2 * d.c)) hn1 hn2
    refine ⟨rfl, rfl, ?_, ?_, ?_⟩
    · simpa only [hxs, hxd] using hmem.1
    · simpa only [hxs, hxd] using hmem.2
    · simp only [Len3.InterpolateX, Len3.InterpolateN]
      field_simp
      ring

/-- Witness of C9: the table on `[1, 3]` with samples `4, 5, 4` (the parabola
`-(x - 2)² + 5`), whose extremum is found at `x = 2`. -/
theorem len3_extremum_cases_witness :
    NewLen3 1 3 [4, 5, 4] =
        .ok { x1 := 1, x3 := 3, y := [4, 5, 4], a := 1, b := -1, c := -2, abSum := 0,
              xSum := 4, xDiff := 2 } ∧
    ({ x1 := 1, x3 := 3, y := [4, 5, 4], a := 1, b := -1, c := -2, abSum := 0,
       xSum := 4, xDiff := 2 } : Len3).Extremum = (2, 5, none) ∧
    (({ x1 := 1, x3 := 3, y := [4, 5, 4], a := 1, b := -1, c := -2, abSum := 0,
        xSum := 4, xDiff := 2 } : Len3).Extremum.2.2 = some ErrorNoExtremum ↔
      ([4, 5, 4] : List ℚ).getD 0 0 + ([4, 5, 4] : List ℚ).getD 2 0 -
        2 * ([4, 5, 4] : List ℚ).getD 1 0 = 0) :=
  have h3 : NewLen3 1 3 [4, 5, 4] =
      .ok { x1 := 1, x3 := 3, y := [4, 5, 4], a := 1, b := -1, c := -2, abSum := 0,
            xSum := 4, xDiff := 2 } := by norm_num [NewLen3]
  ⟨h3, by norm_num [Len3.Extremum], (len3_extremum_cases 1 3 [4, 5, 4] _ h3).2.1⟩

/-- C10: for every table `d` constructed by `NewLen3 x1 x3 y` and either value
of `strong`, with `(n0, ok)` the result of `iterate` started at factor 0 on the
estimate function of `Zero`: `Zero` returns `ErrorNoConverge` exactly when
`iterate` fails, returns `ErrorZeroOutside` exactly when `iterate` converges to
a factor `n0 > 1` or `n0 < -1`, and otherwise returns
`x = (xSum + xDiff*n0)/2` with no error, which lies in the closed range between
`x1` and `x3`. -/
theorem len3_zero_cases (x1 x3 : ℚ) (y : List ℚ) (d : Len3) (strong : Bool)
    (h : NewLen3 x1 x3 y = .ok d) :
    ((d.Zero strong).2 = some ErrorNoConverge ↔
      (iterate 0 (d.zeroEstimate strong)).2 = false) ∧
    ((d.Zero strong).2 = some ErrorZeroOutside ↔
      (iterate 0 (d.zeroEstimate strong)).2 = true ∧
        ((iterate 0 (d.zeroEstimate strong)).1 > 1 ∨
          (iterate 0 (d.zeroEstimate strong)).1 < -1)) ∧
    ((iterate 0 (d.zeroEstimate strong)).2 = true →
      ¬ ((iterate 0 (d.zeroEstimate strong)).1 > 1 ∨
          (iterate 0 (d.zeroEstimate strong)).1 < -1) →
      d.Zero strong =
          ((d.xSum + d.xDiff * (iterate 0 (d.zeroEstimate strong)).1) / 2, none) ∧
        min x1 x3 ≤ (d.Zero strong).1 ∧ (d.Zero strong).1 ≤ max x1 x3) := by
  obtain ⟨y0, y1, y2, -, -, hd⟩ := NewLen3_eq_ok h
  have hxs : d.xSum = x3 + x1 := by rw [hd]
  have hxd : d.xDiff = x3 - x1 := by rw [hd]
  refine ⟨?_, ?_, ?_⟩
  · cases hr : (iterate 0 (d.zeroEstimate strong)).2
    · rw [zero_of_no_converge d strong hr]; simp
    · by_cases hn : (iterate 0 (d.zeroEstimate strong)).1 > 1 ∨
          (iterate 0 (d.zeroEstimate strong)).1 < -1
      · rw [zero_of_outside d strong hr hn]; simp
      · rw [zero_of_inside d strong hr hn]; simp
  · cases hr : (iterate 0 (d.zeroEstimate strong)).2
    · rw [zero_of_no_converge d strong hr]; simp
    · by_cases hn : (iterate 0 (d.zeroEstimate strong)).1 > 1 ∨
          (iterate 0 (d.zeroEstimate strong)).1 < -1
      · rw [zero_of_outside d strong hr hn]
        exact ⟨fun _ => ⟨rfl, hn⟩, fun _ => rfl⟩
      · rw [zero_of_inside d strong hr hn]
        exact ⟨fun e => by simp at e, fun e => absurd e.2 hn⟩
  · intro hr hn
    rw [zero_of_inside d strong hr hn]
    have hn1 : -1 ≤ (iterate 0 (d.zeroEstimate strong)).1 := by
      by_contra hlt
      exact hn (Or.inr (not_le.mp hlt))
    have hn2 : (iterate 0 (d.zeroEstimate strong)).1 ≤ 1 := by
      by_contra hgt
      exact hn (Or.inl (not_le.mp hgt))
    have hmem := abscissa3_mem x1 x3 _ hn1 hn2
    refine ⟨?_, ?_, ?_⟩
    · rw [Prod.mk.injEq]; exact ⟨by ring, rfl⟩
    · simpa only [hxs, hxd] using hmem.1
    · simpa only [hxs, hxd] using hmem.2

/-- Witness of C10: the table on `[0, 2]` with samples `-1, 1, 3` (the line
`2x - 1`); the fast estimate converges to the factor `-1/2` in two rounds and
`Zero` returns `x = 1/2`. -/
theorem len3_zero_cases_witness :
    NewLen3 0 2 [-1, 1, 3] =
        .ok { x1 := 0, x3 := 2, y := [-1, 1, 3], a := 2, b := 2, c := 0, abSum := 4,
              xSum := 2, xDiff := 2 } ∧
    iterate 0 (({ x1 := 0, x3 := 2, y := [-1, 1, 3], a := 2, b := 2, c := 0, abSum := 4,
                  xSum := 2, xDiff := 2 } : Len3).zeroEstimate false) = (-1 / 2, true) ∧
    ({ x1 := 0, x3 := 2, y := [-1, 1, 3], a := 2, b := 2, c := 0, abSum := 4,
       xSum := 2, xDiff := 2 } : Len3).Zero false = (1 / 2, none) ∧
    ((({ x1 := 0, x3 := 2, y := [-1, 1, 3], a := 2, b := 2, c := 0, abSum := 4,
         xSum := 2, xDiff := 2 } : Len3).Zero false).2 = some ErrorNoConverge ↔
      (iterate 0 (({ x1 := 0, x3 := 2, y := [-1, 1, 3], a := 2, b := 2, c := 0, abSum := 4,
                     xSum := 2, xDiff := 2 } : Len3).zeroEstimate false)).2 = false) :=
  have h3 : NewLen3 0 2 [-1, 1, 3] =
      .ok { x1 := 0, x3 := 2, y := [-1, 1, 3], a := 2, b := 2, c := 0, abSum := 4,
            xSum := 2, xDiff := 2 } := by norm_num [NewLen3]
  have hi : iterate 0 (({ x1 := 0, x3 := 2, y := [-1, 1, 3], a := 2, b := 2, c := 0,
                          abSum := 4, xSum := 2, xDiff := 2 } : Len3).zeroEstimate false) =
      (-1 / 2, true) := by
    norm_num [iterate, iterateLoop, Len3.zeroEstimate, fdiv]
  ⟨h3, hi, by rw [Len3.Zero, hi]; norm_num,
    (len3_zero_cases 0 2 [-1, 1, 3] _ false h3).1⟩

theorem iterateLoopCalls_eq (f : iterFunc) :
    ∀ (limit : ℕ) (n0 : ℚ),
      iterateLoop f limit n0 =
        ((iterateLoopCalls f limit n0).1, (iterateLoopCalls f limit n0).2.1) := by
  intro limit
  induction limit with
  | zero => intro n0; rfl
  | succ l ih =>
    intro n0
    cases hf : f n0 with
    | none => simp only [iterateLoop, iterateLoopCalls, hf]
    | some q =>
      simp only [iterateLoop, iterateLoopCalls, hf]
      split_ifs
      · rfl
      · exact ih q

theorem iterateLoopCalls_le (f : iterFunc) :
    ∀ (limit : ℕ) (n0 : ℚ), (iterateLoopCalls f limit n0).2.2 ≤ limit := by
  intro limit
  induction limit with
  | zero => intro n0; exact le_rfl
  | succ l ih =>
    intro n0
    cases hf : f n0 with
    | none => simp only [iterateLoopCalls, hf]; omega
    | some q =>
      simp only [iterateLoopCalls, hf]
      split_ifs
      · simp
      · have := ih q
        simp only [ge_iff_le]
        omega

theorem iterateLoopCalls_false (f : iterFunc) :
    ∀ (limit : ℕ) (n0 : ℚ), (iterateLoopCalls f limit n0).2.1 = false →
      (iterateLoopCalls f limit n0).1 = 0 := by
  intro limit
  induction limit with
  | zero => intro n0 _; rfl
  | succ l ih =>
    intro n0
    cases hf : f n0 with
    | none => simp only [iterateLoopCalls, hf]; intro _; trivial
    | some q =>
      simp only [iterateLoopCalls, hf]
      split_ifs
      · intro h; simp at h
      · exact ih q

theorem iterateLoopCalls_true (f : iterFunc) :
    ∀ (limit : ℕ) (n0 : ℚ), (iterateLoopCalls f limit n0).2.1 = true →
      ∃ k p, k < limit ∧ estimate f n0 k = some p ∧
        f p = some (iterateLoopCalls f limit n0).1 ∧
        (p ≠ 0 ∧ |((iterateLoopCalls f limit n0).1 - p) / p| < 1 / 10 ^ 15) ∧
        (iterateLoopCalls f limit n0).2.2 = k + 1 ∧
        ∀ k', k' < k → ∀ p' q', estimate f n0 k' = some p' → f p' = some q' →
          ¬ (p' ≠ 0 ∧ |(q' - p') / p'| < 1 / 10 ^ 15) := by
  intro limit
  induction limit with
  | zero => intro n0 h; simp [iterateLoopCalls] at h
  | succ l ih =>
    intro n0
    cases hf : f n0 with
    | none => simp only [iterateLoopCalls, hf]; intro h; simp at h
    | some q =>
      simp only [iterateLoopCalls, hf]
      split_ifs with ht
      · intro _
        exact ⟨0, n0, Nat.succ_pos l, rfl, hf, ht, rfl, fun k' hk' => absurd hk' (Nat.not_lt_zero k')⟩
      · intro h
        obtain ⟨k, p, hk, he, hfp, htest, hc, hmin⟩ := ih q h
        refine ⟨k + 1, p, Nat.succ_lt_succ hk, ?_, hfp, htest, by rw [hc], ?_⟩
        · simp only [estimate, hf, Option.some_bind, he]
        · intro k' hk' p' q' he' hf'
          cases k' with
          | zero =>
            simp only [estimate, Option.some.injEq] at he'
            subst he'
            rw [hf, Option.some.injEq] at hf'
            subst hf'
            exact ht
          | succ j =>
            simp only [estimate, hf, Option.some_bind] at he'
            exact hmin j (Nat.lt_of_succ_lt_succ hk') p' q' he' hf'

theorem iterateLoopCalls_nonfinite (f : iterFunc) :
    ∀ (limit : ℕ) (n0 : ℚ) (k : ℕ) (p : ℚ), k < limit → estimate f n0 k = some p →
      f p = none →
      (∀ k', k' < k → ∀ p' q', estimate f n0 k' = some p' → f p' = some q' →
        ¬ (p' ≠ 0 ∧ |(q' - p') / p'| < 1 / 10 ^ 15)) →
      iterateLoopCalls f limit n0 = (0, false, k + 1) := by
  intro limit
  induction limit with
  | zero => intro n0 k p hk; exact absurd hk (Nat.not_lt_zero k)
  | succ l ih =>
    intro n0 k p hk he hfp hmin
    cases k with
    | zero =>
      simp only [estimate, Option.some.injEq] at he
      subst he
      simp only [iterateLoopCalls, hfp]
    | succ j =>
      cases hf : f n0 with
      | none => simp [estimate, hf] at he
      | some q =>
        simp only [estimate, hf, Option.some_bind] at he
        have ht : ¬ (n0 ≠ 0 ∧ |(q - n0) / n0| < 1 / 10 ^ 15) :=
          hmin 0 (Nat.succ_pos j) n0 q rfl hf
        have hrec := ih q j p (Nat.lt_of_succ_lt_succ hk) he hfp (by
          intro k' hk' p' q' he' hf'
          exact hmin (k' + 1) (Nat.succ_lt_succ hk') p' q'
            (by simp only [estimate, hf, Option.some_bind, he']) hf')
        simp only [iterateLoopCalls, hf, if_neg ht, hrec]

theorem iterateLoopCalls_exhausted (f : iterFunc) :
    ∀ (limit : ℕ) (n0 : ℚ),
      (∀ k, k < limit → ∀ p q, estimate f n0 k = some p → f p = some q →
        ¬ (p ≠ 0 ∧ |(q - p) / p| < 1 / 10 ^ 15)) →
      (iterateLoopCalls f limit n0).1 = 0 ∧ (iterateLoopCalls f limit n0).2.1 = false := by
  intro limit
  induction limit with
  | zero => intro n0 _; exact ⟨rfl, rfl⟩
  | succ l ih =>
    intro n0 hno
    cases hf : f n0 with
    | none => simp only [iterateLoopCalls, hf, and_self]
    | some q =>
      have ht : ¬ (n0 ≠ 0 ∧ |(q - n0) / n0| < 1 / 10 ^ 15) :=
        hno 0 (Nat.succ_pos l) n0 q rfl hf
      have hrec := ih q (by
        intro k hk p' q' he' hf'
        exact hno (k + 1) (Nat.succ_lt_succ hk) p' q'
          (by simp only [estimate, hf, Option.some_bind, he']) hf')
      simp only [iterateLoopCalls, hf, if_neg ht]
      exact hrec

/-- C19: for every estimate function `f` and start `n0`, `iterate(n0, f)`
applies `f` at most 50 times; it returns `(n1, true)` only when, at some round
`k < 50`, `n1 = f(p)` for the preceding estimate `p` and `|(n1 - p)/p| < 1e-15`
(a test that is false when `p` is zero), no earlier round having passed the
test, and it has then applied `f` exactly `k + 1` times; it returns
`(0, false)` as soon as an estimate is not finite, and also when 50 rounds
pass without the test holding; a failure always carries the value 0. -/
theorem iterate_cases (f : iterFunc) (n0 : ℚ) :
    iterateCalls n0 f ≤ 50 ∧
    (∀ n1, iterate n0 f = (n1, true) →
      ∃ k p, k < 50 ∧ estimate f n0 k = some p ∧ f p = some n1 ∧
        (p ≠ 0 ∧ |(n1 - p) / p| < 1 / 10 ^ 15) ∧ iterateCalls n0 f = k + 1 ∧
        ∀ k', k' < k → ∀ p' q', estimate f n0 k' = some p' → f p' = some q' →
          ¬ (p' ≠ 0 ∧ |(q' - p') / p'| < 1 / 10 ^ 15)) ∧
    ((iterate n0 f).2 = false → iterate n0 f = (0, false)) ∧
    (∀ k p, k < 50 → estimate f n0 k = some p → f p = none →
      (∀ k', k' < k → ∀ p' q', estimate f n0 k' = some p' → f p' = some q' →
        ¬ (p' ≠ 0 ∧ |(q' - p') / p'| < 1 / 10 ^ 15)) →
      iterate n0 f = (0, false) ∧ iterateCalls n0 f = k + 1) ∧
    ((∀ k, k < 50 → ∀ p q, estimate f n0 k = some p → f p = some q →
        ¬ (p ≠ 0 ∧ |(q - p) / p| < 1 / 10 ^ 15)) →
      iterate n0 f = (0, false)) := by
  have heq := iterateLoopCalls_eq f 50 n0
  refine ⟨iterateLoopCalls_le f 50 n0, ?_, ?_, ?_, ?_⟩
  · intro n1 h
    rw [iterate, heq, Prod.mk.injEq] at h
    obtain ⟨k, p, hk, he, hfp, ht, hc, hmin⟩ := iterateLoopCalls_true f 50 n0 h.2
    rw [h.1] at hfp ht
    exact ⟨k, p, hk, he, hfp, ht, hc, hmin⟩
  · intro h
    rw [iterate, heq] at h ⊢
    rw [Prod.mk.injEq]
    exact ⟨iterateLoopCalls_false f 50 n0 h, h⟩
  · intro k p hk he hfp hmin
    have hrun := iterateLoopCalls_nonfinite f 50 n0 k p hk he hfp hmin
    rw [iterate, heq, iterateCalls, hrun]
    exact ⟨rfl, rfl⟩
  · intro hno
    obtain ⟨h1, h2⟩ := iterateLoopCalls_exhausted f 50 n0 hno
    rw [iterate, heq, h1, h2]

/-- The abscissa `xSum/2 + xDiff*n/4` of a factor `n` in `[-2, 2]` lies between
`x1` and `x5`. -/
theorem abscissa5_mem (x1 x5 n : ℚ) (h1 : -2 ≤ n) (h2 : n ≤ 2) :
    min x1 x5 ≤ (1 / 2) * (x5 + x1) + (1 / 4) * (x5 - x1) * n ∧
      (1 / 2) * (x5 + x1) + (1 / 4) * (x5 - x1) * n ≤ max x1 x5 := by
  rcases le_total x1 x5 with hle | hge
  · rw [min_eq_left hle, max_eq_right hle]
    constructor
    · nlinarith [mul_nonneg (sub_nonneg.mpr hle) (by linarith : (0 : ℚ) ≤ 2 + n)]
    · nlinarith [mul_nonneg (sub_nonneg.mpr hle) (by linarith : (0 : ℚ) ≤ 2 - n)]
  · rw [min_eq_right hge, max_eq_left hge]
    constructor
    · nlinarith [mul_nonneg (sub_nonneg.mpr hge) (by linarith : (0 : ℚ) ≤ 2 - n)]
    · nlinarith [mul_nonneg (sub_nonneg.mpr hge) (by linarith : (0 : ℚ) ≤ 2 + n)]

theorem extremum5_of_den_zero (d : Len5) (hk : d.k - 12 * d.f = 0) :
    d.Extremum = (0, 0, some ErrorExtremumOutside) := by
  simp only [Len5.Extremum, if_pos hk]

theorem extremum5_of_no_converge (d : Len5) (hk : d.k - 12 * d.f ≠ 0)
    (hr : (iterate 0 d.extremumEstimate).2 = false) :
    d.Extremum = (0, 0, some ErrorNoConverge) := by
  simp only [Len5.Extremum, if_neg hk, if_pos hr]

theorem extremum5_of_outside (d : Len5) (hk : d.k - 12 * d.f ≠ 0)
    (hr : (iterate 0 d.extremumEstimate).2 = true)
    (hn : (iterate 0 d.extremumEstimate).1 < -2 ∨ (iterate 0 d.extremumEstimate).1 > 2) :
    d.Extremum = (0, 0, some ErrorExtremumOutside) := by
  have hr' : ¬ (iterate 0 d.extremumEstimate).2 = false := by simp [hr]
  simp only [Len5.Extremum, if_neg hk, if_neg hr', if_pos hn]

theorem extremum5_of_inside (d : Len5) (hk : d.k - 12 * d.f ≠ 0)
    (hr : (iterate 0 d.extremumEstimate).2 = true)
    (hn : ¬ ((iterate 0 d.extremumEstimate).1 < -2 ∨ (iterate 0 d.extremumEstimate).1 > 2)) :
    d.Extremum =
      ((1 / 2) * d.xSum + (1 / 4) * d.xDiff * (iterate 0 d.extremumEstimate).1,
        Horner (iterate 0 d.extremumEstimate).1 d.interpCoeff, none) := by
  have hr' : ¬ (iterate 0 d.extremumEstimate).2 = false := by simp [hr]
  simp only [Len5.Extremum, if_neg hk, if_neg hr', if_neg hn]

/-- C20: for every table `d` constructed by `NewLen5 x1 x5 y`, `Extremum`
returns `ErrorExtremumOutside` when `k = 12f` (whatever `iterate` would do);
otherwise it returns `ErrorNoConverge` exactly when `iterate`, started at
factor 0, fails; otherwise it returns `ErrorExtremumOutside` exactly when the
converged factor `n0` is outside `[-2, 2]`; otherwise it succeeds, the returned
`x = xSum/2 + xDiff*n0/4` lies between `x1` and `x5`, and the returned `y` is
`InterpolateX x`. -/
theorem len5_extremum_cases (x1 x5 : ℚ) (y : List ℚ) (d : Len5)
    (h : NewLen5 x1 x5 y = .ok d) :
    (d.k = 12 * d.f → d.Extremum = (0, 0, some ErrorExtremumOutside)) ∧
    (d.Extremum.2.2 = some ErrorNoConverge ↔
      d.k ≠ 12 * d.f ∧ (iterate 0 d.extremumEstimate).2 = false) ∧
    (d.Extremum.2.2 = some ErrorExtremumOutside ↔
      d.k = 12 * d.f ∨
        ((iterate 0 d.extremumEstimate).2 = true ∧
          ((iterate 0 d.extremumEstimate).1 < -2 ∨ (iterate 0 d.extremumEstimate).1 > 2))) ∧
    (d.k ≠ 12 * d.f → (iterate 0 d.extremumEstimate).2 = true →
      ¬ ((iterate 0 d.extremumEstimate).1 < -2 ∨ (iterate 0 d.extremumEstimate).1 > 2) →
      d.Extremum.2.2 = none ∧
        d.Extremum.1 =
          (1 / 2) * d.xSum + (1 / 4) * d.xDiff * (iterate 0 d.extremumEstimate).1 ∧
        min x1 x5 ≤ d.Extremum.1 ∧ d.Extremum.1 ≤ max x1 x5 ∧
        d.Extremum.2.1 = d.InterpolateX d.Extremum.1) := by
  obtain ⟨y0, y1, y2, y3, y4, -, hx, -, -, -, hxs, hxd, -⟩ := NewLen5_eq_ok h
  have hxd0 : d.xDiff ≠ 0 := by rw [hxd]; exact sub_ne_zero.mpr (Ne.symm hx)
  have hkiff : d.k = 12 * d.f ↔ d.k - 12 * d.f = 0 := by
    constructor <;> intro e <;> linarith
  refine ⟨fun hk => extremum5_of_den_zero d (hkiff.mp hk), ?_, ?_, ?_⟩
  · by_cases hk : d.k - 12 * d.f = 0
    · rw [extremum5_of_den_zero d hk]
      exact ⟨fun e => by simp at e, fun e => absurd (hkiff.mpr hk) e.1⟩
    · cases hr : (iterate 0 d.extremumEstimate).2
      · rw [extremum5_of_no_converge d hk hr]
        exact ⟨fun _ => ⟨fun e => hk (hkiff.mp e), rfl⟩, fun _ => rfl⟩
      · by_cases hn : (iterate 0 d.extremumEstimate).1 < -2 ∨
            (iterate 0 d.extremumEstimate).1 > 2
        · rw [extremum5_of_outside d hk hr hn]
          exact ⟨fun e => by simp at e, fun e => by simp at e⟩
        · rw [extremum5_of_inside d hk hr hn]
          exact ⟨fun e => by simp at e, fun e => by simp at e⟩
  · by_cases hk : d.k - 12 * d.f = 0
    · rw [extremum5_of_den_zero d hk]
      exact ⟨fun _ => Or.inl (hkiff.mpr hk), fun _ => rfl⟩
    · cases hr : (iterate 0 d.extremumEstimate).2
      · rw [extremum5_of_no_converge d hk hr]
        refine ⟨fun e => by simp at e, fun e => ?_⟩
        rcases e with e | e
        · exact absurd (hkiff.mp e) hk
        · simp at e
      · by_cases hn : (iterate 0 d.extremumEstimate).1 < -2 ∨
            (iterate 0 d.extremumEstimate).1 > 2
        · rw [extremum5_of_outside d hk hr hn]
          exact ⟨fun _ => Or.inr ⟨rfl, hn⟩, fun _ => rfl⟩
        · rw [extremum5_of_inside d hk hr hn]
          refine ⟨fun e => by simp at e, fun e => ?_⟩
          rcases e with e | e
          · exact absurd (hkiff.mp e) hk
          · exact absurd e.2 hn
  · intro hk hr hn
    rw [extremum5_of_inside d (fun e => hk (hkiff.mpr e)) hr hn]
    have hn1 : -2 ≤ (iterate 0 d.extremumEstimate).1 := by
      by_contra hlt
      exact hn (Or.inl (not_le.mp hlt))
    have hn2 : (iterate 0 d.extremumEstimate).1 ≤ 2 := by
      by_contra hgt
      exact hn (Or.inr (not_le.mp hgt))
    have hmem := abscissa5_mem x1 x5 _ hn1 hn2
    refine ⟨rfl, rfl, ?_, ?_, ?_⟩
    · simpa only [hxs, hxd] using hmem.1
    · simpa only [hxs, hxd] using hmem.2
    · simp only [Len5.InterpolateX, Len5.InterpolateN]
      congr 1
      field_simp
      ring

/-- Witness of C20: the table on `[0, 4]` with samples `9, 4, 1, 0, 1` (the
parabola `(x - 3)²`); `iterate` converges to the factor 1 in two rounds and
`Extremum` returns `(3, 0)`. -/
theorem len5_extremum_cases_witness :
    ∃ d, NewLen5 0 4 [9, 4, 1, 0, 1] = .ok d ∧
      iterate 0 d.extremumEstimate = (1, true) ∧
      d.Extremum = (3, 0, none) ∧
      (d.Extremum.2.2 = some ErrorNoConverge ↔
        d.k ≠ 12 * d.f ∧ (iterate 0 d.extremumEstimate).2 = false) :=
  have h5 : NewLen5 0 4 [9, 4, 1, 0, 1] =
      .ok { x1 := 0, x5 := 4, y := [9, 4, 1, 0, 1], a := -5, b := -3, c := -1,
            d := 1, e := 2, f := 2, g := 2, h := 0, j := 0, k := 0, y3 := 1,
            xSum := 4, xDiff := 4, interpCoeff := [1, -2, 1, 0, 0] } := by
    norm_num [NewLen5]
  have hi : iterate 0 (Len5.extremumEstimate
      { x1 := 0, x5 := 4, y := [9, 4, 1, 0, 1], a := -5, b := -3, c := -1,
        d := 1, e := 2, f := 2, g := 2, h := 0, j := 0, k := 0, y3 := 1,
        xSum := 4, xDiff := 4, interpCoeff := [1, -2, 1, 0, 0] }) = (1, true) := by
    norm_num [iterate, iterateLoop, Len5.extremumEstimate, fdiv, Horner]
  ⟨_, h5, hi, by rw [Len5.Extremum, hi]; norm_num [Horner],
    (len5_extremum_cases 0 4 [9, 4, 1, 0, 1] _ h5).2.1⟩

theorem iterateLoop_continue (f : iterFunc) (limit : ℕ) (n0 n1 : ℚ) (hf : f n0 = some n1)
    (ht : ¬ (n0 ≠ 0 ∧ |(n1 - n0) / n0| < 1 / 10 ^ 15)) :
    iterateLoop f (limit + 1) n0 = iterateLoop f limit n1 := by
  simp only [iterateLoop, hf, if_neg ht]

theorem iterateLoop_stop (f : iterFunc) (limit : ℕ) (n0 n1 : ℚ) (hf : f n0 = some n1)
    (ht : n0 ≠ 0 ∧ |(n1 - n0) / n0| < 1 / 10 ^ 15) :
    iterateLoop f (limit + 1) n0 = (n1, true) := by
  simp only [iterateLoop, hf, if_pos ht]

theorem example3c_fast (d : Len3) (hy : d.y = [-1693.4, 406.3, 2303.2])
    (hab : d.abSum = 3996.6) (hc : d.c = -202.8) :
    iterate 0 (d.zeroEstimate false) = ((-1369563486073328051222834046052405069 / 6804699620269307478852763318524858987), true) := by
  have hest : ∀ n0 : ℚ, d.zeroEstimate false n0 =
      fdiv (-2 * 406.3) (3996.6 + -202.8 * n0) := by
    intro n0
    simp [Len3.zeroEstimate, hy, hab, hc]
  have e0 : d.zeroEstimate false (0) = some (-4063 / 19983) := by
    rw [hest]; norm_num [fdiv]
  have e1 : d.zeroEstimate false (-4063 / 19983) = some (-27063643 / 134480057) := by
    rw [hest]; norm_num [fdiv]
  have e2 : d.zeroEstimate false (-27063643 / 134480057) = some (-546392471591 / 2714757513033) := by
    rw [hest]; norm_num [fdiv]
  have e3 : d.zeroEstimate false (-546392471591 / 2714757513033) = some (-3676686591817693 / 18267680449710571) := by
    rw [hest]; norm_num [fdiv]
  have e4 : d.zeroEstimate false (-3676686591817693 / 18267680449710571) = some (-74221585667174049973 / 368771218630669480995) := by
    rw [hest]; norm_num [fdiv]
  have e5 : d.zeroEstimate false (-74221585667174049973 / 368771218630669480995) = some (-499439153765470033760895 / 2481471983254394241798569) := by
    rw [hest]; norm_num [fdiv]
  have e6 : d.zeroEstimate false (-499439153765470033760895 / 2481471983254394241798569) = some (-10082220667962603804427585847 / 50093685943290746748094351857) := by
    rw [hest]; norm_num [fdiv]
  have e7 : d.zeroEstimate false (-10082220667962603804427585847 / 50093685943290746748094351857) = some (-67843548662530101345835783864997 / 337081832654031024174953001735763) := by
    rw [hest]; norm_num [fdiv]
  have e8 : d.zeroEstimate false (-67843548662530101345835783864997 / 337081832654031024174953001735763) = some (-1369563486073328051222834046052405069 / 6804699620269307478852763318524858987) := by
    rw [hest]; norm_num [fdiv]
  unfold iterate
  rw [show (50 : ℕ) = 49 + 1 from rfl, iterateLoop_continue _ _ _ _ e0 (by norm_num [abs_lt])]
  rw [show (49 : ℕ) = 48 + 1 from rfl, iterateLoop_continue _ _ _ _ e1 (by norm_num [abs_lt])]
  rw [show (48 : ℕ) = 47 + 1 from rfl, iterateLoop_continue _ _ _ _ e2 (by norm_num [abs_lt])]
  rw [show (47 : ℕ) = 46 + 1 from rfl, iterateLoop_continue _ _ _ _ e3 (by norm_num [abs_lt])]
  rw [show (46 : ℕ) = 45 + 1 from rfl, iterateLoop_continue _ _ _ _ e4 (by norm_num [abs_lt])]
  rw [show (45 : ℕ) = 44 + 1 from rfl, iterateLoop_continue _ _ _ _ e5 (by norm_num [abs_lt])]
  rw [show (44 : ℕ) = 43 + 1 from rfl, iterateLoop_continue _ _ _ _ e6 (by norm_num [abs_lt])]
  rw [show (43 : ℕ) = 42 + 1 from rfl, iterateLoop_continue _ _ _ _ e7 (by norm_num [abs_lt])]
  rw [show (42 : ℕ) = 41 + 1 from rfl, iterateLoop_stop _ _ _ _ e8 (by norm_num [abs_lt])]

theorem example3c_strong (d : Len3) (hy : d.y = [-1693.4, 406.3, 2303.2])
    (hab : d.abSum = 3996.6) (hc : d.c = -202.8) :
    iterate 0 (d.zeroEstimate true) = ((-397986042252627224093514822161816405863823690126874448325564213127830649841906868625065518347870305360012349311910302222032487 / 1977400462357199638479851672996384233638204409699265802218815578427890675242473969516699232693860529043540063881589144340865217), true) := by
  have hest : ∀ n0 : ℚ, d.zeroEstimate true n0 =
      (fdiv (2 * 406.3 + n0 * (3996.6 + -202.8 * n0)) (3996.6 + 2 * -202.8 * n0)).map
        fun q => n0 - q := by
    intro n0
    simp [Len3.zeroEstimate, hy, hab, hc]
  have e0 : d.zeroEstimate true (0) = some (-4063 / 19983) := by
    rw [hest]; norm_num [fdiv]
  have e1 : d.zeroEstimate true (-4063 / 19983) = some (-546392471591 / 2714757513033) := by
    rw [hest]; norm_num [fdiv]
  have e2 : d.zeroEstimate true (-546392471591 / 2714757513033) = some (-10082220667962603804427585847 / 50093685943290746748094351857) := by
    rw [hest]; norm_num [fdiv]
  have e3 : d.zeroEstimate true (-10082220667962603804427585847 / 50093685943290746748094351857) = some (-3432891516655098274732351781181992175220213873732272595353671 / 17056380253524051065262445929032027589344996226238927144704993) := by
    rw [hest]; norm_num [fdiv]
  have e4 : d.zeroEstimate true (-3432891516655098274732351781181992175220213873732272595353671 / 17056380253524051065262445929032027589344996226238927144704993) = some (-397986042252627224093514822161816405863823690126874448325564213127830649841906868625065518347870305360012349311910302222032487 / 1977400462357199638479851672996384233638204409699265802218815578427890675242473969516699232693860529043540063881589144340865217) := by
    rw [hest]; norm_num [fdiv]
  unfold iterate
  rw [show (50 : ℕ) = 49 + 1 from rfl, iterateLoop_continue _ _ _ _ e0 (by norm_num [abs_lt])]
  rw [show (49 : ℕ) = 48 + 1 from rfl, iterateLoop_continue _ _ _ _ e1 (by norm_num [abs_lt])]
  rw [show (48 : ℕ) = 47 + 1 from rfl, iterateLoop_continue _ _ _ _ e2 (by norm_num [abs_lt])]
  rw [show (47 : ℕ) = 46 + 1 from rfl, iterateLoop_continue _ _ _ _ e3 (by norm_num [abs_lt])]
  rw [show (46 : ℕ) = 45 + 1 from rfl, iterateLoop_stop _ _ _ _ e4 (by norm_num [abs_lt])]

/-- C11: for the table `x1 = 26`, `x3 = 28`, `y = [-1693.4, 406.3, 2303.2]`
(Meeus, example 3.c), `Zero false` and `Zero true` both succeed, their
results differ by less than `1e-9`, and each is within `1e-5` of `26.79873`. -/
theorem len3_zero_example_3c :
    ∃ d, NewLen3 26 28 [-1693.4, 406.3, 2303.2] = .ok d ∧
      (d.Zero false).2 = none ∧ (d.Zero true).2 = none ∧
      |(d.Zero false).1 - (d.Zero true).1| < 1 / 10 ^ 9 ∧
      |(d.Zero false).1 - 26.79873| < 1 / 10 ^ 5 ∧
      |(d.Zero true).1 - 26.79873| < 1 / 10 ^ 5 := by
  refine ⟨_, NewLen3_ok 26 28 (-1693.4) 406.3 2303.2 (by norm_num), ?_⟩
  have hf := example3c_fast
    { x1 := 26, x3 := 28, y := [-1693.4, 406.3, 2303.2], a := 406.3 - -1693.4,
      b := 2303.2 - 406.3, c := (2303.2 - 406.3) - (406.3 - -1693.4),
      abSum := (406.3 - -1693.4) + (2303.2 - 406.3), xSum := 28 + 26, xDiff := 28 - 26 }
    rfl (by norm_num) (by norm_num)
  have hs := example3c_strong
    { x1 := 26, x3 := 28, y := [-1693.4, 406.3, 2303.2], a := 406.3 - -1693.4,
      b := 2303.2 - 406.3, c := (2303.2 - 406.3) - (406.3 - -1693.4),
      abSum := (406.3 - -1693.4) + (2303.2 - 406.3), xSum := 28 + 26, xDiff := 28 - 26 }
    rfl (by norm_num) (by norm_num)
  refine ⟨?_, ?_, ?_, ?_, ?_⟩ <;>
    simp only [Len3.Zero, hf, hs] <;>
    norm_num [abs_lt]

/-! ## Lagrange and LagrangePoly -/

theorem foldl_add_eq_sum (g : ℕ → ℚ) (l : List ℕ) (a : ℚ) :
    List.foldl (fun s i => s + g i) a l = a + (l.map g).sum := by
  induction l generalizing a with
  | nil => simp
  | cons i l ih => simp only [List.foldl_cons, ih, List.map_cons, List.sum_cons]; ring

theorem foldl_mul_ite_eq_prod (c : ℕ → Prop) [DecidablePred c] (g : ℕ → ℚ) (l : List ℕ)
    (a : ℚ) :
    List.foldl (fun p j => if c j then p * g j else p) a l =
      a * ((l.filter fun j => decide (c j)).map g).prod := by
  induction l generalizing a with
  | nil => simp
  | cons j l ih =>
    simp only [List.foldl_cons, ih]
    by_cases hc : c j
    · simp only [if_pos hc, List.filter_cons, decide_eq_true hc, if_true, List.map_cons,
        List.prod_cons]
      ring
    · simp [hc, List.filter_cons]

/-- `Lagrange` as a sum over the rows of products over the other rows. -/
theorem Lagrange_eq_sum (x : ℚ) (table : List Row) :
    Lagrange x table =
      ((List.range table.length).map fun i =>
        (table.getD i ⟨0, 0⟩).Y *
          (((List.range table.length).filter fun j => decide (i ≠ j)).map fun j =>
            (x - (table.getD j ⟨0, 0⟩).X) /
              ((table.getD i ⟨0, 0⟩).X - (table.getD j ⟨0, 0⟩).X)).prod).sum := by
  simp only [Lagrange, foldl_mul_ite_eq_prod, foldl_add_eq_sum, one_mul, zero_add]

theorem sum_range_eq_single (g : ℕ → ℚ) :
    ∀ (n i : ℕ), i < n → (∀ k, k < n → k ≠ i → g k = 0) →
      ((List.range n).map g).sum = g i := by
  intro n
  induction n with
  | zero => intro i hi; exact absurd hi (Nat.not_lt_zero i)
  | succ n ih =>
    intro i hi h0
    rw [List.range_succ, List.map_append, List.sum_append]
    simp only [List.map_cons, List.map_nil, List.sum_cons, List.sum_nil, add_zero]
    rcases Nat.lt_or_ge i n with hlt | hge
    · rw [ih i hlt (fun k hk hne => h0 k (Nat.lt_succ_of_lt hk) hne),
        h0 n (Nat.lt_succ_self n) (Nat.ne_of_gt hlt), add_zero]
    · have hin : i = n := by omega
      subst hin
      have hz : ((List.range i).map g).sum = 0 := by
        apply List.sum_eq_zero
        intro v hv
        obtain ⟨k, hk, rfl⟩ := List.mem_map.mp hv
        have hk' := List.mem_range.mp hk
        exact h0 k (Nat.lt_succ_of_lt hk') (Nat.ne_of_lt hk')
      rw [hz, zero_add]

theorem row_X_injective (table : List Row) (hnd : (table.map Row.X).Nodup) {i j : ℕ}
    (hi : i < table.length) (hj : j < table.length)
    (he : (table.getD i ⟨0, 0⟩).X = (table.getD j ⟨0, 0⟩).X) : i = j := by
  rw [List.getD_eq_getElem _ _ hi, List.getD_eq_getElem _ _ hj] at he
  have hi' : i < (table.map Row.X).length := by simpa using hi
  have hj' : j < (table.map Row.X).length := by simpa using hj
  have : (table.map Row.X)[i] = (table.map Row.X)[j] := by
    simpa only [List.getElem_map] using he
  exact (List.Nodup.getElem_inj_iff hnd).mp this

theorem Lagrange_getD_row (table : List Row) (i : ℕ) (hi : i < table.length)
    (hnd : (table.map Row.X).Nodup) :
    Lagrange (table.getD i ⟨0, 0⟩).X table = (table.getD i ⟨0, 0⟩).Y := by
  rw [Lagrange_eq_sum]
  rw [sum_range_eq_single _ table.length i hi]
  · have hone : (((List.range table.length).filter fun j => decide (i ≠ j)).map fun j =>
        ((table.getD i ⟨0, 0⟩).X - (table.getD j ⟨0, 0⟩).X) /
          ((table.getD i ⟨0, 0⟩).X - (table.getD j ⟨0, 0⟩).X)).prod = 1 := by
      apply List.prod_eq_one
      intro v hv
      obtain ⟨j, hj, rfl⟩ := List.mem_map.mp hv
      rw [List.mem_filter, List.mem_range, decide_eq_true_eq] at hj
      have hne : (table.getD i ⟨0, 0⟩).X - (table.getD j ⟨0, 0⟩).X ≠ 0 :=
        sub_ne_zero.mpr fun he => hj.2 (row_X_injective table hnd hi hj.1 he)
      exact div_self hne
    rw [hone, mul_one]
  · intro k hk hki
    have hzero : (((List.range table.length).filter fun j => decide (k ≠ j)).map fun j =>
        ((table.getD i ⟨0, 0⟩).X - (table.getD j ⟨0, 0⟩).X) /
          ((table.getD k ⟨0, 0⟩).X - (table.getD j ⟨0, 0⟩).X)).prod = 0 := by
      apply List.prod_eq_zero
      apply List.mem_map.mpr
      refine ⟨i, ?_, by rw [sub_self, zero_div]⟩
      rw [List.mem_filter, List.mem_range, decide_eq_true_eq]
      exact ⟨hi, hki⟩
    rw [hzero, mul_zero]

theorem mulStep_fold (xj : ℚ) :
    ∀ (m s : ℕ) (q : ℕ → ℚ),
      (List.range' s m).foldl (fun p k => Function.update p k (p k - p (k + 1) * xj)) q =
        fun k => if s ≤ k ∧ k < s + m then q k - q (k + 1) * xj else q k := by
  intro m
  induction m with
  | zero =>
    intro s q
    funext k
    have hc : ¬ (s ≤ k ∧ k < s + 0) := by omega
    simp only [List.range'_zero, List.foldl_nil, if_neg hc]
  | succ m ih =>
    intro s q
    rw [List.range'_succ, List.foldl_cons, ih]
    funext k
    by_cases hks : k = s
    · subst hks
      have hc1 : ¬ (k + 1 ≤ k ∧ k < k + 1 + m) := by omega
      have hc2 : k ≤ k ∧ k < k + (m + 1) := by omega
      simp only [if_neg hc1, if_pos hc2, Function.update_same]
    · have hk1 : k + 1 ≠ s ∨ ¬ (s + 1 ≤ k) := by omega
      by_cases hc : s + 1 ≤ k ∧ k < s + 1 + m
      · have hc2 : s ≤ k ∧ k < s + (m + 1) := by omega
        have hne : k + 1 ≠ s := by omega
        simp only [if_pos hc, if_pos hc2, Function.update_noteq hks, Function.update_noteq hne]
      · have hc2 : ¬ (s ≤ k ∧ k < s + (m + 1)) := by omega
        simp only [if_neg hc, if_neg hc2, Function.update_noteq hks]

theorem mulStep_apply (xj : ℚ) (last n : ℕ) (p : ℕ → ℚ) (hn : n + 1 ≤ last) (k : ℕ) :
    LagrangePoly.mulStep xj last (n + 1) p k =
      if k = n then p (n + 1) * -xj
      else if n + 1 ≤ k ∧ k < last then p k - p (k + 1) * xj else p k := by
  rw [LagrangePoly.mulStep, mulStep_fold]
  have hs : n + 1 + (last - (n + 1)) = last := by omega
  have hsub : ∀ v : ℚ, Function.update p (n + 1 - 1) v = Function.update p n v :=
    fun _ => rfl
  simp only [hs, hsub]
  by_cases hk : k = n
  · subst hk
    have hc : ¬ (k + 1 ≤ k ∧ k < last) := by omega
    simp only [if_neg hc, Function.update_same, if_true]
  · simp only [if_neg hk]
    by_cases hc : n + 1 ≤ k ∧ k < last
    · have hne : k + 1 ≠ n := by omega
      simp only [if_pos hc, Function.update_noteq hk, Function.update_noteq hne]
    · simp only [if_neg hc, Function.update_noteq hk]

theorem poly_mul_linear (q : ℕ → ℚ) (x xj : ℚ) :
    ∀ m : ℕ,
      q 0 * -xj + ∑ t in Finset.range m, (q t - q (t + 1) * xj) * x ^ (t + 1) +
          q m * x ^ (m + 1) =
        (x - xj) * ∑ t in Finset.range (m + 1), q t * x ^ t := by
  intro m
  induction m with
  | zero => simp; ring
  | succ m ih =>
    rw [Finset.sum_range_succ, Finset.sum_range_succ _ (m + 1)]
    linear_combination ih

theorem mulStep_window (xj x : ℚ) (last n m : ℕ) (p : ℕ → ℚ) (hnm : n + 1 + m = last) :
    ∑ t in Finset.range (m + 2), LagrangePoly.mulStep xj last (n + 1) p (n + t) * x ^ t =
      (x - xj) * ∑ t in Finset.range (m + 1), p (n + 1 + t) * x ^ t := by
  have hn : n + 1 ≤ last := by omega
  rw [← poly_mul_linear (fun t => p (n + 1 + t)) x xj m]
  rw [Finset.sum_range_succ', Finset.sum_range_succ]
  have h0 : LagrangePoly.mulStep xj last (n + 1) p (n + 0) * x ^ 0 = p (n + 1 + 0) * -xj := by
    rw [mulStep_apply xj last n p hn]
    simp
  have hm : LagrangePoly.mulStep xj last (n + 1) p (n + (m + 1)) * x ^ (m + 1) =
      p (n + 1 + m) * x ^ (m + 1) := by
    rw [mulStep_apply xj last n p hn]
    have h1 : ¬ n + (m + 1) = n := by omega
    have h2 : ¬ (n + 1 ≤ n + (m + 1) ∧ n + (m + 1) < last) := by omega
    rw [if_neg h1, if_neg h2]
    congr 2
    omega
  have hmid : ∑ t in Finset.range m,
      LagrangePoly.mulStep xj last (n + 1) p (n + (t + 1)) * x ^ (t + 1) =
      ∑ t in Finset.range m, (p (n + 1 + t) - p (n + 1 + (t + 1)) * xj) * x ^ (t + 1) := by
    apply Finset.sum_congr rfl
    intro t ht
    have ht' := Finset.mem_range.mp ht
    rw [mulStep_apply xj last n p hn]
    have h1 : ¬ n + (t + 1) = n := by omega
    have h2 : n + 1 ≤ n + (t + 1) ∧ n + (t + 1) < last := by omega
    rw [if_neg h1, if_pos h2]
    have e1 : n + (t + 1) = n + 1 + t := by omega
    have e2 : n + (t + 1) + 1 = n + 1 + (t + 1) := by omega
    rw [e2, e1]
  rw [h0, hm, hmid]
  ring

theorem rowStep_fold (table : List Row) (i : ℕ) (x : ℚ) :
    ∀ (js : List ℕ) (p : ℕ → ℚ) (den : ℚ) (n m : ℕ),
      (js.filter fun j => decide (i ≠ j)).length ≤ n → n + m = table.length - 1 →
      (js.foldl (LagrangePoly.rowStep table i) (p, den, n)).2.2 =
          n - (js.filter fun j => decide (i ≠ j)).length ∧
        (js.foldl (LagrangePoly.rowStep table i) (p, den, n)).2.1 =
          den * ((js.filter fun j => decide (i ≠ j)).map fun j =>
            (table.getD i ⟨0, 0⟩).X - (table.getD j ⟨0, 0⟩).X).prod ∧
        ∑ t in Finset.range (m + (js.filter fun j => decide (i ≠ j)).length + 1),
            (js.foldl (LagrangePoly.rowStep table i) (p, den, n)).1
              ((js.foldl (LagrangePoly.rowStep table i) (p, den, n)).2.2 + t) * x ^ t =
          ((js.filter fun j => decide (i ≠ j)).map fun j =>
            x - (table.getD j ⟨0, 0⟩).X).prod *
            ∑ t in Finset.range (m + 1), p (n + t) * x ^ t := by
  intro js
  induction js with
  | nil =>
    intro p den n m _ _
    simp
  | cons j js ih =>
    intro p den n m hcnt hnm
    by_cases hij : i ≠ j
    · have hfil : ((j :: js).filter fun j => decide (i ≠ j)) =
          j :: (js.filter fun j => decide (i ≠ j)) := by
        rw [List.filter_cons, if_pos (decide_eq_true hij)]
      rw [hfil] at hcnt ⊢
      rw [List.length_cons] at hcnt
      obtain ⟨n', rfl⟩ : ∃ n', n = n' + 1 := ⟨n - 1, by omega⟩
      have hstep : LagrangePoly.rowStep table i (p, den, n' + 1) j =
          (LagrangePoly.mulStep (table.getD j ⟨0, 0⟩).X (table.length - 1) (n' + 1) p,
            den * ((table.getD i ⟨0, 0⟩).X - (table.getD j ⟨0, 0⟩).X), n') := by
        simp only [LagrangePoly.rowStep, if_pos hij]
        rfl
      rw [List.foldl_cons, hstep]
      obtain ⟨a1, a2, a3⟩ := ih
        (LagrangePoly.mulStep (table.getD j ⟨0, 0⟩).X (table.length - 1) (n' + 1) p)
        (den * ((table.getD i ⟨0, 0⟩).X - (table.getD j ⟨0, 0⟩).X)) n' (m + 1)
        (by omega) (by omega)
      refine ⟨by rw [a1, List.length_cons]; omega, ?_, ?_⟩
      · rw [a2, List.map_cons, List.prod_cons]; ring
      · have hlen : m + (j :: js.filter fun j => decide (i ≠ j)).length + 1 =
            m + 1 + (js.filter fun j => decide (i ≠ j)).length + 1 := by
          rw [List.length_cons]; omega
        rw [hlen, a3, mulStep_window _ x (table.length - 1) n' m p (by omega),
          List.map_cons, List.prod_cons]
        ring
    · have hfil : ((j :: js).filter fun j => decide (i ≠ j)) =
          (js.filter fun j => decide (i ≠ j)) := by
        rw [List.filter_cons, if_neg (by simpa using hij)]
      rw [hfil] at hcnt ⊢
      have hstep : LagrangePoly.rowStep table i (p, den, n) j = (p, den, n) := by
        simp only [LagrangePoly.rowStep, if_neg hij]
      rw [List.foldl_cons, hstep]
      exact ih p den n m hcnt hnm

theorem filter_ne_range_length :
    ∀ (n i : ℕ), i < n → ((List.range n).filter fun j => decide (i ≠ j)).length = n - 1 := by
  intro n
  induction n with
  | zero => intro i hi; exact absurd hi (Nat.not_lt_zero i)
  | succ n ih =>
    intro i hi
    rw [List.range_succ, List.filter_append, List.length_append]
    rcases Nat.lt_or_ge i n with hlt | hge
    · rw [ih i hlt]
      have hne : i ≠ n := Nat.ne_of_lt hlt
      simp [hne]
      omega
    · have hin : i = n := by omega
      subst hin
      have hall : ((List.range i).filter fun j => decide (i ≠ j)) = List.range i := by
        rw [List.filter_eq_self]
        intro j hj
        have := List.mem_range.mp hj
        exact decide_eq_true (by omega)
      rw [hall]
      simp

/-- After the `j` loop for row `i`, `prod` holds the coefficients of the product
of `(x - xj)` over the other rows and `den` the product of `(xi - xj)`. -/
theorem row_spec (table : List Row) (i : ℕ) (hi : i < table.length) (prod0 : ℕ → ℚ)
    (x : ℚ) :
    (LagrangePoly.row table i prod0).2.1 =
        (((List.range table.length).filter fun j => decide (i ≠ j)).map fun j =>
          (table.getD i ⟨0, 0⟩).X - (table.getD j ⟨0, 0⟩).X).prod ∧
      ∑ t in Finset.range table.length, (LagrangePoly.row table i prod0).1 t * x ^ t =
        (((List.range table.length).filter fun j => decide (i ≠ j)).map fun j =>
          x - (table.getD j ⟨0, 0⟩).X).prod := by
  have hlen := filter_ne_range_length table.length i hi
  obtain ⟨a1, a2, a3⟩ := rowStep_fold table i x (List.range table.length)
    (Function.update prod0 (table.length - 1) 1) 1 (table.length - 1) 0
    (by rw [hlen]) (by omega)
  rw [hlen] at a1 a3
  have hL : 0 + (table.length - 1) + 1 = table.length := by omega
  rw [Nat.sub_self] at a1
  rw [hL, a1] at a3
  unfold LagrangePoly.row
  refine ⟨by rw [a2, one_mul], ?_⟩
  simp only [zero_add] at a3
  rw [a3]
  simp

theorem arraysStep_fold (table : List Row) (x : ℚ) :
    ∀ (is : List ℕ) (sum0 prod0 : ℕ → ℚ), (∀ i ∈ is, i < table.length) →
      ∑ t in Finset.range table.length,
          (is.foldl (LagrangePoly.arraysStep table) (sum0, prod0)).1 t * x ^ t =
        ∑ t in Finset.range table.length, sum0 t * x ^ t +
          (is.map fun i =>
            (table.getD i ⟨0, 0⟩).Y *
              (((List.range table.length).filter fun j => decide (i ≠ j)).map fun j =>
                x - (table.getD j ⟨0, 0⟩).X).prod /
              (((List.range table.length).filter fun j => decide (i ≠ j)).map fun j =>
                (table.getD i ⟨0, 0⟩).X - (table.getD j ⟨0, 0⟩).X).prod).sum := by
  intro is
  induction is with
  | nil => intro sum0 prod0 _; simp
  | cons i is ih =>
    intro sum0 prod0 hmem
    obtain ⟨b1, b2⟩ := row_spec table i (hmem i (List.mem_cons_self i is)) prod0 x
    rw [List.foldl_cons]
    have hstep : LagrangePoly.arraysStep table (sum0, prod0) i =
        (fun j => sum0 j + (table.getD i ⟨0, 0⟩).Y * (LagrangePoly.row table i prod0).1 j /
          (LagrangePoly.row table i prod0).2.1, (LagrangePoly.row table i prod0).1) := rfl
    rw [hstep, ih _ _ (fun k hk => hmem k (List.mem_cons_of_mem i hk))]
    rw [List.map_cons, List.sum_cons, ← b1, ← b2, Finset.mul_sum, ← add_assoc]
    congr 1
    rw [Finset.sum_div, ← Finset.sum_add_distrib]
    apply Finset.sum_congr rfl
    intro t _
    ring

theorem Horner_range' (x : ℚ) (f : ℕ → ℚ) :
    ∀ (n s : ℕ), Horner x ((List.range' s n).map f) =
      ∑ t in Finset.range n, f (s + t) * x ^ t := by
  intro n
  induction n with
  | zero => intro s; simp [Horner]
  | succ n ih =>
    intro s
    rw [List.range'_succ, List.map_cons, Horner, ih, Finset.sum_range_succ', Finset.mul_sum]
    rw [add_comm]
    congr 1
    · apply Finset.sum_congr rfl
      intro t _
      have e : s + 1 + t = s + (t + 1) := by omega
      rw [e]
      ring
    · simp

theorem prod_map_div (a b : ℕ → ℚ) (l : List ℕ) :
    (l.map fun j => a j / b j).prod = (l.map a).prod / (l.map b).prod := by
  induction l with
  | nil => simp
  | cons j l ih =>
    simp only [List.map_cons, List.prod_cons, ih]
    rw [div_mul_div_comm]

theorem Horner_map_range (x : ℚ) (f : ℕ → ℚ) (n : ℕ) :
    Horner x ((List.range n).map f) = ∑ t in Finset.range n, f t * x ^ t := by
  rw [List.range_eq_range', Horner_range']
  simp only [zero_add]

/-- Evaluating the coefficients of `LagrangePoly` by Horner's method gives
`Lagrange`. -/
theorem Horner_LagrangePoly (table : List Row) (x : ℚ) :
    Horner x (LagrangePoly table) = Lagrange x table := by
  rw [LagrangePoly, Horner_map_range]
  rw [LagrangePoly.arrays, arraysStep_fold table x _ _ _ (fun i hi => List.mem_range.mp hi),
    Lagrange_eq_sum]
  simp only [zero_mul, Finset.sum_const_zero, zero_add, prod_map_div, mul_div_assoc]

/-- C12: for every table whose `X` values are pairwise distinct and every row
index `i`, `Lagrange(table[i].X, table)` equals `table[i].Y` exactly. -/
theorem lagrange_at_row (table : List Row) (i : ℕ) (hi : i < table.length)
    (hnd : (table.map Row.X).Nodup) :
    Lagrange table[i].X table = table[i].Y := by
  rw [← List.getD_eq_getElem table ⟨0, 0⟩ hi]
  exact Lagrange_getD_row table i hi hnd

/-- Witness of C12: the table `(1, 1), (2, 8), (4, 64)` at its second row. -/
theorem lagrange_at_row_witness :
    Lagrange 2 [⟨1, 1⟩, ⟨2, 8⟩, ⟨4, 64⟩] = 8 :=
  lagrange_at_row [⟨1, 1⟩, ⟨2, 8⟩, ⟨4, 64⟩] 1 (by decide) (by simp)

/-- C13: for every table with pairwise distinct `X` values, `LagrangePoly`
returns exactly `len(table)` coefficients, in ascending order (constant term
first), such that evaluating them by Horner's method at any `x` gives the value
of `Lagrange(x, table)`; in particular the polynomial takes the value
`table[i].Y` at `table[i].X` for every row `i`. -/
theorem lagrangePoly_spec (table : List Row) (hnd : (table.map Row.X).Nodup) :
    (LagrangePoly table).length = table.length ∧
      (∀ x, Horner x (LagrangePoly table) = Lagrange x table) ∧
      (∀ x, Horner x (LagrangePoly table) =
        ∑ t in Finset.range table.length, (LagrangePoly table).getD t 0 * x ^ t) ∧
      (∀ i, i < table.length →
        Horner (table.getD i ⟨0, 0⟩).X (LagrangePoly table) = (table.getD i ⟨0, 0⟩).Y) := by
  refine ⟨by simp [LagrangePoly], fun x => Horner_LagrangePoly table x, ?_, ?_⟩
  · intro x
    unfold LagrangePoly
    rw [Horner_map_range]
    apply Finset.sum_congr rfl
    intro t ht
    have ht' := Finset.mem_range.mp ht
    rw [List.getD_eq_getElem _ _ (by simpa using ht')]
    simp
  · intro i hi
    rw [Horner_LagrangePoly]
    exact Lagrange_getD_row table i hi hnd

/-- Witness of C13: the table `(1, 1), (2, 8), (4, 64), (5, 125)` of the cube,
whose polynomial is `x³`. -/
theorem lagrangePoly_spec_witness :
    LagrangePoly [⟨1, 1⟩, ⟨2, 8⟩, ⟨4, 64⟩, ⟨5, 125⟩] = [0, 0, 0, 1] ∧
      (LagrangePoly [⟨1, 1⟩, ⟨2, 8⟩, ⟨4, 64⟩, ⟨5, 125⟩]).length = 4 ∧
      Horner 3 (LagrangePoly [⟨1, 1⟩, ⟨2, 8⟩, ⟨4, 64⟩, ⟨5, 125⟩]) =
        Lagrange 3 [⟨1, 1⟩, ⟨2, 8⟩, ⟨4, 64⟩, ⟨5, 125⟩] :=
  have h := lagrangePoly_spec [⟨1, 1⟩, ⟨2, 8⟩, ⟨4, 64⟩, ⟨5, 125⟩] (by simp)
  ⟨by decide!, h.1, h.2.1 3⟩

/-! ## Len5.Zero, and the fixed points of the estimate functions -/

theorem zero5_of_no_converge (d : Len5) (strong : Bool)
    (hr : (iterate 0 (d.zeroEstimate strong)).2 = false) :
    d.Zero strong = (0, some ErrorNoConverge) := by
  simp only [Len5.Zero, if_pos hr]

theorem zero5_of_outside (d : Len5) (strong : Bool)
    (hr : (iterate 0 (d.zeroEstimate strong)).2 = true)
    (hn : (iterate 0 (d.zeroEstimate strong)).1 > 2 ∨
      (iterate 0 (d.zeroEstimate strong)).1 < -2) :
    d.Zero strong = (0, some ErrorZeroOutside) := by
  have hr' : ¬ (iterate 0 (d.zeroEstimate strong)).2 = false := by simp [hr]
  simp only [Len5.Zero, if_neg hr', if_pos hn]

theorem zero5_of_inside (d : Len5) (strong : Bool)
    (hr : (iterate 0 (d.zeroEstimate strong)).2 = true)
    (hn : ¬ ((iterate 0 (d.zeroEstimate strong)).1 > 2 ∨
      (iterate 0 (d.zeroEstimate strong)).1 < -2)) :
    d.Zero strong =
      ((1 / 2) * d.xSum + (1 / 4) * d.xDiff * (iterate 0 (d.zeroEstimate strong)).1, none) := by
  have hr' : ¬ (iterate 0 (d.zeroEstimate strong)).2 = false := by simp [hr]
  simp only [Len5.Zero, if_neg hr', if_neg hn]

/-- C21: for every table `d` constructed by `NewLen5 x1 x5 y` and either value
of `strong`, with `(n0, ok)` the result of `iterate` started at factor 0 on the
estimate function of `Zero`: `Zero` returns `ErrorNoConverge` exactly when
`iterate` fails, returns `ErrorZeroOutside` exactly when `iterate` converges to
a factor outside `[-2, 2]`, and otherwise returns `x = xSum/2 + xDiff*n0/4`
with no error, which lies in the closed range between `x1` and `x5` and
satisfies `(4x - 2*xSum)/xDiff = n0`. -/
theorem len5_zero_cases (x1 x5 : ℚ) (y : List ℚ) (d : Len5) (strong : Bool)
    (h : NewLen5 x1 x5 y = .ok d) :
    ((d.Zero strong).2 = some ErrorNoConverge ↔
      (iterate 0 (d.zeroEstimate strong)).2 = false) ∧
    ((d.Zero strong).2 = some ErrorZeroOutside ↔
      (iterate 0 (d.zeroEstimate strong)).2 = true ∧
        ((iterate 0 (d.zeroEstimate strong)).1 > 2 ∨
          (iterate 0 (d.zeroEstimate strong)).1 < -2)) ∧
    ((iterate 0 (d.zeroEstimate strong)).2 = true →
      ¬ ((iterate 0 (d.zeroEstimate strong)).1 > 2 ∨
          (iterate 0 (d.zeroEstimate strong)).1 < -2) →
      d.Zero strong =
          (d.xSum / 2 + d.xDiff * (iterate 0 (d.zeroEstimate strong)).1 / 4, none) ∧
        min x1 x5 ≤ (d.Zero strong).1 ∧ (d.Zero strong).1 ≤ max x1 x5 ∧
        (4 * (d.Zero strong).1 - 2 * d.xSum) / d.xDiff =
          (iterate 0 (d.zeroEstimate strong)).1) := by
  obtain ⟨y0, y1, y2, y3, y4, -, hx, -, -, -, hxs, hxd, -⟩ := NewLen5_eq_ok h
  have hxd0 : d.xDiff ≠ 0 := by rw [hxd]; exact sub_ne_zero.mpr (Ne.symm hx)
  refine ⟨?_, ?_, ?_⟩
  · cases hr : (iterate 0 (d.zeroEstimate strong)).2
    · rw [zero5_of_no_converge d strong hr]; simp
    · by_cases hn : (iterate 0 (d.zeroEstimate strong)).1 > 2 ∨
          (iterate 0 (d.zeroEstimate strong)).1 < -2
      · rw [zero5_of_outside d strong hr hn]; simp
      · rw [zero5_of_inside d strong hr hn]; simp
  · cases hr : (iterate 0 (d.zeroEstimate strong)).2
    · rw [zero5_of_no_converge d strong hr]; simp
    · by_cases hn : (iterate 0 (d.zeroEstimate strong)).1 > 2 ∨
          (iterate 0 (d.zeroEstimate strong)).1 < -2
      · rw [zero5_of_outside d strong hr hn]
        exact ⟨fun _ => ⟨rfl, hn⟩, fun _ => rfl⟩
      · rw [zero5_of_inside d strong hr hn]
        exact ⟨fun e => by simp at e, fun e => absurd e.2 hn⟩
  · intro hr hn
    rw [zero5_of_inside d strong hr hn]
    have hn1 : -2 ≤ (iterate 0 (d.zeroEstimate strong)).1 := by
      by_contra hlt
      exact hn (Or.inr (not_le.mp hlt))
    have hn2 : (iterate 0 (d.zeroEstimate strong)).1 ≤ 2 := by
      by_contra hgt
      exact hn (Or.inl (not_le.mp hgt))
    have hmem := abscissa5_mem x1 x5 _ hn1 hn2
    refine ⟨?_, ?_, ?_, ?_⟩
    · rw [Prod.mk.injEq]; exact ⟨by ring, rfl⟩
    · simpa only [hxs, hxd] using hmem.1
    · simpa only [hxs, hxd] using hmem.2
    · field_simp
      ring

/-- Witness of C21: the table on `[0, 4]` with samples `-1, 0, 1, 2, 3` (the
line `x - 1`); the fast estimate converges to the factor `-1` in two rounds and
`Zero` returns `x = 1`. -/
theorem len5_zero_cases_witness :
    ∃ d, NewLen5 0 4 [-1, 0, 1, 2, 3] = .ok d ∧
      iterate 0 (d.zeroEstimate false) = (-1, true) ∧
      d.Zero false = (1, none) ∧
      ((d.Zero false).2 = some ErrorNoConverge ↔
        (iterate 0 (d.zeroEstimate false)).2 = false) :=
  have h5 : NewLen5 0 4 [-1, 0, 1, 2, 3] =
      .ok { x1 := 0, x5 := 4, y := [-1, 0, 1, 2, 3], a := 1, b := 1, c := 1,
            d := 1, e := 0, f := 0, g := 0, h := 0, j := 0, k := 0, y3 := 1,
            xSum := 4, xDiff := 4, interpCoeff := [1, 1, 0, 0, 0] } := by
    norm_num [NewLen5]
  have hi : iterate 0 (Len5.zeroEstimate
      { x1 := 0, x5 := 4, y := [-1, 0, 1, 2, 3], a := 1, b := 1, c := 1,
        d := 1, e := 0, f := 0, g := 0, h := 0, j := 0, k := 0, y3 := 1,
        xSum := 4, xDiff := 4, interpCoeff := [1, 1, 0, 0, 0] } false) = (-1, true) := by
    norm_num [iterate, iterateLoop, Len5.zeroEstimate, fdiv, Horner]
  ⟨_, h5, hi, by rw [Len5.Zero, hi]; norm_num,
    (len5_zero_cases 0 4 [-1, 0, 1, 2, 3] _ false h5).1⟩

theorem fdiv_eq_some_iff (p q r : ℚ) (hq : q ≠ 0) : fdiv p q = some r ↔ p = r * q := by
  simp only [fdiv, if_neg hq, Option.some.injEq]
  exact div_eq_iff hq

theorem fdiv_of_ne_zero (p q : ℚ) (hq : q ≠ 0) : fdiv p q = some (p / q) := by
  simp only [fdiv, if_neg hq]

theorem len3_zeroEstimate_false (d : Len3) (n : ℚ) :
    d.zeroEstimate false n = fdiv (-2 * d.y.getD 1 0) (d.abSum + d.c * n) := rfl

theorem len3_zeroEstimate_true (d : Len3) (n : ℚ) :
    d.zeroEstimate true n =
      (fdiv (2 * d.y.getD 1 0 + n * (d.abSum + d.c * n)) (d.abSum + 2 * d.c * n)).map
        fun q => n - q := rfl

/-- C28: for every `Len3` table, the fixed points of both estimate functions of
`Zero` are exactly the zeros of the interpolating parabola: for every factor
`n` with `abSum + c*n ≠ 0`, the fast estimate `-2*y[1]/(abSum + c*n)` equals
`n` iff `InterpolateN n = 0`; for every `n` with `abSum + 2*c*n ≠ 0`, the
refined estimate `n - (2*y[1] + n*(abSum + c*n))/(abSum + 2*c*n)` equals `n`
iff `InterpolateN n = 0`; and the refined estimate is the Newton step
`n - P(n)/P'(n)` of the polynomial `P` of `InterpolateN`. -/
theorem len3_zero_fixed_points (d : Len3) (n : ℚ) :
    (d.abSum + d.c * n ≠ 0 →
      d.zeroEstimate false n = some (-2 * d.y.getD 1 0 / (d.abSum + d.c * n)) ∧
        (d.zeroEstimate false n = some n ↔ d.InterpolateN n = 0)) ∧
    (d.abSum + 2 * d.c * n ≠ 0 →
      d.zeroEstimate true n =
          some (n - (2 * d.y.getD 1 0 + n * (d.abSum + d.c * n)) / (d.abSum + 2 * d.c * n)) ∧
        (d.zeroEstimate true n = some n ↔ d.InterpolateN n = 0)) ∧
    (∃ P : Polynomial ℚ, (∀ t, P.eval t = d.InterpolateN t) ∧
      ∀ t, d.abSum + 2 * d.c * t ≠ 0 →
        P.derivative.eval t ≠ 0 ∧
          d.zeroEstimate true t = some (t - P.eval t / P.derivative.eval t)) := by
  refine ⟨?_, ?_, ?_⟩
  · intro hden
    refine ⟨by rw [len3_zeroEstimate_false, fdiv_of_ne_zero _ _ hden], ?_⟩
    rw [len3_zeroEstimate_false, fdiv_eq_some_iff _ _ _ hden, Len3.InterpolateN]
    constructor <;> intro hh <;> linarith
  · intro hden
    rw [len3_zeroEstimate_true, fdiv_of_ne_zero _ _ hden, Option.map_some']
    refine ⟨rfl, ?_⟩
    rw [Option.some.injEq, Len3.InterpolateN, sub_eq_self, div_eq_zero_iff]
    constructor
    · intro hh
      rcases hh with hh | hh
      · linarith
      · exact absurd hh hden
    · intro hh
      left
      linarith
  · refine ⟨Polynomial.C (d.y.getD 1 0) + Polynomial.C (d.abSum / 2) * Polynomial.X +
      Polynomial.C (d.c / 2) * Polynomial.X ^ 2, ?_, ?_⟩
    · intro t
      simp only [Polynomial.eval_add, Polynomial.eval_mul, Polynomial.eval_C, Polynomial.eval_X,
        Polynomial.eval_pow, Len3.InterpolateN]
      ring
    · intro t hden
      have hd : Polynomial.eval t (Polynomial.derivative
          (Polynomial.C (d.y.getD 1 0) + Polynomial.C (d.abSum / 2) * Polynomial.X +
            Polynomial.C (d.c / 2) * Polynomial.X ^ 2)) = (d.abSum + 2 * d.c * t) / 2 := by
        simp only [Polynomial.derivative_add, Polynomial.derivative_C, Polynomial.derivative_mul,
          Polynomial.derivative_X, Polynomial.derivative_X_pow, Polynomial.eval_add,
          Polynomial.eval_mul, Polynomial.eval_C, Polynomial.eval_X, Polynomial.eval_pow,
          Polynomial.eval_zero, Polynomial.eval_one, Polynomial.eval_natCast]
        norm_num
        ring
      rw [hd, len3_zeroEstimate_true, fdiv_of_ne_zero _ _ hden, Option.map_some']
      refine ⟨div_ne_zero hden (by norm_num), ?_⟩
      rw [Option.some.injEq]
      simp only [Polynomial.eval_add, Polynomial.eval_mul, Polynomial.eval_C, Polynomial.eval_X,
        Polynomial.eval_pow]
      field_simp
      ring

theorem NewLen5_interpCoeff {x1 x5 : ℚ} {y : List ℚ} {d : Len5} (h : NewLen5 x1 x5 y = .ok d) :
    d.interpCoeff =
        [d.y3, (d.b + d.c) / 2 - (d.h + d.j) / 12, d.f / 2 - d.k / 24, (d.h + d.j) / 12,
          d.k / 24] ∧ d.y3 = y.getD 2 0 := by
  unfold NewLen5 at h
  split_ifs at h with h1 h2
  have hd := (Except.ok.inj h).symm
  subst hd
  exact ⟨rfl, rfl⟩

theorem len5_zeroEstimate_false (d : Len5) (n : ℚ) :
    d.zeroEstimate false n =
      fdiv (Horner n [-24 * d.y3, 0, d.k - 12 * d.f, -2 * (d.h + d.j), -d.k])
        (12 * (d.b + d.c) - 2 * (d.h + d.j)) := rfl

theorem len5_zeroEstimate_true (d : Len5) (n : ℚ) :
    d.zeroEstimate true n =
      (fdiv
        (Horner n [d.y3, (d.b + d.c) / 2 - (d.h + d.j) / 12, d.f / 2 - d.k / 24,
          (d.h + d.j) / 12, d.k / 24])
        (Horner n [(d.b + d.c) / 2 - (d.h + d.j) / 12, 2 * (d.f / 2 - d.k / 24),
          3 * ((d.h + d.j) / 12), 4 * (d.k / 24)])).map
        fun q => n - q := rfl

/-- The polynomial with the coefficients `c0, ..., c4`, its values and the
values of its derivative. -/
theorem quartic_polynomial (c0 c1 c2 c3 c4 : ℚ) :
    ∃ P : Polynomial ℚ, (∀ t, P.eval t = Horner t [c0, c1, c2, c3, c4]) ∧
      ∀ t, P.derivative.eval t = Horner t [c1, 2 * c2, 3 * c3, 4 * c4] := by
  refine ⟨Polynomial.C c0 + Polynomial.C c1 * Polynomial.X + Polynomial.C c2 * Polynomial.X ^ 2 +
    Polynomial.C c3 * Polynomial.X ^ 3 + Polynomial.C c4 * Polynomial.X ^ 4, ?_, ?_⟩
  · intro t
    simp only [Polynomial.eval_add, Polynomial.eval_mul, Polynomial.eval_C, Polynomial.eval_X,
      Polynomial.eval_pow, Horner]
    ring
  · intro t
    simp only [Polynomial.derivative_add, Polynomial.derivative_C, Polynomial.derivative_mul,
      Polynomial.derivative_X, Polynomial.derivative_X_pow, Polynomial.eval_add,
      Polynomial.eval_mul, Polynomial.eval_C, Polynomial.eval_X, Polynomial.eval_pow,
      Polynomial.eval_zero, Polynomial.eval_one, Polynomial.eval_natCast, Horner]
    norm_num
    ring

/-- C29: for every table `d` constructed by `NewLen5`, when
`12*(b+c) - 2*(h+j) ≠ 0` the fast estimate of `Zero` maps `n` to itself iff
`InterpolateN n = 0`; the numerator coefficients `[y3, Q, P, N, M]` of the
refined estimate are the interpolation coefficients, its denominator
coefficients `[Q, 2P, 3N, 4M]` are those of the derivative, and the refined
estimate is the Newton step `n - P(n)/P'(n)` of the polynomial of
`InterpolateN`, a fixed point of which (where `P'(n) ≠ 0`) is a zero of
`InterpolateN`. -/
theorem len5_zero_fixed_points (x1 x5 : ℚ) (y : List ℚ) (d : Len5)
    (h : NewLen5 x1 x5 y = .ok d) :
    (∀ n, 12 * (d.b + d.c) - 2 * (d.h + d.j) ≠ 0 →
      (d.zeroEstimate false n = some n ↔ d.InterpolateN n = 0)) ∧
    d.interpCoeff =
      [d.y3, (d.b + d.c) / 2 - (d.h + d.j) / 12, d.f / 2 - d.k / 24, (d.h + d.j) / 12,
        d.k / 24] ∧
    (∃ P : Polynomial ℚ, (∀ t, P.eval t = d.InterpolateN t) ∧
      (∀ t, P.derivative.eval t =
        Horner t [(d.b + d.c) / 2 - (d.h + d.j) / 12, 2 * (d.f / 2 - d.k / 24),
          3 * ((d.h + d.j) / 12), 4 * (d.k / 24)]) ∧
      ∀ t, P.derivative.eval t ≠ 0 →
        d.zeroEstimate true t = some (t - P.eval t / P.derivative.eval t) ∧
          (d.zeroEstimate true t = some t ↔ d.InterpolateN t = 0)) := by
  obtain ⟨hc, -⟩ := NewLen5_interpCoeff h
  refine ⟨?_, hc, ?_⟩
  · intro n hden
    rw [len5_zeroEstimate_false, fdiv_eq_some_iff _ _ _ hden, Len5.InterpolateN, hc]
    simp only [Horner]
    constructor <;> intro hh <;> linarith
  · obtain ⟨P, hP, hP'⟩ := quartic_polynomial d.y3 ((d.b + d.c) / 2 - (d.h + d.j) / 12)
      (d.f / 2 - d.k / 24) ((d.h + d.j) / 12) (d.k / 24)
    refine ⟨P, ?_, hP', ?_⟩
    · intro t
      rw [hP, Len5.InterpolateN, hc]
    · intro t ht
      rw [hP'] at ht
      rw [len5_zeroEstimate_true, fdiv_of_ne_zero _ _ ht, Option.map_some', hP, hP',
        Len5.InterpolateN, hc]
      refine ⟨rfl, ?_⟩
      rw [Option.some.injEq, sub_eq_self, div_eq_zero_iff]
      exact ⟨fun hh => hh.resolve_right ht, fun hh => Or.inl hh⟩

/-- Witness of C29: the table on `[0, 4]` with samples `-1, 0, 1, 2, 3`. -/
theorem len5_zero_fixed_points_witness :
    ∃ d, NewLen5 0 4 [-1, 0, 1, 2, 3] = .ok d ∧
      d.interpCoeff =
        [d.y3, (d.b + d.c) / 2 - (d.h + d.j) / 12, d.f / 2 - d.k / 24, (d.h + d.j) / 12,
          d.k / 24] :=
  have h5 : NewLen5 0 4 [-1, 0, 1, 2, 3] =
      .ok { x1 := 0, x5 := 4, y := [-1, 0, 1, 2, 3], a := 1, b := 1, c := 1,
            d := 1, e := 0, f := 0, g := 0, h := 0, j := 0, k := 0, y3 := 1,
            xSum := 4, xDiff := 4, interpCoeff := [1, 1, 0, 0, 0] } := by
    norm_num [NewLen5]
  ⟨_, h5, (len5_zero_fixed_points 0 4 [-1, 0, 1, 2, 3] _ h5).2.1⟩

/-- C30: for every table `d` constructed by `NewLen5` with `k ≠ 12f`, the
iteration map of `Extremum` is
`n ↦ (6(b+c) - h - j + 3(h+j)*n² + 2k*n³)/(k - 12f)`, and its fixed points are
exactly the factors `n` at which the derivative of the polynomial of
`InterpolateN` is 0. -/
theorem len5_extremum_fixed_points (x1 x5 : ℚ) (y : List ℚ) (d : Len5)
    (h : NewLen5 x1 x5 y = .ok d) (hk : d.k ≠ 12 * d.f) :
    ∃ P : Polynomial ℚ, (∀ t, P.eval t = d.InterpolateN t) ∧
      ∀ n, d.extremumEstimate n =
          some ((6 * (d.b + d.c) - d.h - d.j + 3 * (d.h + d.j) * n ^ 2 + 2 * d.k * n ^ 3) /
            (d.k - 12 * d.f)) ∧
        (d.extremumEstimate n = some n ↔ P.derivative.eval n = 0) := by
  obtain ⟨hc, -⟩ := NewLen5_interpCoeff h
  have hden : d.k - 12 * d.f ≠ 0 := sub_ne_zero.mpr hk
  obtain ⟨P, hP, hP'⟩ := quartic_polynomial d.y3 ((d.b + d.c) / 2 - (d.h + d.j) / 12)
    (d.f / 2 - d.k / 24) ((d.h + d.j) / 12) (d.k / 24)
  refine ⟨P, ?_, ?_⟩
  · intro t
    rw [hP, Len5.InterpolateN, hc]
  · intro n
    have e : d.extremumEstimate n =
        fdiv (Horner n [6 * (d.b + d.c) - d.h - d.j, 0, 3 * (d.h + d.j), 2 * d.k])
          (d.k - 12 * d.f) := rfl
    constructor
    · rw [e, fdiv_of_ne_zero _ _ hden]
      simp only [Horner]
      congr 2
      ring
    · rw [e, fdiv_eq_some_iff _ _ _ hden, hP']
      simp only [Horner]
      constructor <;> intro hh <;> linarith

/-- Witness of C30: the table on `[0, 4]` with samples `9, 4, 1, 0, 1` (the
parabola `(x - 3)²`, with `k = 0` and `f = 2`); the iteration map is
constantly 1. -/
theorem len5_extremum_fixed_points_witness :
    ∃ d, NewLen5 0 4 [9, 4, 1, 0, 1] = .ok d ∧ d.k ≠ 12 * d.f ∧
      d.extremumEstimate 1 = some 1 ∧
      ∃ P : Polynomial ℚ, (∀ t, P.eval t = d.InterpolateN t) ∧
        ∀ n, d.extremumEstimate n =
            some ((6 * (d.b + d.c) - d.h - d.j + 3 * (d.h + d.j) * n ^ 2 + 2 * d.k * n ^ 3) /
              (d.k - 12 * d.f)) ∧
          (d.extremumEstimate n = some n ↔ P.derivative.eval n = 0) :=
  have h5 : NewLen5 0 4 [9, 4, 1, 0, 1] =
      .ok { x1 := 0, x5 := 4, y := [9, 4, 1, 0, 1], a := -5, b := -3, c := -1,
            d := 1, e := 2, f := 2, g := 2, h := 0, j := 0, k := 0, y3 := 1,
            xSum := 4, xDiff := 4, interpCoeff := [1, -2, 1, 0, 0] } := by
    norm_num [NewLen5]
  ⟨_, h5, by norm_num, by norm_num [Len5.extremumEstimate, fdiv, Horner],
    len5_extremum_fixed_points 0 4 [9, 4, 1, 0, 1] _ h5 (by norm_num)⟩

/-! ## Len3ForInterpolateX and Len4Half -/

theorem intOfFloat_lt_one (q : ℚ) (h : intOfFloat q < 1) : q < 1 := by
  unfold intOfFloat at h
  split_ifs at h with h0
  · by_contra hq
    have : (1 : ℤ) ≤ ⌊q⌋ := Int.le_floor.mpr (by simpa using not_lt.mp hq)
    omega
  · linarith [not_le.mp h0]

theorem intOfFloat_of_one_le (q : ℚ) (h : 1 ≤ intOfFloat q) :
    (intOfFloat q : ℚ) ≤ q ∧ q < intOfFloat q + 1 := by
  unfold intOfFloat at h ⊢
  split_ifs at h ⊢ with h0
  · exact ⟨Int.floor_le q, Int.lt_floor_add_one q⟩
  · exfalso
    have hq : q < 0 := not_le.mp h0
    have : ⌈q⌉ ≤ 0 := Int.ceil_le.mpr (by simpa using hq.le)
    omega

theorem drop_take_three :
    ∀ (n : ℕ) (y : List ℚ), n + 3 ≤ y.length →
      (y.drop n).take 3 = [y.getD n 0, y.getD (n + 1) 0, y.getD (n + 2) 0] := by
  intro n
  induction n with
  | zero =>
    intro y hy
    rcases y with _ | ⟨a, _ | ⟨b, _ | ⟨c, t⟩⟩⟩ <;> simp at hy
    simp
  | succ n ih =>
    intro y hy
    rcases y with _ | ⟨a, t⟩
    · simp at hy
    · have ht : n + 3 ≤ t.length := by simpa using hy
      have := ih t ht
      simpa [List.getD_cons_succ, Nat.add_right_comm] using this

/-- The row chosen by `Len3ForInterpolateX`: for the grid coordinate `t` of the
target and a table of `len` rows, the clamped nearest row `c` is admissible,
nearest to `t` among admissible rows, and within 1 of `t` when `t` lies on the
table. -/
theorem nearest_row (t : ℚ) (len : ℤ) (hlen : 4 ≤ len) :
    1 ≤ (if intOfFloat (t + 1 / 2) < 1 then 1
          else if intOfFloat (t + 1 / 2) > len - 2 then len - 2
          else intOfFloat (t + 1 / 2)) ∧
      (if intOfFloat (t + 1 / 2) < 1 then 1
          else if intOfFloat (t + 1 / 2) > len - 2 then len - 2
          else intOfFloat (t + 1 / 2)) ≤ len - 2 ∧
      (∀ c' : ℤ, 1 ≤ c' → c' ≤ len - 2 →
        |t - ((if intOfFloat (t + 1 / 2) < 1 then 1
          else if intOfFloat (t + 1 / 2) > len - 2 then len - 2
          else intOfFloat (t + 1 / 2) : ℤ) : ℚ)| ≤ |t - (c' : ℚ)|) ∧
      (0 ≤ t → t ≤ len - 1 →
        |t - ((if intOfFloat (t + 1 / 2) < 1 then 1
          else if intOfFloat (t + 1 / 2) > len - 2 then len - 2
          else intOfFloat (t + 1 / 2) : ℤ) : ℚ)| ≤ 1) := by
  by_cases h1 : intOfFloat (t + 1 / 2) < 1
  · simp only [if_pos h1]
    have ht := intOfFloat_lt_one _ h1
    refine ⟨le_rfl, by omega, ?_, ?_⟩
    · intro c' hc1 _
      have hc : (1 : ℚ) ≤ c' := by exact_mod_cast hc1
      rw [abs_le]
      constructor
      · have := neg_abs_le (t - (c' : ℚ))
        have h2 := abs_of_nonpos (by linarith : t - (c' : ℚ) ≤ 0)
        push_cast
        linarith
      · have h2 := abs_of_nonpos (by linarith : t - (c' : ℚ) ≤ 0)
        push_cast
        linarith
    · intro h0 _
      rw [abs_le]
      push_cast
      constructor <;> linarith
  · simp only [if_neg h1]
    have h1' : 1 ≤ intOfFloat (t + 1 / 2) := by omega
    obtain ⟨hf1, hf2⟩ := intOfFloat_of_one_le _ h1'
    by_cases h2 : intOfFloat (t + 1 / 2) > len - 2
    · simp only [if_pos h2]
      have hr : ((len : ℚ) - 1) ≤ intOfFloat (t + 1 / 2) := by
        have : len - 1 ≤ intOfFloat (t + 1 / 2) := by omega
        exact_mod_cast this
      refine ⟨by omega, le_rfl, ?_, ?_⟩
      · intro c' _ hc2
        have hc : (c' : ℚ) ≤ len - 2 := by exact_mod_cast hc2
        have h3 := abs_of_nonneg (by linarith : (0 : ℚ) ≤ t - (c' : ℚ))
        rw [abs_le]
        push_cast
        constructor <;> linarith
      · intro _ htl
        rw [abs_le]
        push_cast
        constructor <;> linarith
    · simp only [if_neg h2]
      have habs : |t - (intOfFloat (t + 1 / 2) : ℚ)| ≤ 1 / 2 := by
        rw [abs_le]
        constructor <;> linarith
      refine ⟨h1', by omega, ?_, ?_⟩
      · intro c' _ _
        by_cases hcc : c' = intOfFloat (t + 1 / 2)
        · rw [hcc]
        · have hdiff : (1 : ℚ) ≤ |(c' : ℚ) - (intOfFloat (t + 1 / 2) : ℚ)| := by
            have : (1 : ℤ) ≤ |c' - intOfFloat (t + 1 / 2)| :=
              Int.one_le_abs (sub_ne_zero.mpr hcc)
            exact_mod_cast this
          have htri : |(c' : ℚ) - (intOfFloat (t + 1 / 2) : ℚ)| ≤
              |t - (intOfFloat (t + 1 / 2) : ℚ)| + |t - (c' : ℚ)| := by
            have := abs_sub_le (c' : ℚ) t (intOfFloat (t + 1 / 2) : ℚ)
            rw [abs_sub_comm (c' : ℚ) t] at this
            linarith
          linarith
      · intro _ _
        linarith

/-- The grid coordinate of a target between `x1` and `xn` lies on the table. -/
theorem grid_coordinate_mem (x x1 xn n : ℚ) (hn : 0 < n) (hx : x1 ≠ xn)
    (hin : min x1 xn ≤ x ∧ x ≤ max x1 xn) :
    0 ≤ (x - x1) / ((xn - x1) / n) ∧ (x - x1) / ((xn - x1) / n) ≤ n := by
  have e : (x - x1) / ((xn - x1) / n) = (x - x1) / (xn - x1) * n := by
    field_simp [sub_ne_zero.mpr (Ne.symm hx)]
  rw [e]
  rcases lt_or_gt_of_ne hx with hlt | hgt
  · rw [min_eq_left hlt.le, max_eq_right hlt.le] at hin
    have hpos : 0 < xn - x1 := sub_pos.mpr hlt
    have h1 : 0 ≤ (x - x1) / (xn - x1) := div_nonneg (by linarith) hpos.le
    have h2 : (x - x1) / (xn - x1) ≤ 1 := (div_le_one hpos).mpr (by linarith)
    constructor
    · positivity
    · nlinarith
  · rw [min_eq_right hgt.le, max_eq_left hgt.le] at hin
    have hneg : xn - x1 < 0 := sub_neg.mpr hgt
    have h1 : 0 ≤ (x - x1) / (xn - x1) :=
      div_nonneg_of_nonpos (by linarith) hneg.le
    have h2 : (x - x1) / (xn - x1) ≤ 1 := by
      rw [div_le_one_of_neg hneg]
      linarith
    constructor
    · positivity
    · nlinarith

/-- In exact arithmetic (no operation rounded): for every table `y` with
`len(y) > 3`, every `x1 ≠ xn` and every
target `x`, with `interval = (xn - x1)/(len(y) - 1)`, `Len3ForInterpolateX`
returns a table: there is a row index `c` in `1..len(y)-2` that minimises
`|(x - x1)/interval - c|` over all indices in `1..len(y)-2`, the samples of the
table are `y[c-1], y[c], y[c+1]` and its end abscissae are the grid positions
`x1 + (c-1)*interval` and `x1 + (c+1)*interval`; and for every `x` between `x1`
and `xn` the interpolating factor of `x` in that table lies in `[-1, 1]` and
`InterpolateXStrict x` succeeds.  The float64 code differs at the ends of the
returned table, see the section on float64 below. -/
theorem len3ForInterpolateX_spec (x x1 xn : ℚ) (y : List ℚ) (hlen : 3 < y.length)
    (hx : x1 ≠ xn) :
    ∃ (c : ℤ) (d : Len3),
      1 ≤ c ∧ c ≤ (y.length : ℤ) - 2 ∧
      (∀ c' : ℤ, 1 ≤ c' → c' ≤ (y.length : ℤ) - 2 →
        |(x - x1) / ((xn - x1) / (((y.length : ℤ) - 1 : ℤ) : ℚ)) - (c : ℚ)| ≤
          |(x - x1) / ((xn - x1) / (((y.length : ℤ) - 1 : ℤ) : ℚ)) - (c' : ℚ)|) ∧
      Len3ForInterpolateX x x1 xn y = .ok d ∧
      d.y = [y.getD (c - 1).toNat 0, y.getD c.toNat 0, y.getD (c + 1).toNat 0] ∧
      d.x1 = x1 + ((c - 1 : ℤ) : ℚ) * ((xn - x1) / (((y.length : ℤ) - 1 : ℤ) : ℚ)) ∧
      d.x3 = x1 + ((c + 1 : ℤ) : ℚ) * ((xn - x1) / (((y.length : ℤ) - 1 : ℤ) : ℚ)) ∧
      (min x1 xn ≤ x ∧ x ≤ max x1 xn →
        -1 ≤ (2 * x - d.xSum) / d.xDiff ∧ (2 * x - d.xSum) / d.xDiff ≤ 1 ∧
          d.InterpolateXStrict x = (d.InterpolateX x, none)) := by
  have hL : (4 : ℤ) ≤ (y.length : ℤ) := by exact_mod_cast hlen
  have hnpos : (0 : ℚ) < (((y.length : ℤ) - 1 : ℤ) : ℚ) := by
    have : (0 : ℤ) < (y.length : ℤ) - 1 := by omega
    exact_mod_cast this
  have hiv : (xn - x1) / (((y.length : ℤ) - 1 : ℤ) : ℚ) ≠ 0 :=
    div_ne_zero (sub_ne_zero.mpr (Ne.symm hx)) hnpos.ne'
  obtain ⟨hc1, hc2, hmin, hon⟩ :=
    nearest_row ((x - x1) / ((xn - x1) / (((y.length : ℤ) - 1 : ℤ) : ℚ))) (y.length : ℤ) hL
  have hrun : Len3ForInterpolateX x x1 xn y =
      NewLen3
        (x1 + (((if intOfFloat ((x - x1) / ((xn - x1) / (((y.length : ℤ) - 1 : ℤ) : ℚ)) + 1 / 2) < 1
            then 1
            else if intOfFloat ((x - x1) / ((xn - x1) / (((y.length : ℤ) - 1 : ℤ) : ℚ)) + 1 / 2) >
                (y.length : ℤ) - 2 then (y.length : ℤ) - 2
            else intOfFloat ((x - x1) / ((xn - x1) / (((y.length : ℤ) - 1 : ℤ) : ℚ)) + 1 / 2)) -
              1 : ℤ) : ℚ) * ((xn - x1) / (((y.length : ℤ) - 1 : ℤ) : ℚ)))
        (x1 + (((if intOfFloat ((x - x1) / ((xn - x1) / (((y.length : ℤ) - 1 : ℤ) : ℚ)) + 1 / 2) < 1
            then 1
            else if intOfFloat ((x - x1) / ((xn - x1) / (((y.length : ℤ) - 1 : ℤ) : ℚ)) + 1 / 2) >
                (y.length : ℤ) - 2 then (y.length : ℤ) - 2
            else intOfFloat ((x - x1) / ((xn - x1) / (((y.length : ℤ) - 1 : ℤ) : ℚ)) + 1 / 2)) +
              1 : ℤ) : ℚ) * ((xn - x1) / (((y.length : ℤ) - 1 : ℤ) : ℚ)))
        ((y.drop ((if intOfFloat ((x - x1) / ((xn - x1) / (((y.length : ℤ) - 1 : ℤ) : ℚ)) + 1 / 2) < 1
            then 1
            else if intOfFloat ((x - x1) / ((xn - x1) / (((y.length : ℤ) - 1 : ℤ) : ℚ)) + 1 / 2) >
                (y.length : ℤ) - 2 then (y.length : ℤ) - 2
            else intOfFloat ((x - x1) / ((xn - x1) / (((y.length : ℤ) - 1 : ℤ) : ℚ)) + 1 / 2)) -
              1).toNat).take 3) := by
    simp only [Len3ForInterpolateX, if_pos (show y.length > 3 from hlen), if_neg hiv]
  have hgrid := grid_coordinate_mem x x1 xn (((y.length : ℤ) - 1 : ℤ) : ℚ) hnpos hx
  have hcast : (((y.length : ℤ) - 1 : ℤ) : ℚ) = ((y.length : ℤ) : ℚ) - 1 := by push_cast; ring
  generalize (if intOfFloat ((x - x1) / ((xn - x1) / (((y.length : ℤ) - 1 : ℤ) : ℚ)) + 1 / 2) < 1
      then 1
      else if intOfFloat ((x - x1) / ((xn - x1) / (((y.length : ℤ) - 1 : ℤ) : ℚ)) + 1 / 2) >
          (y.length : ℤ) - 2 then (y.length : ℤ) - 2
      else intOfFloat ((x - x1) / ((xn - x1) / (((y.length : ℤ) - 1 : ℤ) : ℚ)) + 1 / 2)) = c
    at hc1 hc2 hmin hon hrun
  generalize (xn - x1) / (((y.length : ℤ) - 1 : ℤ) : ℚ) = iv at hiv hmin hon hrun hgrid ⊢
  have hrows : (y.drop (c - 1).toNat).take 3 =
      [y.getD (c - 1).toNat 0, y.getD c.toNat 0, y.getD (c + 1).toNat 0] := by
    rw [drop_take_three (c - 1).toNat y (by omega)]
    have e1 : (c - 1).toNat + 1 = c.toNat := by omega
    have e2 : (c - 1).toNat + 2 = (c + 1).toNat := by omega
    rw [e1, e2]
  have hends : x1 + ((c - 1 : ℤ) : ℚ) * iv ≠ x1 + ((c + 1 : ℤ) : ℚ) * iv := by
    intro e
    apply hiv
    push_cast at e
    linarith
  rw [hrows, NewLen3_ok _ _ _ _ _ hends] at hrun
  refine ⟨c, _, hc1, hc2, hmin, hrun, rfl, rfl, rfl, ?_⟩
  intro hin
  obtain ⟨g1, g2⟩ := hgrid hin
  have habs := abs_le.mp (hon g1 (by rw [← hcast]; exact g2))
  have hfac : (2 * x - ((x1 + ((c + 1 : ℤ) : ℚ) * iv) + (x1 + ((c - 1 : ℤ) : ℚ) * iv))) /
      ((x1 + ((c + 1 : ℤ) : ℚ) * iv) - (x1 + ((c - 1 : ℤ) : ℚ) * iv)) =
      (x - x1) / iv - (c : ℚ) := by
    have hden : (x1 + ((c + 1 : ℤ) : ℚ) * iv) - (x1 + ((c - 1 : ℤ) : ℚ) * iv) = 2 * iv := by
      push_cast; ring
    have hnum : 2 * x - ((x1 + ((c + 1 : ℤ) : ℚ) * iv) + (x1 + ((c - 1 : ℤ) : ℚ) * iv)) =
        2 * (x - x1 - (c : ℚ) * iv) := by
      push_cast; ring
    rw [hden, hnum]
    field_simp
    ring
  have hn : ¬ ((2 * x - ((x1 + ((c + 1 : ℤ) : ℚ) * iv) + (x1 + ((c - 1 : ℤ) : ℚ) * iv))) /
      ((x1 + ((c + 1 : ℤ) : ℚ) * iv) - (x1 + ((c - 1 : ℤ) : ℚ) * iv)) < -1 ∨
      (2 * x - ((x1 + ((c + 1 : ℤ) : ℚ) * iv) + (x1 + ((c - 1 : ℤ) : ℚ) * iv))) /
      ((x1 + ((c + 1 : ℤ) : ℚ) * iv) - (x1 + ((c - 1 : ℤ) : ℚ) * iv)) > 1) := by
    rw [hfac, not_or, not_lt, not_lt]
    exact ⟨habs.1, habs.2⟩
  refine ⟨?_, ?_, ?_⟩
  · show -1 ≤ (2 * x - ((x1 + ((c + 1 : ℤ) : ℚ) * iv) + (x1 + ((c - 1 : ℤ) : ℚ) * iv))) /
      ((x1 + ((c + 1 : ℤ) : ℚ) * iv) - (x1 + ((c - 1 : ℤ) : ℚ) * iv))
    rw [hfac]
    exact habs.1
  · show (2 * x - ((x1 + ((c + 1 : ℤ) : ℚ) * iv) + (x1 + ((c - 1 : ℤ) : ℚ) * iv))) /
      ((x1 + ((c + 1 : ℤ) : ℚ) * iv) - (x1 + ((c - 1 : ℤ) : ℚ) * iv)) ≤ 1
    rw [hfac]
    exact habs.2
  · simp only [Len3.InterpolateXStrict, Len3.InterpolateNStrict, Len3.InterpolateX, if_neg hn]
    simp

/-- An instance of the exact-arithmetic statement: the table of squares
`0, 1, 4, 9, 16, 25` on `[0, 5]` and
the target `x = 2.6`, which lies on the table: a `Len3` table is returned and
its strict interpolation at 2.6 succeeds. -/
theorem len3ForInterpolateX_spec_witness :
    (3 < ([0, 1, 4, 9, 16, 25] : List ℚ).length ∧ (0 : ℚ) ≠ 5) ∧
      ∃ d, Len3ForInterpolateX 2.6 0 5 [0, 1, 4, 9, 16, 25] = .ok d ∧
        (d.InterpolateXStrict 2.6).2 = none :=
  ⟨⟨by decide, by norm_num⟩,
    match len3ForInterpolateX_spec 2.6 0 5 [0, 1, 4, 9, 16, 25] (by decide) (by norm_num) with
    | ⟨_, d, _, _, _, hrun, _, _, _, hs⟩ =>
      ⟨d, hrun, by rw [(hs ⟨by norm_num, by norm_num⟩).2.2]⟩⟩

/-- C23: `Len4Half y` returns `ErrorNot4` (with value 0) exactly when
`len(y) ≠ 4`, and otherwise returns `(9*(y[1]+y[2]) - y[0] - y[3])/16` with no
error; for the samples of any polynomial `p` of degree at most 3 at four
equally spaced abscissae `x0, x0+s, x0+2s, x0+3s` that value is `p` at the
centre `x0 + 3s/2` of the table. -/
theorem len4Half_cases (y : List ℚ) :
    ((Len4Half y).2 = some ErrorNot4 ↔ y.length ≠ 4) ∧
    (y.length ≠ 4 → Len4Half y = (0, some ErrorNot4)) ∧
    (y.length = 4 →
      Len4Half y =
        ((9 * (y.getD 1 0 + y.getD 2 0) - y.getD 0 0 - y.getD 3 0) / 16, none)) ∧
    (∀ q0 q1 q2 q3 x0 s : ℚ,
      Len4Half [cubic q0 q1 q2 q3 x0, cubic q0 q1 q2 q3 (x0 + s),
          cubic q0 q1 q2 q3 (x0 + 2 * s), cubic q0 q1 q2 q3 (x0 + 3 * s)] =
        (cubic q0 q1 q2 q3 (x0 + 3 * s / 2), none)) := by
  refine ⟨?_, ?_, ?_, ?_⟩
  · unfold Len4Half
    split_ifs with h <;> simp [h]
  · intro h
    simp only [Len4Half, if_pos h]
  · intro h
    have h' : ¬ y.length ≠ 4 := not_not.mpr h
    simp only [Len4Half, if_neg h']
  · intro q0 q1 q2 q3 x0 s
    have hl : ¬ ([cubic q0 q1 q2 q3 x0, cubic q0 q1 q2 q3 (x0 + s),
        cubic q0 q1 q2 q3 (x0 + 2 * s), cubic q0 q1 q2 q3 (x0 + 3 * s)] : List ℚ).length ≠ 4 := by
      simp
    rw [Len4Half, if_neg hl]
    simp only [List.getD_cons_zero, List.getD_cons_succ, Prod.mk.injEq, and_true, cubic]
    ring

/-! ## Lagrange under a permutation of the rows -/

theorem map_getD_range (table : List Row) :
    (List.range table.length).map (fun j => table.getD j ⟨0, 0⟩) = table := by
  apply List.ext_getElem
  · simp
  · intro n h1 h2
    simp only [List.getElem_map, List.getElem_range]
    exact List.getD_eq_getElem _ _ h2

theorem map_getD_range_map (table : List Row) (G : Row → ℚ) :
    (List.range table.length).map (fun i => G (table.getD i ⟨0, 0⟩)) = table.map G := by
  calc (List.range table.length).map (fun i => G (table.getD i ⟨0, 0⟩))
      = ((List.range table.length).map fun j => table.getD j ⟨0, 0⟩).map G := by
        rw [List.map_map]
        rfl
    _ = table.map G := by rw [map_getD_range]

theorem filter_map_getD_range (table : List Row) (p : Row → Bool) (h : Row → ℚ) :
    ((List.range table.length).filter (p ∘ fun j => table.getD j ⟨0, 0⟩)).map
        (fun j => h (table.getD j ⟨0, 0⟩)) = (table.filter p).map h := by
  calc ((List.range table.length).filter (p ∘ fun j => table.getD j ⟨0, 0⟩)).map
        (fun j => h (table.getD j ⟨0, 0⟩))
      = ((((List.range table.length).map fun j => table.getD j ⟨0, 0⟩)).filter p).map h := by
        rw [List.filter_map, List.map_map]
        rfl
    _ = (table.filter p).map h := by rw [map_getD_range]

theorem Lagrange_eq_row_sum (x : ℚ) (table : List Row) (hnd : (table.map Row.X).Nodup) :
    Lagrange x table =
      (table.map fun r =>
        r.Y * ((table.filter fun s => decide (r.X ≠ s.X)).map fun s =>
          (x - s.X) / (r.X - s.X)).prod).sum := by
  rw [Lagrange_eq_sum]
  have hinner : ∀ i ∈ List.range table.length,
      (table.getD i ⟨0, 0⟩).Y *
        (((List.range table.length).filter fun j => decide (i ≠ j)).map fun j =>
          (x - (table.getD j ⟨0, 0⟩).X) /
            ((table.getD i ⟨0, 0⟩).X - (table.getD j ⟨0, 0⟩).X)).prod =
      (fun r : Row =>
        r.Y * ((table.filter fun s => decide (r.X ≠ s.X)).map fun s =>
          (x - s.X) / (r.X - s.X)).prod) (table.getD i ⟨0, 0⟩) := by
    intro i hi
    have hi' := List.mem_range.mp hi
    show _ = (table.getD i ⟨0, 0⟩).Y * _
    congr 2
    have hfilter : (List.range table.length).filter (fun j => decide (i ≠ j)) =
        (List.range table.length).filter
          ((fun s : Row => decide ((table.getD i ⟨0, 0⟩).X ≠ s.X)) ∘
            fun j => table.getD j ⟨0, 0⟩) := by
      apply List.filter_congr
      intro j hj
      have hj' := List.mem_range.mp hj
      simp only [Function.comp, decide_eq_decide]
      constructor
      · intro hne he
        exact hne (row_X_injective table hnd hi' hj' he)
      · intro hne he
        exact hne (by rw [he])
    rw [hfilter]
    exact filter_map_getD_range table _
      (fun s => (x - s.X) / ((table.getD i ⟨0, 0⟩).X - s.X))
  rw [List.map_congr_left hinner]
  exact congrArg List.sum (map_getD_range_map table fun r : Row =>
    r.Y * ((table.filter fun s => decide (r.X ≠ s.X)).map fun s =>
      (x - s.X) / (r.X - s.X)).prod)

theorem row_sum_perm (x : ℚ) (table table' : List Row) (hperm : table.Perm table') :
    (table.map fun r =>
        r.Y * ((table.filter fun s => decide (r.X ≠ s.X)).map fun s =>
          (x - s.X) / (r.X - s.X)).prod).sum =
      (table'.map fun r =>
        r.Y * ((table'.filter fun s => decide (r.X ≠ s.X)).map fun s =>
          (x - s.X) / (r.X - s.X)).prod).sum := by
  have hfun : (fun r : Row =>
        r.Y * ((table.filter fun s => decide (r.X ≠ s.X)).map fun s =>
          (x - s.X) / (r.X - s.X)).prod) =
      fun r : Row =>
        r.Y * ((table'.filter fun s => decide (r.X ≠ s.X)).map fun s =>
          (x - s.X) / (r.X - s.X)).prod := by
    funext r
    congr 1
    exact ((hperm.filter _).map _).prod_eq
  rw [hfun]
  exact (hperm.map _).sum_eq

/-- C24: for every table with pairwise distinct `X` values and every permutation
`table'` of its rows, `Lagrange(x, table')` equals `Lagrange(x, table)` for every
`x`: neither the order nor the spacing of the rows matters. -/
theorem lagrange_perm (x : ℚ) (table table' : List Row) (hperm : table.Perm table')
    (hnd : (table.map Row.X).Nodup) :
    Lagrange x table' = Lagrange x table := by
  have hnd' : (table'.map Row.X).Nodup := (hperm.map Row.X).nodup_iff.mp hnd
  rw [Lagrange_eq_row_sum x table hnd, Lagrange_eq_row_sum x table' hnd']
  exact (row_sum_perm x table table' hperm).symm

/-- Witness of C24: the unequally spaced table `(1, 1), (2, 8), (4, 64)` and the
same rows in the order third, first, second, at `x = 3`. -/
theorem lagrange_perm_witness :
    Lagrange 3 [⟨4, 64⟩, ⟨1, 1⟩, ⟨2, 8⟩] = Lagrange 3 [⟨1, 1⟩, ⟨2, 8⟩, ⟨4, 64⟩] :=
  lagrange_perm 3 [⟨1, 1⟩, ⟨2, 8⟩, ⟨4, 64⟩] [⟨4, 64⟩, ⟨1, 1⟩, ⟨2, 8⟩]
    (@List.perm_append_comm Row [⟨1, 1⟩, ⟨2, 8⟩] [⟨4, 64⟩]) (by simp)

/-! ## A zero at the middle row, and Lagrange on three equally spaced rows -/

theorem iterateLoop_zero_fixed (f : iterFunc) (hf : f 0 = some 0 ∨ f 0 = none) :
    ∀ limit : ℕ, iterateLoop f limit 0 = (0, false) := by
  intro limit
  induction limit with
  | zero => rfl
  | succ n ih =>
    rcases hf with h | h
    · rw [iterateLoop_continue f n 0 0 h (fun ht => ht.1 rfl), ih]
    · simp only [iterateLoop, h]

theorem len3_zeroEstimate_at_zero (d : Len3) (strong : Bool) (hy : d.y.getD 1 0 = 0) :
    d.zeroEstimate strong 0 = some 0 ∨ d.zeroEstimate strong 0 = none := by
  cases strong
  · rw [len3_zeroEstimate_false, hy]
    by_cases h : d.abSum + d.c * 0 = 0
    · right
      simp only [fdiv, if_pos h]
    · left
      rw [fdiv_of_ne_zero _ _ h]
      norm_num
  · rw [len3_zeroEstimate_true, hy]
    by_cases h : d.abSum + 2 * d.c * 0 = 0
    · right
      simp only [fdiv, if_pos h, Option.map_none']
    · left
      rw [fdiv_of_ne_zero _ _ h, Option.map_some']
      norm_num

theorem len3_zero_of_middle_zero (d : Len3) (strong : Bool) (hy : d.y.getD 1 0 = 0) :
    d.Zero strong = (0, some ErrorNoConverge) := by
  apply zero_of_no_converge
  rw [iterate, iterateLoop_zero_fixed _ (len3_zeroEstimate_at_zero d strong hy)]

/-- C31: for every `Len3` table with `y[1] = 0` (in particular when also
`y[0] ≠ y[2]`, where the parabola has a zero exactly at the middle row),
`Zero(false)` and `Zero(true)` return `ErrorNoConverge`, not `x = (x1 + x3)/2`:
the estimate stays at 0 and the test of `iterate`, which divides by `n0 = 0`,
never holds.  The table `NewLen3(0, 2, [-1, 0, 1])` interpolates to 0 at `x = 1`
and `Zero` fails on it. -/
theorem len3_zero_middle_row_no_converge :
    (∀ (x1 x3 y0 y2 : ℚ) (d : Len3) (strong : Bool),
        NewLen3 x1 x3 [y0, 0, y2] = .ok d → d.Zero strong = (0, some ErrorNoConverge)) ∧
      ∃ d, NewLen3 0 2 [-1, 0, 1] = .ok d ∧ d.InterpolateX 1 = 0 ∧
        d.Zero false = (0, some ErrorNoConverge) ∧ d.Zero true = (0, some ErrorNoConverge) := by
  have hgen : ∀ (x1 x3 y0 y2 : ℚ) (d : Len3) (strong : Bool),
      NewLen3 x1 x3 [y0, 0, y2] = .ok d → d.Zero strong = (0, some ErrorNoConverge) := by
    intro x1 x3 y0 y2 d strong h
    obtain ⟨z0, z1, z2, hy, -, hd⟩ := NewLen3_eq_ok h
    apply len3_zero_of_middle_zero
    rw [hd]
    simp only [List.cons.injEq] at hy
    rw [← hy.2.1]
    rfl
  have hok := NewLen3_ok 0 2 (-1) 0 1 (by norm_num)
  refine ⟨hgen, _, hok, ?_, hgen _ _ _ _ _ false hok, hgen _ _ _ _ _ true hok⟩
  norm_num [Len3.InterpolateX, Len3.InterpolateN]

/-- C32: for every `x1 ≠ x3`, all sample values and every `x`, `Lagrange` on the
rows `(x1, y0)`, `((x1+x3)/2, y1)`, `(x3, y2)` equals `InterpolateX(x)` of the
table `NewLen3(x1, x3, [y0, y1, y2])`. -/
theorem lagrange_eq_len3_interpolateX (x1 x3 y0 y1 y2 x : ℚ) (hx : x1 ≠ x3) :
    ∃ d, NewLen3 x1 x3 [y0, y1, y2] = .ok d ∧
      Lagrange x [⟨x1, y0⟩, ⟨(x1 + x3) / 2, y1⟩, ⟨x3, y2⟩] = d.InterpolateX x := by
  refine ⟨_, NewLen3_ok x1 x3 y0 y1 y2 hx, ?_⟩
  have h13 : x1 - x3 ≠ 0 := sub_ne_zero.mpr hx
  have h31 : x3 - x1 ≠ 0 := sub_ne_zero.mpr (Ne.symm hx)
  have e12 : x1 - (x1 + x3) / 2 = (x1 - x3) / 2 := by ring
  have e21 : (x1 + x3) / 2 - x1 = (x3 - x1) / 2 := by ring
  have e23 : (x1 + x3) / 2 - x3 = (x1 - x3) / 2 := by ring
  have e32 : x3 - (x1 + x3) / 2 = (x3 - x1) / 2 := by ring
  have hL : Lagrange x [⟨x1, y0⟩, ⟨(x1 + x3) / 2, y1⟩, ⟨x3, y2⟩] =
      y0 * (((x - (x1 + x3) / 2) / (x1 - (x1 + x3) / 2)) * ((x - x3) / (x1 - x3))) +
        y1 * (((x - x1) / ((x1 + x3) / 2 - x1)) * ((x - x3) / ((x1 + x3) / 2 - x3))) +
        y2 * (((x - x1) / (x3 - x1)) * ((x - (x1 + x3) / 2) / (x3 - (x1 + x3) / 2))) := by
    simp [Lagrange, List.range_succ]
  rw [hL, e12, e21, e23, e32]
  simp only [Len3.InterpolateX, Len3.InterpolateN, List.getD_cons_zero, List.getD_cons_succ]
  field_simp
  ring

/-- Witness of C32: the table `(0, 1), (1, 4), (2, 9)` at `x = 3`. -/
theorem lagrange_eq_len3_interpolateX_witness :
    ∃ d, NewLen3 0 2 [1, 4, 9] = .ok d ∧
      Lagrange 3 [⟨0, 1⟩, ⟨(0 + 2) / 2, 4⟩, ⟨2, 9⟩] = d.InterpolateX 3 :=
  lagrange_eq_len3_interpolateX 0 2 1 4 9 3 (by norm_num)

/-! ## float64: the range guard of `InterpolateXStrict` at the ends of a table -/

namespace binary64

theorem roundHalfEven_of_lt (q : ℚ) (m : ℤ) (h1 : (m : ℚ) - 1 / 2 < q)
    (h2 : q < (m : ℚ) + 1 / 2) : roundHalfEven q = m := by
  unfold roundHalfEven
  by_cases hq : (m : ℚ) ≤ q
  · have hf : ⌊q⌋ = m := Int.floor_eq_iff.2 ⟨hq, by linarith⟩
    rw [hf, if_pos (by linarith)]
  · have hq' : q < m := not_le.mp hq
    have hf : ⌊q⌋ = m - 1 := Int.floor_eq_iff.2 ⟨by push_cast; linarith, by push_cast; linarith⟩
    rw [hf, if_neg (by push_cast; linarith), if_pos (by push_cast; linarith)]
    ring

theorem roundHalfEven_tie (q : ℚ) (m : ℤ) (hm : m % 2 = 0)
    (h : q = (m : ℚ) - 1 / 2 ∨ q = (m : ℚ) + 1 / 2) : roundHalfEven q = m := by
  unfold roundHalfEven
  rcases h with h | h
  · have hf : ⌊q⌋ = m - 1 := Int.floor_eq_iff.2 ⟨by push_cast; linarith, by push_cast; linarith⟩
    have hodd : ¬ (m - 1) % 2 = 0 := by omega
    rw [hf, if_neg (by push_cast; linarith), if_neg (by push_cast; linarith), if_neg hodd]
    ring
  · have hf : ⌊q⌋ = m := Int.floor_eq_iff.2 ⟨by linarith, by linarith⟩
    rw [hf, if_neg (by linarith), if_neg (by linarith), if_pos hm]

theorem roundHalfEven_intCast (m : ℤ) : roundHalfEven (m : ℚ) = m :=
  roundHalfEven_of_lt _ m (by linarith) (by linarith)

theorem log_eq_of_bounds (q : ℚ) (k : ℤ) (h1 : (2 : ℚ) ^ k ≤ |q|) (h2 : |q| < (2 : ℚ) ^ (k + 1)) :
    Int.log 2 |q| = k := by
  have hpos : (0 : ℚ) < |q| := lt_of_lt_of_le (by positivity) h1
  have a1 : k ≤ Int.log 2 |q| :=
    (Int.zpow_le_iff_le_log (by norm_num) hpos).1 (by exact_mod_cast h1)
  have a2 : Int.log 2 |q| < k + 1 :=
    (Int.lt_zpow_iff_log_lt (by norm_num) hpos).1 (by exact_mod_cast h2)
  omega

theorem nearest_eq (q : ℚ) (e m : ℤ) (he : -1074 ≤ e) (h1 : (2 : ℚ) ^ (e + 52) ≤ |q|)
    (h2 : |q| < (2 : ℚ) ^ (e + 52 + 1)) (hm : roundHalfEven (q / 2 ^ e) = m) :
    nearest q = (m : ℚ) * 2 ^ e := by
  unfold nearest
  rw [log_eq_of_bounds q (e + 52) h1 h2]
  have hmax : max (e + 52 - 52) (-1074) = e := by
    rw [max_eq_left (by omega)]
    ring
  simp only [hmax, hm]

theorem nearest_zero : nearest 0 = 0 := by
  unfold nearest
  simp [roundHalfEven]

theorem nearest_value_0 : nearest (-(900719925474100 / 900719925474099)) =
    -(4503599627370501 / 4503599627370496) := by
  rw [nearest_eq _ (-52) (-4503599627370501) (by norm_num) (by norm_num [abs_of_neg])
    (by norm_num [abs_of_neg]) (roundHalfEven_of_lt _ _ (by norm_num) (by norm_num))]
  norm_num

theorem nearest_value_1 : nearest (-(3602879701896398 / 3602879701896397)) =
    -(4503599627370497 / 4503599627370496) := by
  rw [nearest_eq _ (-52) (-4503599627370497) (by norm_num) (by norm_num [abs_of_neg])
    (by norm_num [abs_of_neg]) (roundHalfEven_of_lt _ _ (by norm_num) (by norm_num))]
  norm_num

theorem nearest_value_2 : nearest (-(225179981368525 / 1125899906842624)) =
    -(225179981368525 / 1125899906842624) := by
  rw [nearest_eq _ (-55) (-7205759403792800) (by norm_num) (by norm_num [abs_of_neg])
    (by norm_num [abs_of_neg]) (roundHalfEven_of_lt _ _ (by norm_num) (by norm_num))]
  norm_num

theorem nearest_value_3 : nearest (-(1801439850948199 / 18014398509481984)) =
    -(1801439850948199 / 18014398509481984) := by
  rw [nearest_eq _ (-56) (-7205759403792796) (by norm_num) (by norm_num [abs_of_neg])
    (by norm_num [abs_of_neg]) (roundHalfEven_of_lt _ _ (by norm_num) (by norm_num))]
  norm_num

theorem nearest_value_4 : nearest (900719925474099 / 9007199254740992) =
    900719925474099 / 9007199254740992 := by
  rw [nearest_eq _ (-56) 7205759403792792 (by norm_num) (by norm_num [abs_of_pos])
    (by norm_num [abs_of_pos]) (roundHalfEven_of_lt _ _ (by norm_num) (by norm_num))]
  norm_num

theorem nearest_value_5 : nearest (1 / 10) = 3602879701896397 / 36028797018963968 := by
  rw [nearest_eq _ (-56) 7205759403792794 (by norm_num) (by norm_num [abs_of_pos])
    (by norm_num [abs_of_pos]) (roundHalfEven_of_lt _ _ (by norm_num) (by norm_num))]
  norm_num

theorem nearest_value_6 : nearest (3602879701896397 / 36028797018963968) =
    3602879701896397 / 36028797018963968 := by
  rw [nearest_eq _ (-56) 7205759403792794 (by norm_num) (by norm_num [abs_of_pos])
    (by norm_num [abs_of_pos]) (roundHalfEven_of_lt _ _ (by norm_num) (by norm_num))]
  norm_num

theorem nearest_value_7 : nearest (900719925474099 / 4503599627370496) =
    900719925474099 / 4503599627370496 := by
  rw [nearest_eq _ (-55) 7205759403792792 (by norm_num) (by norm_num [abs_of_pos])
    (by norm_num [abs_of_pos]) (roundHalfEven_of_lt _ _ (by norm_num) (by norm_num))]
  norm_num

theorem nearest_value_8 : nearest (1 / 5) = 3602879701896397 / 18014398509481984 := by
  rw [nearest_eq _ (-55) 7205759403792794 (by norm_num) (by norm_num [abs_of_pos])
    (by norm_num [abs_of_pos]) (roundHalfEven_of_lt _ _ (by norm_num) (by norm_num))]
  norm_num

theorem nearest_value_9 : nearest (3602879701896397 / 18014398509481984) =
    3602879701896397 / 18014398509481984 := by
  rw [nearest_eq _ (-55) 7205759403792794 (by norm_num) (by norm_num [abs_of_pos])
    (by norm_num [abs_of_pos]) (roundHalfEven_of_lt _ _ (by norm_num) (by norm_num))]
  norm_num

theorem nearest_value_10 : nearest (10808639105689191 / 36028797018963968) =
    1351079888211149 / 4503599627370496 := by
  rw [nearest_eq _ (-54) 5404319552844596 (by norm_num) (by norm_num [abs_of_pos])
    (by norm_num [abs_of_pos]) (roundHalfEven_tie _ _ (by norm_num) (by norm_num))]
  norm_num

theorem nearest_value_11 : nearest (1 / 2) = 1 / 2 := by
  rw [nearest_eq _ (-53) 4503599627370496 (by norm_num) (by norm_num [abs_of_pos])
    (by norm_num [abs_of_pos]) (roundHalfEven_of_lt _ _ (by norm_num) (by norm_num))]
  norm_num

theorem nearest_value_12 : nearest (2702159776422297 / 4503599627370496) =
    2702159776422297 / 4503599627370496 := by
  rw [nearest_eq _ (-53) 5404319552844594 (by norm_num) (by norm_num [abs_of_pos])
    (by norm_num [abs_of_pos]) (roundHalfEven_of_lt _ _ (by norm_num) (by norm_num))]
  norm_num

theorem nearest_value_13 : nearest (1) = 1 := by
  rw [nearest_eq _ (-52) 4503599627370496 (by norm_num) (by norm_num [abs_of_pos])
    (by norm_num [abs_of_pos]) (roundHalfEven_of_lt _ _ (by norm_num) (by norm_num))]
  norm_num

theorem nearest_value_14 : nearest (11 / 10) = 2476979795053773 / 2251799813685248 := by
  rw [nearest_eq _ (-52) 4953959590107546 (by norm_num) (by norm_num [abs_of_pos])
    (by norm_num [abs_of_pos]) (roundHalfEven_of_lt _ _ (by norm_num) (by norm_num))]
  norm_num

theorem nearest_value_15 : nearest (2476979795053773 / 2251799813685248) =
    2476979795053773 / 2251799813685248 := by
  rw [nearest_eq _ (-52) 4953959590107546 (by norm_num) (by norm_num [abs_of_pos])
    (by norm_num [abs_of_pos]) (roundHalfEven_of_lt _ _ (by norm_num) (by norm_num))]
  norm_num

theorem nearest_value_16 : nearest (5854679515581645 / 4503599627370496) =
    5854679515581645 / 4503599627370496 := by
  rw [nearest_eq _ (-52) 5854679515581645 (by norm_num) (by norm_num [abs_of_pos])
    (by norm_num [abs_of_pos]) (roundHalfEven_of_lt _ _ (by norm_num) (by norm_num))]
  norm_num

theorem nearest_value_17 : nearest (17 / 10) = 7656119366529843 / 4503599627370496 := by
  rw [nearest_eq _ (-52) 7656119366529843 (by norm_num) (by norm_num [abs_of_pos])
    (by norm_num [abs_of_pos]) (roundHalfEven_of_lt _ _ (by norm_num) (by norm_num))]
  norm_num

theorem nearest_value_18 : nearest (2) = 2 := by
  rw [nearest_eq _ (-51) 4503599627370496 (by norm_num) (by norm_num [abs_of_pos])
    (by norm_num [abs_of_pos]) (roundHalfEven_of_lt _ _ (by norm_num) (by norm_num))]
  norm_num

theorem nearest_value_19 : nearest (2476979795053773 / 1125899906842624) =
    2476979795053773 / 1125899906842624 := by
  rw [nearest_eq _ (-51) 4953959590107546 (by norm_num) (by norm_num [abs_of_pos])
    (by norm_num [abs_of_pos]) (roundHalfEven_of_lt _ _ (by norm_num) (by norm_num))]
  norm_num

theorem nearest_value_20 : nearest (10808639105689191 / 4503599627370496) =
    1351079888211149 / 562949953421312 := by
  rw [nearest_eq _ (-51) 5404319552844596 (by norm_num) (by norm_num [abs_of_pos])
    (by norm_num [abs_of_pos]) (roundHalfEven_tie _ _ (by norm_num) (by norm_num))]
  norm_num

theorem nearest_value_21 : nearest (3) = 3 := by
  rw [nearest_eq _ (-51) 6755399441055744 (by norm_num) (by norm_num [abs_of_pos])
    (by norm_num [abs_of_pos]) (roundHalfEven_of_lt _ _ (by norm_num) (by norm_num))]
  norm_num

theorem nearest_value_22 : nearest (5) = 5 := by
  rw [nearest_eq _ (-50) 5629499534213120 (by norm_num) (by norm_num [abs_of_pos])
    (by norm_num [abs_of_pos]) (roundHalfEven_of_lt _ _ (by norm_num) (by norm_num))]
  norm_num

theorem nearest_value_23 : nearest (6) = 6 := by
  rw [nearest_eq _ (-50) 6755399441055744 (by norm_num) (by norm_num [abs_of_pos])
    (by norm_num [abs_of_pos]) (roundHalfEven_of_lt _ _ (by norm_num) (by norm_num))]
  norm_num

theorem nearest_value_24 : nearest (8) = 8 := by
  rw [nearest_eq _ (-49) 4503599627370496 (by norm_num) (by norm_num [abs_of_pos])
    (by norm_num [abs_of_pos]) (roundHalfEven_of_lt _ _ (by norm_num) (by norm_num))]
  norm_num

end binary64

/-- C6: in float64 arithmetic `InterpolateXStrict` rejects the first abscissa of the
table `NewLen3(0.1, 0.2, [1, 4, 9])`: `xSum` is rounded up to 0.30000000000000004,
the factor of `x = 0.1` is -1.0000000000000002, below -1, and the result is
`(0, ErrorXOutOfRange)`, although `x` is the `x1` given to the constructor. -/
theorem len3_interpolateXStrict_float64_rejects_x1 :
    ∃ d, binary64.NewLen3 (binary64.nearest 0.1) (binary64.nearest 0.2) [1, 4, 9] = .ok d ∧
      d.x1 = binary64.nearest 0.1 ∧
      binary64.nearest (binary64.nearest (binary64.nearest (2 * binary64.nearest 0.1) - d.xSum) /
        d.xDiff) = -(4503599627370497 / 4503599627370496) ∧
      binary64.Len3.InterpolateXStrict d (binary64.nearest 0.1) =
        (0, some ErrorXOutOfRange) := by
  have h1 : binary64.nearest 0.1 = 3602879701896397 / 36028797018963968 := by
    rw [show (0.1 : ℚ) = 1 / 10 by norm_num]
    exact binary64.nearest_value_5
  have h3 : binary64.nearest 0.2 = 3602879701896397 / 18014398509481984 := by
    rw [show (0.2 : ℚ) = 1 / 5 by norm_num]
    exact binary64.nearest_value_8
  rw [h1, h3]
  refine ⟨
    { x1 := 3602879701896397 / 36028797018963968,
      x3 := 3602879701896397 / 18014398509481984, y := [1, 4, 9],
      a := 3, b := 5, c := 2, abSum := 8,
      xSum := 1351079888211149 / 4503599627370496,
      xDiff := 3602879701896397 / 36028797018963968 }, ?_, rfl, ?_, ?_⟩
  · norm_num [binary64.NewLen3, binary64.nearest_value_1, binary64.nearest_value_3,
      binary64.nearest_value_5, binary64.nearest_value_6, binary64.nearest_value_8,
      binary64.nearest_value_9, binary64.nearest_value_10, binary64.nearest_value_18,
      binary64.nearest_value_21, binary64.nearest_value_22, binary64.nearest_value_24]
  · norm_num [binary64.nearest_value_1, binary64.nearest_value_3, binary64.nearest_value_5,
      binary64.nearest_value_6, binary64.nearest_value_8, binary64.nearest_value_9,
      binary64.nearest_value_10, binary64.nearest_value_18, binary64.nearest_value_21,
      binary64.nearest_value_22, binary64.nearest_value_24]
  · norm_num [binary64.Len3.InterpolateXStrict, binary64.Len3.InterpolateNStrict,
      binary64.nearest_value_1, binary64.nearest_value_3, binary64.nearest_value_5,
      binary64.nearest_value_6, binary64.nearest_value_8, binary64.nearest_value_9,
      binary64.nearest_value_10, binary64.nearest_value_18, binary64.nearest_value_21,
      binary64.nearest_value_22, binary64.nearest_value_24]

/-- C22: in float64 arithmetic the table that `Len3ForInterpolateX` returns for
`x = x1 = 1.1`, `xn = 1.7` and seven rows starts at `x1 = 1.1`, and
`InterpolateXStrict(1.1)` on it fails: the factor of `x` is -1.000000000000001,
below -1, and the result is `(0, ErrorXOutOfRange)`. -/
theorem len3ForInterpolateX_float64_rejects_x1 :
    ∃ d, binary64.Len3ForInterpolateX (binary64.nearest 1.1) (binary64.nearest 1.1)
        (binary64.nearest 1.7) [1, 2, 3, 4, 5, 6, 7] = .ok d ∧
      d.x1 = binary64.nearest 1.1 ∧ d.y = [1, 2, 3] ∧
      binary64.nearest (binary64.nearest (binary64.nearest (2 * binary64.nearest 1.1) - d.xSum) /
        d.xDiff) = -(4503599627370501 / 4503599627370496) ∧
      binary64.Len3.InterpolateXStrict d (binary64.nearest 1.1) =
        (0, some ErrorXOutOfRange) := by
  have h1 : binary64.nearest 1.1 = 2476979795053773 / 2251799813685248 := by
    rw [show (1.1 : ℚ) = 11 / 10 by norm_num]
    exact binary64.nearest_value_14
  have h7 : binary64.nearest 1.7 = 7656119366529843 / 4503599627370496 := by
    rw [show (1.7 : ℚ) = 17 / 10 by norm_num]
    exact binary64.nearest_value_17
  rw [h1, h7]
  refine ⟨
    { x1 := 2476979795053773 / 2251799813685248,
      x3 := 5854679515581645 / 4503599627370496, y := [1, 2, 3],
      a := 1, b := 1, c := 0, abSum := 2,
      xSum := 1351079888211149 / 562949953421312,
      xDiff := 900719925474099 / 4503599627370496 }, ?_, rfl, rfl, ?_, ?_⟩
  · norm_num [binary64.Len3ForInterpolateX, binary64.NewLen3, intOfFloat, binary64.nearest_zero,
      binary64.nearest_value_0, binary64.nearest_value_2, binary64.nearest_value_4,
          binary64.nearest_value_7, binary64.nearest_value_11, binary64.nearest_value_12,
          binary64.nearest_value_13, binary64.nearest_value_14, binary64.nearest_value_15,
          binary64.nearest_value_16, binary64.nearest_value_17, binary64.nearest_value_18,
          binary64.nearest_value_19, binary64.nearest_value_20, binary64.nearest_value_23]
  · norm_num [binary64.nearest_value_0, binary64.nearest_value_2, binary64.nearest_value_4,
      binary64.nearest_value_7, binary64.nearest_value_11, binary64.nearest_value_12,
      binary64.nearest_value_13, binary64.nearest_value_14, binary64.nearest_value_15,
      binary64.nearest_value_16, binary64.nearest_value_17, binary64.nearest_value_18,
      binary64.nearest_value_19, binary64.nearest_value_20, binary64.nearest_value_23]
  · norm_num [binary64.Len3.InterpolateXStrict, binary64.Len3.InterpolateNStrict,
      binary64.nearest_value_0, binary64.nearest_value_2, binary64.nearest_value_4,
      binary64.nearest_value_7, binary64.nearest_value_11, binary64.nearest_value_12,
      binary64.nearest_value_13, binary64.nearest_value_14, binary64.nearest_value_15,
      binary64.nearest_value_16, binary64.nearest_value_17, binary64.nearest_value_18,
      binary64.nearest_value_19, binary64.nearest_value_20, binary64.nearest_value_23]

end interp

/-! ## Theorems about package `iterate` -/

namespace iterate

open Error

theorem DecimalPlacesLoop_found (better : BetterFunc) (d : ℚ) :
    ∀ (rounds : ℕ) (start : ℚ) (k : ℕ), 1 ≤ k → k ≤ rounds →
      |better^[k] start - better^[k - 1] start| < d →
      (∀ k', 1 ≤ k' → k' < k → ¬ |better^[k'] start - better^[k' - 1] start| < d) →
      DecimalPlacesLoop better d rounds start = (better^[k] start, none, k) := by
  intro rounds
  induction rounds with
  | zero => intro start k h1 h2; omega
  | succ m ih =>
    intro start k h1 h2 ht hmin
    rcases Nat.lt_or_ge 1 k with hk | hk
    · have h1' : ¬ |better start - start| < d := by
        simpa using hmin 1 le_rfl hk
      obtain ⟨k0, rfl⟩ : ∃ k0, k = k0 + 1 := ⟨k - 1, by omega⟩
      have hrec := ih (better start) k0 (by omega) (by omega)
        (by
          obtain ⟨k1, rfl⟩ : ∃ k1, k0 = k1 + 1 := ⟨k0 - 1, by omega⟩
          simpa [Function.iterate_succ_apply] using ht)
        (by
          intro k' hk1 hk2
          obtain ⟨k1, rfl⟩ : ∃ k1, k' = k1 + 1 := ⟨k' - 1, by omega⟩
          have := hmin (k1 + 2) (by omega) (by omega)
          simpa [Function.iterate_succ_apply] using this)
      simp only [DecimalPlacesLoop, if_neg h1', hrec, Function.iterate_succ_apply]
    · have hk1 : k = 1 := by omega
      subst hk1
      have h1' : |better start - start| < d := by simpa using ht
      simp only [DecimalPlacesLoop, if_pos h1', Function.iterate_succ_apply,
        Function.iterate_zero, id_eq]

theorem DecimalPlacesLoop_none (better : BetterFunc) (d : ℚ) :
    ∀ (rounds : ℕ) (start : ℚ),
      (∀ k, 1 ≤ k → k ≤ rounds → ¬ |better^[k] start - better^[k - 1] start| < d) →
      DecimalPlacesLoop better d rounds start = (0, some MaximumIterationsReached, rounds) := by
  intro rounds
  induction rounds with
  | zero => intro start _; rfl
  | succ m ih =>
    intro start hno
    have h1' : ¬ |better start - start| < d := by
      simpa using hno 1 le_rfl (by omega)
    have hrec := ih (better start) (by
      intro k hk1 hk2
      obtain ⟨k1, rfl⟩ : ∃ k1, k = k1 + 1 := ⟨k - 1, by omega⟩
      have := hno (k1 + 2) (by omega) (by omega)
      simpa [Function.iterate_succ_apply] using this)
    simp only [DecimalPlacesLoop, if_neg h1', hrec]

/-- C14: for every `better`, `start`, `places` and `maxIterations`,
`DecimalPlaces` returns `(better^k(start), nil)` after `k` calls of `better`,
where `k` is the least index in `1..maxIterations` with
`|better^k(start) - better^(k-1)(start)| < 10^(-places)`; it returns the error
"Maximum iterations reached", with value 0, exactly when no such `k` exists;
and when `maxIterations ≤ 0` it fails whatever `better` is, calling it 0
times. -/
theorem decimalPlaces_cases (better : BetterFunc) (start : ℚ) (places maxIterations : ℤ) :
    (∀ k : ℕ, 1 ≤ k → (k : ℤ) ≤ maxIterations →
      |better^[k] start - better^[k - 1] start| < (10 : ℚ) ^ (-places) →
      (∀ k', 1 ≤ k' → k' < k →
        ¬ |better^[k'] start - better^[k' - 1] start| < (10 : ℚ) ^ (-places)) →
      DecimalPlaces better start places maxIterations = (better^[k] start, none) ∧
        DecimalPlacesCalls better start places maxIterations = k) ∧
    ((DecimalPlaces better start places maxIterations).2 = some MaximumIterationsReached ↔
      ¬ ∃ k : ℕ, 1 ≤ k ∧ (k : ℤ) ≤ maxIterations ∧
        |better^[k] start - better^[k - 1] start| < (10 : ℚ) ^ (-places)) ∧
    ((DecimalPlaces better start places maxIterations).2 = some MaximumIterationsReached →
      (DecimalPlaces better start places maxIterations).1 = 0) ∧
    (maxIterations ≤ 0 → ∀ better' : BetterFunc,
      DecimalPlaces better' start places maxIterations = (0, some MaximumIterationsReached) ∧
        DecimalPlacesCalls better' start places maxIterations = 0) := by
  have hfound : ∀ k : ℕ, 1 ≤ k → (k : ℤ) ≤ maxIterations →
      |better^[k] start - better^[k - 1] start| < (10 : ℚ) ^ (-places) →
      (∀ k', 1 ≤ k' → k' < k →
        ¬ |better^[k'] start - better^[k' - 1] start| < (10 : ℚ) ^ (-places)) →
      DecimalPlacesLoop better ((10 : ℚ) ^ (-places)) maxIterations.toNat start =
        (better^[k] start, none, k) := by
    intro k h1 h2 ht hmin
    exact DecimalPlacesLoop_found better _ _ start k h1 (by omega) ht hmin
  by_cases hex : ∃ k : ℕ, 1 ≤ k ∧ (k : ℤ) ≤ maxIterations ∧
      |better^[k] start - better^[k - 1] start| < (10 : ℚ) ^ (-places)
  · have hk := Nat.find_spec hex
    have hlo := hfound (Nat.find hex) hk.1 hk.2.1 hk.2.2 (by
      intro k' h1 h2 ht
      exact Nat.find_min hex h2 ⟨h1, by omega, ht⟩)
    refine ⟨?_, ?_, ?_, ?_⟩
    · intro k h1 h2 ht hmin
      simp only [DecimalPlaces, DecimalPlacesCalls, hfound k h1 h2 ht hmin, and_self]
    · have e : DecimalPlaces better start places maxIterations =
          (better^[Nat.find hex] start, none) := by
        simp only [DecimalPlaces, hlo]
      rw [e]
      exact ⟨fun h => by simp at h, fun h => absurd hex h⟩
    · have e : DecimalPlaces better start places maxIterations =
          (better^[Nat.find hex] start, none) := by
        simp only [DecimalPlaces, hlo]
      rw [e]
      intro h
      simp at h
    · intro hle
      obtain ⟨k, h1, h2, -⟩ := hex
      omega
  · have hno := DecimalPlacesLoop_none better ((10 : ℚ) ^ (-places)) maxIterations.toNat start
      (by
        intro k h1 h2 ht
        exact hex ⟨k, h1, by omega, ht⟩)
    have e : DecimalPlaces better start places maxIterations =
        (0, some MaximumIterationsReached) := by
      simp only [DecimalPlaces, hno]
    refine ⟨?_, ?_, ?_, ?_⟩
    · intro k h1 h2 ht _
      exact absurd ⟨k, h1, h2, ht⟩ hex
    · rw [e]
      exact ⟨fun _ => hex, fun _ => rfl⟩
    · rw [e]
      intro _
      rfl
    · intro hle better'
      have hz : maxIterations.toNat = 0 := by omega
      simp only [DecimalPlaces, DecimalPlacesCalls, hz, DecimalPlacesLoop, and_self]

theorem heron_iterates :
    (fun x : ℚ => (x + 2 / x) / 2)^[1] 1 = 3 / 2 ∧
    (fun x : ℚ => (x + 2 / x) / 2)^[2] 1 = 17 / 12 ∧
    (fun x : ℚ => (x + 2 / x) / 2)^[3] 1 = 577 / 408 ∧
    (fun x : ℚ => (x + 2 / x) / 2)^[4] 1 = 665857 / 470832 ∧
    (fun x : ℚ => (x + 2 / x) / 2)^[5] 1 = 886731088897 / 627013566048 := by
  simp only [Function.iterate_succ_apply, Function.iterate_zero, id_eq]
  norm_num

theorem heron_steps (k : ℕ) (h1 : 1 ≤ k) (h4 : k ≤ 4) :
    ¬ |(fun x : ℚ => (x + 2 / x) / 2)^[k] 1 - (fun x : ℚ => (x + 2 / x) / 2)^[k - 1] 1| <
      (10 : ℚ) ^ (-(6 : ℤ)) := by
  obtain ⟨e1, e2, e3, e4, -⟩ := heron_iterates
  interval_cases k
  · rw [e1]; norm_num [abs_lt]
  · rw [e2, show 2 - 1 = 1 from rfl, e1]; norm_num [abs_lt]
  · rw [e3, show 3 - 1 = 2 from rfl, e2]; norm_num [abs_lt]
  · rw [e4, show 4 - 1 = 3 from rfl, e3]; norm_num [abs_lt]

/-- C15: `DecimalPlaces` with `better(x) = (x + 2/x)/2`, `start = 1`,
`places = 6` and any `maxIterations ≥ 5` succeeds after exactly 5 calls of
`better` and returns `886731088897/627013566048`, which rounds to `1.414214`
at 6 decimal places and differs from the square root of 2 by less than
`1e-6`; with `maxIterations ≤ 4` it fails. -/
theorem decimalPlaces_sqrt_two :
    (∀ maxIterations : ℤ, 5 ≤ maxIterations →
      DecimalPlaces (fun x => (x + 2 / x) / 2) 1 6 maxIterations =
          (886731088897 / 627013566048, none) ∧
        DecimalPlacesCalls (fun x => (x + 2 / x) / 2) 1 6 maxIterations = 5) ∧
    (∀ maxIterations : ℤ, maxIterations ≤ 4 →
      DecimalPlaces (fun x => (x + 2 / x) / 2) 1 6 maxIterations =
        (0, some MaximumIterationsReached)) ∧
    ((1414214 : ℚ) / 10 ^ 6 - 5 / 10 ^ 7 ≤ 886731088897 / 627013566048 ∧
      (886731088897 : ℚ) / 627013566048 < 1414214 / 10 ^ 6 + 5 / 10 ^ 7) ∧
    ((0 : ℚ) < 886731088897 / 627013566048 - 1 / 10 ^ 6 ∧
      ((886731088897 : ℚ) / 627013566048 - 1 / 10 ^ 6) ^ 2 < 2 ∧
      2 < ((886731088897 : ℚ) / 627013566048 + 1 / 10 ^ 6) ^ 2) := by
  obtain ⟨-, -, -, e4, e5⟩ := heron_iterates
  refine ⟨?_, ?_, by norm_num, by norm_num⟩
  · intro maxIterations hm
    have hlo := DecimalPlacesLoop_found (fun x => (x + 2 / x) / 2) ((10 : ℚ) ^ (-(6 : ℤ)))
      maxIterations.toNat 1 5 (by norm_num) (by omega)
      (by rw [e5, show 5 - 1 = 4 from rfl, e4]; norm_num [abs_lt])
      (fun k' h1 h2 => heron_steps k' h1 (by omega))
    rw [e5] at hlo
    simp only [DecimalPlaces, DecimalPlacesCalls, hlo, and_self]
  · intro maxIterations hm
    have hno := DecimalPlacesLoop_none (fun x => (x + 2 / x) / 2) ((10 : ℚ) ^ (-(6 : ℤ)))
      maxIterations.toNat 1 (fun k h1 h2 => heron_steps k h1 (by omega))
    simp only [DecimalPlaces, hno]

theorem FullPrecisionLoop_found (better : BetterFunc) :
    ∀ (rounds : ℕ) (start : ℚ) (k : ℕ), 1 ≤ k → k ≤ rounds →
      (better^[k] start ≠ 0 ∧
        |(better^[k] start - better^[k - 1] start) / better^[k] start| < 1 / 10 ^ 15) →
      (∀ k', 1 ≤ k' → k' < k →
        ¬ (better^[k'] start ≠ 0 ∧
          |(better^[k'] start - better^[k' - 1] start) / better^[k'] start| < 1 / 10 ^ 15)) →
      FullPrecisionLoop better rounds start = (better^[k] start, none, k) := by
  intro rounds
  induction rounds with
  | zero => intro start k h1 h2; omega
  | succ m ih =>
    intro start k h1 h2 ht hmin
    rcases Nat.lt_or_ge 1 k with hk | hk
    · have h1' : ¬ (better start ≠ 0 ∧ |(better start - start) / better start| < 1 / 10 ^ 15) := by
        simpa using hmin 1 le_rfl hk
      obtain ⟨k0, rfl⟩ : ∃ k0, k = k0 + 1 := ⟨k - 1, by omega⟩
      have hrec := ih (better start) k0 (by omega) (by omega)
        (by
          obtain ⟨k1, rfl⟩ : ∃ k1, k0 = k1 + 1 := ⟨k0 - 1, by omega⟩
          simpa [Function.iterate_succ_apply] using ht)
        (by
          intro k' hk1 hk2
          obtain ⟨k1, rfl⟩ : ∃ k1, k' = k1 + 1 := ⟨k' - 1, by omega⟩
          have := hmin (k1 + 2) (by omega) (by omega)
          simpa [Function.iterate_succ_apply] using this)
      simp only [FullPrecisionLoop, if_neg h1', hrec, Function.iterate_succ_apply]
    · have hk1 : k = 1 := by omega
      subst hk1
      have h1' : better start ≠ 0 ∧ |(better start - start) / better start| < 1 / 10 ^ 15 := by
        simpa using ht
      simp only [FullPrecisionLoop, if_pos h1', Function.iterate_succ_apply,
        Function.iterate_zero, id_eq]

theorem FullPrecisionLoop_none (better : BetterFunc) :
    ∀ (rounds : ℕ) (start : ℚ),
      (∀ k, 1 ≤ k → k ≤ rounds →
        ¬ (better^[k] start ≠ 0 ∧
          |(better^[k] start - better^[k - 1] start) / better^[k] start| < 1 / 10 ^ 15)) →
      FullPrecisionLoop better rounds start = (0, some MaximumIterationsReached, rounds) := by
  intro rounds
  induction rounds with
  | zero => intro start _; rfl
  | succ m ih =>
    intro start hno
    have h1' : ¬ (better start ≠ 0 ∧ |(better start - start) / better start| < 1 / 10 ^ 15) := by
      simpa using hno 1 le_rfl (by omega)
    have hrec := ih (better start) (by
      intro k hk1 hk2
      obtain ⟨k1, rfl⟩ : ∃ k1, k = k1 + 1 := ⟨k - 1, by omega⟩
      have := hno (k1 + 2) (by omega) (by omega)
      simpa [Function.iterate_succ_apply] using this)
    simp only [FullPrecisionLoop, if_neg h1', hrec]

/-- C16: for every `better`, `start` and `maxIterations`, `FullPrecision`
returns `(n, nil)` with `n = better^k(start)` for the least `k` in
`1..maxIterations` such that `|(n - better^(k-1)(start)) / n| < 1e-15`, the
change relative to the new estimate `n` (a test that is false when `n` is
zero); it returns the error "Maximum iterations reached" exactly when no such
`k` exists. -/
theorem fullPrecision_cases (better : BetterFunc) (start : ℚ) (maxIterations : ℤ) :
    (∀ k : ℕ, 1 ≤ k → (k : ℤ) ≤ maxIterations →
      (better^[k] start ≠ 0 ∧
        |(better^[k] start - better^[k - 1] start) / better^[k] start| < 1 / 10 ^ 15) →
      (∀ k', 1 ≤ k' → k' < k →
        ¬ (better^[k'] start ≠ 0 ∧
          |(better^[k'] start - better^[k' - 1] start) / better^[k'] start| < 1 / 10 ^ 15)) →
      FullPrecision better start maxIterations = (better^[k] start, none)) ∧
    ((FullPrecision better start maxIterations).2 = some MaximumIterationsReached ↔
      ¬ ∃ k : ℕ, 1 ≤ k ∧ (k : ℤ) ≤ maxIterations ∧
        (better^[k] start ≠ 0 ∧
          |(better^[k] start - better^[k - 1] start) / better^[k] start| < 1 / 10 ^ 15)) ∧
    ((FullPrecision better start maxIterations).2 = some MaximumIterationsReached →
      (FullPrecision better start maxIterations).1 = 0) := by
  have hfound : ∀ k : ℕ, 1 ≤ k → (k : ℤ) ≤ maxIterations →
      (better^[k] start ≠ 0 ∧
        |(better^[k] start - better^[k - 1] start) / better^[k] start| < 1 / 10 ^ 15) →
      (∀ k', 1 ≤ k' → k' < k →
        ¬ (better^[k'] start ≠ 0 ∧
          |(better^[k'] start - better^[k' - 1] start) / better^[k'] start| < 1 / 10 ^ 15)) →
      FullPrecision better start maxIterations = (better^[k] start, none) := by
    intro k h1 h2 ht hmin
    simp only [FullPrecision,
      FullPrecisionLoop_found better maxIterations.toNat start k h1 (by omega) ht hmin]
  by_cases hex : ∃ k : ℕ, 1 ≤ k ∧ (k : ℤ) ≤ maxIterations ∧
      (better^[k] start ≠ 0 ∧
        |(better^[k] start - better^[k - 1] start) / better^[k] start| < 1 / 10 ^ 15)
  · have hk := Nat.find_spec hex
    have e := hfound (Nat.find hex) hk.1 hk.2.1 hk.2.2 (by
      intro k' h1 h2 ht
      exact Nat.find_min hex h2 ⟨h1, by omega, ht⟩)
    refine ⟨hfound, ?_, ?_⟩
    · rw [e]
      exact ⟨fun h => by simp at h, fun h => absurd hex h⟩
    · rw [e]
      intro h
      simp at h
  · have hno := FullPrecisionLoop_none better maxIterations.toNat start
      (by
        intro k h1 h2 ht
        exact hex ⟨k, h1, by omega, ht⟩)
    have e : FullPrecision better start maxIterations =
        (0, some MaximumIterationsReached) := by
      simp only [FullPrecision, hno]
    refine ⟨hfound, ?_, ?_⟩
    · rw [e]
      exact ⟨fun _ => hex, fun _ => rfl⟩
    · rw [e]
      intro _
      rfl

theorem BinaryRootLoop_one (f : RootFunc) (lower upper yLower mid0 : ℚ) :
    (BinaryRootLoop f 1 lower upper yLower mid0).1 = (lower + upper) / 2 := by
  simp only [BinaryRootLoop]
  split_ifs <;> rfl

/-- Bisection keeps the sign change `r` bracketed: started on `[lower, upper]`
around `r` with `yLower` of the sign of the left side, `rounds + 1` rounds end
within `(upper - lower) / 2^(rounds+1)` of `r`. -/
theorem BinaryRootLoop_bracket (f : RootFunc) (r L0 U0 : ℚ) (sL : Bool)
    (hleft : ∀ x, L0 ≤ x → x < r → f x ≠ 0 ∧ Signbit (f x) = sL)
    (hright : ∀ x, r < x → x ≤ U0 → f x ≠ 0 ∧ Signbit (f x) = !sL) :
    ∀ (rounds : ℕ) (lower upper yLower mid0 : ℚ),
      L0 ≤ lower → lower ≤ r → r ≤ upper → upper ≤ U0 → Signbit yLower = sL →
      lower ≤ (BinaryRootLoop f (rounds + 1) lower upper yLower mid0).1 ∧
        (BinaryRootLoop f (rounds + 1) lower upper yLower mid0).1 ≤ upper ∧
        |(BinaryRootLoop f (rounds + 1) lower upper yLower mid0).1 - r| ≤
          (upper - lower) / 2 ^ (rounds + 1) := by
  intro rounds
  induction rounds with
  | zero =>
    intro lower upper yLower mid0 h1 h2 h3 h4 _
    rw [BinaryRootLoop_one]
    refine ⟨by linarith, by linarith, ?_⟩
    rw [abs_le]
    constructor <;> norm_num <;> linarith
  | succ m ih =>
    intro lower upper yLower mid0 h1 h2 h3 h4 hs
    have hmid1 : lower ≤ (lower + upper) / 2 := by linarith
    have hmid2 : (lower + upper) / 2 ≤ upper := by linarith
    have hpow : (0 : ℚ) < 2 ^ (m + 1) := by positivity
    by_cases h0 : f ((lower + upper) / 2) = 0
    · have hmr : (lower + upper) / 2 = r := by
        by_contra hne
        rcases lt_or_gt_of_ne hne with hlt | hgt
        · exact (hleft _ (by linarith) hlt).1 h0
        · exact (hright _ hgt (by linarith)).1 h0
      have e : (BinaryRootLoop f (m + 1 + 1) lower upper yLower mid0).1 =
          (lower + upper) / 2 := by
        rw [BinaryRootLoop]
        simp only [if_pos h0]
      rw [e]
      refine ⟨hmid1, hmid2, ?_⟩
      rw [hmr, sub_self, abs_zero]
      exact div_nonneg (by linarith) (by positivity)
    · by_cases hsame : Signbit yLower = Signbit (f ((lower + upper) / 2))
      · have hle : (lower + upper) / 2 ≤ r := by
          by_contra hgt
          have := (hright _ (not_le.mp hgt) (by linarith)).2
          rw [← hsame, hs] at this
          cases sL <;> simp at this
        have e : (BinaryRootLoop f (m + 1 + 1) lower upper yLower mid0).1 =
            (BinaryRootLoop f (m + 1) ((lower + upper) / 2) upper
              (f ((lower + upper) / 2)) ((lower + upper) / 2)).1 := by
          rw [BinaryRootLoop]
          simp only [if_neg h0, if_pos hsame]
        rw [e]
        obtain ⟨a1, a2, a3⟩ := ih ((lower + upper) / 2) upper (f ((lower + upper) / 2))
          ((lower + upper) / 2) (by linarith) hle h3 h4 (by rw [← hsame, hs])
        refine ⟨by linarith, a2, le_trans a3 (le_of_eq ?_)⟩
        rw [pow_succ 2 (m + 1)]
        field_simp
        ring
      · have hge : r ≤ (lower + upper) / 2 := by
          by_contra hlt
          have := (hleft _ (by linarith) (not_le.mp hlt)).2
          rw [← hs] at this
          exact hsame this.symm
        have e : (BinaryRootLoop f (m + 1 + 1) lower upper yLower mid0).1 =
            (BinaryRootLoop f (m + 1) lower ((lower + upper) / 2) yLower
              ((lower + upper) / 2)).1 := by
          rw [BinaryRootLoop]
          simp only [if_neg h0, if_neg hsame]
        rw [e]
        obtain ⟨a1, a2, a3⟩ := ih lower ((lower + upper) / 2) yLower
          ((lower + upper) / 2) h1 h2 hge (by linarith) hs
        refine ⟨a1, by linarith, le_trans a3 (le_of_eq ?_)⟩
        rw [pow_succ 2 (m + 1)]
        field_simp
        ring

/-- C17: for every `f` and `lower < upper` such that `f` has a single sign
change at `r` in `[lower, upper]` (`f(lower) ≠ 0`, `f` strictly of the sign of
`f(lower)` on `[lower, r)` and strictly of the opposite sign on `(r, upper]`),
`BinaryRoot f lower upper` lies in `[lower, upper]` and within
`(upper - lower) / 2^52` of `r`. -/
theorem binaryRoot_near_sign_change (f : RootFunc) (lower upper r : ℚ)
    (hlu : lower < upper) (hr : lower ≤ r ∧ r ≤ upper) (hlo : f lower ≠ 0)
    (hleft : ∀ x, lower ≤ x → x < r → 0 < f lower * f x)
    (hright : ∀ x, r < x → x ≤ upper → f lower * f x < 0) :
    lower ≤ BinaryRoot f lower upper ∧ BinaryRoot f lower upper ≤ upper ∧
      |BinaryRoot f lower upper - r| ≤ (upper - lower) / 2 ^ 52 := by
  have hl : ∀ x, lower ≤ x → x < r → f x ≠ 0 ∧ Signbit (f x) = Signbit (f lower) := by
    intro x h1 h2
    have hp := hleft x h1 h2
    refine ⟨fun h0 => by rw [h0, mul_zero] at hp; exact lt_irrefl _ hp, ?_⟩
    simp only [Signbit, decide_eq_decide]
    rcases mul_pos_iff.mp hp with ⟨ha, hb⟩ | ⟨ha, hb⟩
    · exact ⟨fun h => absurd h (not_lt.mpr hb.le), fun h => absurd h (not_lt.mpr ha.le)⟩
    · exact ⟨fun _ => ha, fun _ => hb⟩
  have hrt : ∀ x, r < x → x ≤ upper → f x ≠ 0 ∧ Signbit (f x) = !Signbit (f lower) := by
    intro x h1 h2
    have hp := hright x h1 h2
    refine ⟨fun h0 => by rw [h0, mul_zero] at hp; exact lt_irrefl _ hp, ?_⟩
    rcases mul_neg_iff.mp hp with ⟨ha, hb⟩ | ⟨ha, hb⟩
    · simp [Signbit, hb, not_lt.mpr ha.le]
    · simp [Signbit, ha, not_lt.mpr hb.le]
  exact BinaryRootLoop_bracket f r lower upper (Signbit (f lower)) hl hrt 51 lower upper
    (f lower) 0 le_rfl hr.1 hr.2 le_rfl rfl

/-- Witness of C17: `f(x) = x - 3` on `[0, 10]`, sign change at 3; the result
is within `1e-12` of 3. -/
theorem binaryRoot_near_sign_change_witness :
    (0 : ℚ) ≤ BinaryRoot (fun x => x - 3) 0 10 ∧ BinaryRoot (fun x => x - 3) 0 10 ≤ 10 ∧
      |BinaryRoot (fun x => x - 3) 0 10 - 3| < 1 / 10 ^ 12 :=
  have h := binaryRoot_near_sign_change (fun x => x - 3) 0 10 3 (by norm_num)
    ⟨by norm_num, by norm_num⟩ (by norm_num)
    (fun x _ h2 => by
      show (0 : ℚ) < (0 - 3) * (x - 3)
      nlinarith)
    (fun x h1 _ => by
      show ((0 : ℚ) - 3) * (x - 3) < 0
      nlinarith)
  ⟨h.1, h.2.1, lt_of_le_of_lt h.2.2 (by norm_num)⟩

theorem BinaryRootLoop_midpoints (f : RootFunc) :
    ∀ (rounds : ℕ) (lower upper yLower mid0 : ℚ),
      1 ≤ (BinaryRootLoop f (rounds + 1) lower upper yLower mid0).2.length ∧
      (BinaryRootLoop f (rounds + 1) lower upper yLower mid0).2.length ≤ rounds + 1 ∧
      (BinaryRootLoop f (rounds + 1) lower upper yLower mid0).2.head? =
        some ((lower + upper) / 2) ∧
      (BinaryRootLoop f (rounds + 1) lower upper yLower mid0).2.getLast? =
        some (BinaryRootLoop f (rounds + 1) lower upper yLower mid0).1 ∧
      (∀ m ∈ (BinaryRootLoop f (rounds + 1) lower upper yLower mid0).2.dropLast, f m ≠ 0) ∧
      ((BinaryRootLoop f (rounds + 1) lower upper yLower mid0).2.length < rounds + 1 →
        f (BinaryRootLoop f (rounds + 1) lower upper yLower mid0).1 = 0) := by
  intro rounds
  induction rounds with
  | zero =>
    intro lower upper yLower mid0
    simp only [BinaryRootLoop]
    split_ifs <;> simp
  | succ m ih =>
    intro lower upper yLower mid0
    rw [BinaryRootLoop]
    by_cases h0 : f ((lower + upper) / 2) = 0
    · simp [h0]
    · simp only [if_neg h0]
      have key : ∀ (lo up yl : ℚ),
          1 ≤ ((lower + upper) / 2 ::
              (BinaryRootLoop f (m + 1) lo up yl ((lower + upper) / 2)).2).length ∧
          ((lower + upper) / 2 ::
              (BinaryRootLoop f (m + 1) lo up yl ((lower + upper) / 2)).2).length ≤ m + 1 + 1 ∧
          ((lower + upper) / 2 ::
              (BinaryRootLoop f (m + 1) lo up yl ((lower + upper) / 2)).2).head? =
            some ((lower + upper) / 2) ∧
          ((lower + upper) / 2 ::
              (BinaryRootLoop f (m + 1) lo up yl ((lower + upper) / 2)).2).getLast? =
            some (BinaryRootLoop f (m + 1) lo up yl ((lower + upper) / 2)).1 ∧
          (∀ x ∈ ((lower + upper) / 2 ::
              (BinaryRootLoop f (m + 1) lo up yl ((lower + upper) / 2)).2).dropLast, f x ≠ 0) ∧
          (((lower + upper) / 2 ::
              (BinaryRootLoop f (m + 1) lo up yl ((lower + upper) / 2)).2).length < m + 1 + 1 →
            f (BinaryRootLoop f (m + 1) lo up yl ((lower + upper) / 2)).1 = 0) := by
        intro lo up yl
        obtain ⟨b1, b2, -, b4, b5, b6⟩ := ih lo up yl ((lower + upper) / 2)
        obtain ⟨t, ts, ht⟩ : ∃ t ts,
            (BinaryRootLoop f (m + 1) lo up yl ((lower + upper) / 2)).2 = t :: ts := by
          cases hl : (BinaryRootLoop f (m + 1) lo up yl ((lower + upper) / 2)).2 with
          | nil => rw [hl] at b1; simp at b1
          | cons t ts => exact ⟨t, ts, rfl⟩
        rw [ht] at b1 b2 b4 b5 b6 ⊢
        refine ⟨by simp, by simpa using b2, rfl, ?_, ?_, ?_⟩
        · rw [← b4]; simp [List.getLast?_cons_cons]
        · intro x hx
          rw [List.dropLast_cons₂, List.mem_cons] at hx
          rcases hx with rfl | hx
          · exact h0
          · exact b5 x hx
        · intro hlen
          exact b6 (by simpa using hlen)
      split_ifs
      · exact key _ _ _
      · exact key _ _ _

/-- C18 (counterexample): for `f(x) = x - 5` on `[0, 10]` the first midpoint 5
is an exact zero of `f`, so `BinaryRoot` evaluates `f` at one midpoint only,
not 52, and returns the midpoint of the first round. -/
theorem binaryRoot_stops_at_exact_zero :
    BinaryRootMidpoints (fun x => x - 5) 0 10 = [5] ∧
      BinaryRoot (fun x => x - 5) 0 10 = 5 ∧
      (BinaryRootMidpoints (fun x => x - 5) 0 10).length ≠ 52 := by
  have e : BinaryRootLoop (fun x => x - 5) (51 + 1) 0 10 ((fun x : ℚ => x - 5) 0) 0 =
      (5, [5]) := by
    rw [BinaryRootLoop]
    norm_num
  refine ⟨?_, ?_, ?_⟩
  · exact congrArg Prod.snd e
  · exact congrArg Prod.fst e
  · rw [show BinaryRootMidpoints (fun x => x - 5) 0 10 = [5] from congrArg Prod.snd e]
    decide

/-- C18 (amended): for every `f`, `lower` and `upper`, `BinaryRoot` performs at
least one and at most 52 bisections, the first at `(lower + upper)/2`; it
returns the last midpoint at which it evaluated `f`; `f` is non-zero at every
earlier midpoint; it stops before the 52nd round only at a midpoint where `f`
is exactly 0; and when `f` is non-zero at every midpoint evaluated it performs
exactly 52 bisections (and so returns the midpoint of the 52nd round). -/
theorem binaryRoot_rounds (f : RootFunc) (lower upper : ℚ) :
    1 ≤ (BinaryRootMidpoints f lower upper).length ∧
      (BinaryRootMidpoints f lower upper).length ≤ 52 ∧
      (BinaryRootMidpoints f lower upper).head? = some ((lower + upper) / 2) ∧
      (BinaryRootMidpoints f lower upper).getLast? = some (BinaryRoot f lower upper) ∧
      (∀ m ∈ (BinaryRootMidpoints f lower upper).dropLast, f m ≠ 0) ∧
      ((BinaryRootMidpoints f lower upper).length < 52 → f (BinaryRoot f lower upper) = 0) ∧
      ((∀ m ∈ BinaryRootMidpoints f lower upper, f m ≠ 0) →
        (BinaryRootMidpoints f lower upper).length = 52) := by
  obtain ⟨b1, b2, b3, b4, b5, b6⟩ := BinaryRootLoop_midpoints f 51 lower upper (f lower) 0
  refine ⟨b1, b2, b3, b4, b5, b6, ?_⟩
  intro hall
  by_contra hne
  have hlt : (BinaryRootMidpoints f lower upper).length < 52 :=
    lt_of_le_of_ne b2 hne
  exact hall _ (List.mem_of_getLast?_eq_some b4) (b6 hlt)

end iterate

/-! ## Theorems about package `julian` -/

namespace julian

/-! ### Helper lemmas -/

theorem FloorDiv_eq_ediv (x c : ℤ) (hc : 0 ≤ c) : FloorDiv x c = x / c :=
  Int.fdiv_eq_ediv x hc

theorem intOfFloat_intCast (z : ℤ) : interp.intOfFloat (z : ℚ) = z := by
  unfold interp.intOfFloat
  split_ifs
  · exact Int.floor_intCast z
  · exact Int.ceil_intCast z

theorem Modf_intCast (z : ℤ) : Modf (z : ℚ) = (z, 0) := by
  simp only [Modf, intOfFloat_intCast, sub_self]

theorem yearDays_split (y : ℤ) :
    36525 * (y + 4716) / 100 =
      36525 * (y / 100) + 365 * (y % 100) + y % 100 / 4 + 1722519 := by
  omega

theorem dayNumber_ge_gregorian_start (y' M d : ℤ) (hM : 122 ≤ M ∧ M ≤ 459) (hd1 : 1 ≤ d) (hd2 : d ≤ 31)
    (hstart : 1582 < y' ∨ (y' = 1582 ∧ 336 + 15 ≤ M + d)) :
    2299161 ≤ 36525 * (y' + 4716) / 100 + (M + (2 - y' / 100 + y' / 100 / 4)) + d - 1524 := by
  have h1 := yearDays_split y'
  omega

theorem century_of_dayNumber (y' M d : ℤ) (hM : 122 ≤ M ∧ M ≤ 459) (hd1 : 1 ≤ d) (hd2 : d ≤ 31)
    (hMd : M + d ≤ 488)
    (hfeb : M + d = 488 → ((y' + 1) % 4 = 0 ∧ (y' + 1) % 100 ≠ 0) ∨ (y' + 1) % 400 = 0)
    (hstart : 1582 < y' ∨ (y' = 1582 ∧ 336 + 15 ≤ M + d)) :
    ((36525 * (y' + 4716) / 100 + (M + (2 - y' / 100 + y' / 100 / 4)) + d - 1524) * 100
        - 186721625) / 3652425 = y' / 100 - 4 := by
  have h1 := yearDays_split y'
  have h2 : y' % 100 = 99 → M + d = 488 → y' / 100 % 4 = 3 := by
    intro h99 h488
    have := hfeb h488
    omega
  clear hfeb
  omega

theorem year_of_dayNumber (y' M d : ℤ) (hM : 122 ≤ M ∧ M ≤ 459) (hd1 : 1 ≤ d) (hd2 : d ≤ 31)
    (hMd : M + d ≤ 488) (hfeb : M + d = 488 → (y' + 1) % 4 = 0) :
    ((36525 * (y' + 4716) / 100 + M + d) * 100 - 12210) / 36525 = y' + 4716 := by
  omega

theorem JDToCalendar_core (jd : ℚ) (y' M d e : ℤ) (hM : 122 ≤ M ∧ M ≤ 459) (hd1 : 1 ≤ d)
    (hd2 : d ≤ 31) (hMd : M + d ≤ 488)
    (hfeb : M + d = 488 → ((y' + 1) % 4 = 0 ∧ (y' + 1) % 100 ≠ 0) ∨ (y' + 1) % 400 = 0)
    (hstart : 1582 < y' ∨ (y' = 1582 ∧ 336 + 15 ≤ M + d))
    (he : (M + d) * 10000 / 306001 = e) (hday : 306001 * e / 10000 = M)
    (hjd : jd = (((36525 * (y' + 4716)) / 100 + (M + (2 - y' / 100 + y' / 100 / 4)) + d - 1524 :
      ℤ) : ℚ) - 1 / 2) :
    JDToCalendar jd =
      (if (if e = 14 ∨ e = 15 then e - 13 else e - 1) = 1 ∨
          (if e = 14 ∨ e = 15 then e - 13 else e - 1) = 2 then y' + 1 else y',
        if e = 14 ∨ e = 15 then e - 13 else e - 1, (d : ℚ)) := by
  have hadd : ∀ z : ℤ, ((z : ℚ) - 1 / 2) + 1 / 2 = (z : ℚ) := fun z => by ring
  have hZ0 := dayNumber_ge_gregorian_start y' M d hM hd1 hd2 hstart
  have hα := century_of_dayNumber y' M d hM hd1 hd2 hMd hfeb hstart
  have hfeb4 : M + d = 488 → (y' + 1) % 4 = 0 := by
    intro h
    have := hfeb h
    omega
  have hc := year_of_dayNumber y' M d hM hd1 hd2 hMd hfeb4
  have hb : 36525 * (y' + 4716) / 100 + (M + (2 - y' / 100 + y' / 100 / 4)) + d - 1524 + 1 +
      (y' / 100 - 4) - (y' / 100 - 4) / 4 + 1524 = 36525 * (y' + 4716) / 100 + M + d := by
    omega
  have hbd : 36525 * (y' + 4716) / 100 + M + d - 36525 * (y' + 4716) / 100 = M + d := by
    ring
  have hdd : M + d - M = d := by ring
  subst hjd
  unfold JDToCalendar
  simp only [hadd, Modf_intCast]
  simp only [FloorDiv_eq_ediv _ _ (show (0 : ℤ) ≤ 3652425 by norm_num),
    FloorDiv_eq_ediv _ _ (show (0 : ℤ) ≤ 4 by norm_num),
    FloorDiv_eq_ediv _ _ (show (0 : ℤ) ≤ 36525 by norm_num),
    FloorDiv_eq_ediv _ _ (show (0 : ℤ) ≤ 100 by norm_num),
    FloorDiv_eq_ediv _ _ (show (0 : ℤ) ≤ 306001 by norm_num),
    FloorDiv_eq_ediv _ _ (show (0 : ℤ) ≤ 10000 by norm_num), ge_iff_le, if_pos hZ0, hα, hb, hc,
    hbd, he, hday, hdd, add_zero]
  have e1 : y' + 4716 - 4715 = y' + 1 := by ring
  have e2 : y' + 4716 - 4716 = y' := by ring
  rw [e1, e2]

theorem monthLength_two_le (leap : Bool) : monthLength 2 leap ≤ 29 := by
  cases leap <;> decide

theorem LeapYearGregorian_iff (y : ℤ) (hy : 0 ≤ y) :
    LeapYearGregorian y = true ↔ (y % 4 = 0 ∧ y % 100 ≠ 0) ∨ y % 400 = 0 := by
  simp [LeapYearGregorian, Int.tmod_eq_emod hy]

set_option maxHeartbeats 1600000 in
theorem gregorian_roundtrip (y m d : ℤ) (hm1 : 1 ≤ m) (hm12 : m ≤ 12) (hd1 : 1 ≤ d)
    (hd : d ≤ monthLength m (LeapYearGregorian y))
    (hstart : 1582 < y ∨ (y = 1582 ∧ (10 < m ∨ (m = 10 ∧ 15 ≤ d)))) :
    JDToCalendar (CalendarGregorianToJD y m (d : ℚ)) = (y, m, (d : ℚ)) := by
  have hy0 : 0 ≤ y := by omega
  have hleap := LeapYearGregorian_iff y hy0
  have hfebfact : m = 2 → d = 29 → (y % 4 = 0 ∧ y % 100 ≠ 0) ∨ y % 400 = 0 := by
    intro h2 h29
    subst h2
    apply hleap.1
    by_contra hL
    simp only [monthLength, hL] at hd
    norm_num at hd
    omega
  clear hleap
  have hcases : m = 1 ∨ m = 2 ∨ m = 3 ∨ m = 4 ∨ m = 5 ∨ m = 6 ∨ m = 7 ∨ m = 8 ∨ m = 9 ∨
      m = 10 ∨ m = 11 ∨ m = 12 := by omega
  rcases hcases with h | h | h | h | h | h | h | h | h | h | h | h <;> subst h
  · -- January
    have hd2 : d ≤ monthLength 1 (LeapYearGregorian y) := hd
    have hlen := monthLength_two_le (LeapYearGregorian y)
    norm_num [monthLength] at hlen hd2
    refine (JDToCalendar_core _ (y - 1) 428 d 14 (by norm_num) hd1 (by omega) (by omega)
      (by omega) (by omega) (by omega) (by norm_num) ?_).trans ?_
    · norm_num [CalendarGregorianToJD, FloorDiv_eq_ediv]
      ring
    · norm_num
  · -- February
    have hd2 : d ≤ monthLength 2 (LeapYearGregorian y) := hd
    have hlen := monthLength_two_le (LeapYearGregorian y)
    norm_num [monthLength] at hlen hd2
    have hfebcore : (459 : ℤ) + d = 488 →
        ((y - 1 + 1) % 4 = 0 ∧ (y - 1 + 1) % 100 ≠ 0) ∨ (y - 1 + 1) % 400 = 0 := by
      intro h
      have e : y - 1 + 1 = y := by ring
      rw [e]
      exact hfebfact rfl (by omega)
    refine (JDToCalendar_core _ (y - 1) 459 d 15 (by norm_num) hd1 (by omega) (by omega)
      hfebcore (by omega) (by omega) (by norm_num) ?_).trans ?_
    · norm_num [CalendarGregorianToJD, FloorDiv_eq_ediv]
      ring
    · norm_num
  · -- March
    have hd2 : d ≤ monthLength 3 (LeapYearGregorian y) := hd
    have hlen := monthLength_two_le (LeapYearGregorian y)
    norm_num [monthLength] at hlen hd2
    refine (JDToCalendar_core _ y 122 d 4 (by norm_num) hd1 (by omega) (by omega)
      (by omega) (by omega) (by omega) (by norm_num) ?_).trans ?_
    · norm_num [CalendarGregorianToJD, FloorDiv_eq_ediv]
      ring
    · norm_num
  · -- April
    have hd2 : d ≤ monthLength 4 (LeapYearGregorian y) := hd
    have hlen := monthLength_two_le (LeapYearGregorian y)
    norm_num [monthLength] at hlen hd2
    refine (JDToCalendar_core _ y 153 d 5 (by norm_num) hd1 (by omega) (by omega)
      (by omega) (by omega) (by omega) (by norm_num) ?_).trans ?_
    · norm_num [CalendarGregorianToJD, FloorDiv_eq_ediv]
      ring
    · norm_num
  · -- May
    have hd2 : d ≤ monthLength 5 (LeapYearGregorian y) := hd
    have hlen := monthLength_two_le (LeapYearGregorian y)
    norm_num [monthLength] at hlen hd2
    refine (JDToCalendar_core _ y 183 d 6 (by norm_num) hd1 (by omega) (by omega)
      (by omega) (by omega) (by omega) (by norm_num) ?_).trans ?_
    · norm_num [CalendarGregorianToJD, FloorDiv_eq_ediv]
      ring
    · norm_num
  · -- June
    have hd2 : d ≤ monthLength 6 (LeapYearGregorian y) := hd
    have hlen := monthLength_two_le (LeapYearGregorian y)
    norm_num [monthLength] at hlen hd2
    refine (JDToCalendar_core _ y 214 d 7 (by norm_num) hd1 (by omega) (by omega)
      (by omega) (by omega) (by omega) (by norm_num) ?_).trans ?_
    · norm_num [CalendarGregorianToJD, FloorDiv_eq_ediv]
      ring
    · norm_num
  · -- July
    have hd2 : d ≤ monthLength 7 (LeapYearGregorian y) := hd
    have hlen := monthLength_two_le (LeapYearGregorian y)
    norm_num [monthLength] at hlen hd2
    refine (JDToCalendar_core _ y 244 d 8 (by norm_num) hd1 (by omega) (by omega)
      (by omega) (by omega) (by omega) (by norm_num) ?_).trans ?_
    · norm_num [CalendarGregorianToJD, FloorDiv_eq_ediv]
      ring
    · norm_num
  · -- August
    have hd2 : d ≤ monthLength 8 (LeapYearGregorian y) := hd
    have hlen := monthLength_two_le (LeapYearGregorian y)
    norm_num [monthLength] at hlen hd2
    refine (JDToCalendar_core _ y 275 d 9 (by norm_num) hd1 (by omega) (by omega)
      (by omega) (by omega) (by omega) (by norm_num) ?_).trans ?_
    · norm_num [CalendarGregorianToJD, FloorDiv_eq_ediv]
      ring
    · norm_num
  · -- September
    have hd2 : d ≤ monthLength 9 (LeapYearGregorian y) := hd
    have hlen := monthLength_two_le (LeapYearGregorian y)
    norm_num [monthLength] at hlen hd2
    refine (JDToCalendar_core _ y 306 d 10 (by norm_num) hd1 (by omega) (by omega)
      (by omega) (by omega) (by omega) (by norm_num) ?_).trans ?_
    · norm_num [CalendarGregorianToJD, FloorDiv_eq_ediv]
      ring
    · norm_num
  · -- October
    have hd2 : d ≤ monthLength 10 (LeapYearGregorian y) := hd
    have hlen := monthLength_two_le (LeapYearGregorian y)
    norm_num [monthLength] at hlen hd2
    refine (JDToCalendar_core _ y 336 d 11 (by norm_num) hd1 (by omega) (by omega)
      (by omega) (by omega) (by omega) (by norm_num) ?_).trans ?_
    · norm_num [CalendarGregorianToJD, FloorDiv_eq_ediv]
      ring
    · norm_num
  · -- November
    have hd2 : d ≤ monthLength 11 (LeapYearGregorian y) := hd
    have hlen := monthLength_two_le (LeapYearGregorian y)
    norm_num [monthLength] at hlen hd2
    refine (JDToCalendar_core _ y 367 d 12 (by norm_num) hd1 (by omega) (by omega)
      (by omega) (by omega) (by omega) (by norm_num) ?_).trans ?_
    · norm_num [CalendarGregorianToJD, FloorDiv_eq_ediv]
      ring
    · norm_num
  · -- December
    have hd2 : d ≤ monthLength 12 (LeapYearGregorian y) := hd
    have hlen := monthLength_two_le (LeapYearGregorian y)
    norm_num [monthLength] at hlen hd2
    refine (JDToCalendar_core _ y 397 d 13 (by norm_num) hd1 (by omega) (by omega)
      (by omega) (by omega) (by omega) (by norm_num) ?_).trans ?_
    · norm_num [CalendarGregorianToJD, FloorDiv_eq_ediv]
      ring
    · norm_num

theorem JDToCalendar_example : JDToCalendar 2446938.76803 = (1987, 5, 23.26803) := by
  have hfl : interp.intOfFloat (2446938.76803 + 1 / 2) = 2446939 := by
    unfold interp.intOfFloat
    rw [if_pos (by norm_num), Int.floor_eq_iff]
    norm_num
  simp only [JDToCalendar, Modf, hfl]
  norm_num [FloorDiv_eq_ediv]

theorem intOfFloat_example : interp.intOfFloat 23.26803 = 23 := by
  unfold interp.intOfFloat
  rw [if_pos (by norm_num), Int.floor_eq_iff]
  norm_num

theorem CalendarGregorianToJD_example : CalendarGregorianToJD 1992 10 13 = 2448908.5 := by
  norm_num [CalendarGregorianToJD, FloorDiv_eq_ediv]

theorem DayOfWeek_minus_three : DayOfWeek (-3) = -1 := by
  have hfl : interp.intOfFloat (-3 + 1.5) = -1 := by
    unfold interp.intOfFloat
    rw [if_neg (by norm_num), Int.ceil_eq_iff]
    norm_num
  rw [DayOfWeek, hfl]
  decide

theorem DayOfWeek_zero : DayOfWeek 0 = 1 := by
  have hfl : interp.intOfFloat (0 + 1.5) = 1 := by
    unfold interp.intOfFloat
    rw [if_pos (by norm_num), Int.floor_eq_iff]
    norm_num
  rw [DayOfWeek, hfl]
  decide

theorem wholeMonths_eq (m k : ℤ) (hm : 0 ≤ m) :
    wholeMonths m k = 275 * m / 9 - k * ((m + 9) / 12) - 30 := by
  unfold wholeMonths
  rw [Int.tdiv_eq_ediv (by omega) (by norm_num), Int.tdiv_eq_ediv (by omega) (by norm_num)]

theorem dayOfYear_eq (y m d : ℤ) (leap : Bool) (hm : 0 ≤ m) :
    DayOfYear y m d leap =
      275 * m / 9 - (if leap then 1 else 2) * ((m + 9) / 12) - 30 + d := by
  simp only [DayOfYear, wholeMonths_eq _ _ hm]
  cases leap <;> norm_num

theorem dayOfYearToCalendar_eq (n : ℤ) (leap : Bool) (hn : 1 ≤ n) :
    DayOfYearToCalendar n leap =
      ((if n < 32 then 1 else (900 * ((if leap then 1 else 2) + n) + 26950) / 27500),
        n - wholeMonths
          (if n < 32 then 1 else (900 * ((if leap then 1 else 2) + n) + 26950) / 27500)
          (if leap then 1 else 2)) := by
  unfold DayOfYearToCalendar
  have h : Int.tdiv (900 * ((if leap then 2 - 1 else 2 : ℤ) + n) + 98 * 275) 27500 =
      (900 * ((if leap then 1 else 2 : ℤ) + n) + 26950) / 27500 := by
    rw [Int.tdiv_eq_ediv (by cases leap <;> norm_num <;> omega) (by norm_num)]
    cases leap <;> norm_num
  simp only [h]
  cases leap <;> norm_num

theorem dayOfYear_month (m d : ℤ) (leap : Bool) (hm1 : 1 ≤ m) (hm12 : m ≤ 12) (hd1 : 1 ≤ d)
    (hd : d ≤ monthLength m leap) :
    (if 275 * m / 9 - (if leap then 1 else 2) * ((m + 9) / 12) - 30 + d < 32 then 1
      else (900 * ((if leap then 1 else 2) +
        (275 * m / 9 - (if leap then 1 else 2) * ((m + 9) / 12) - 30 + d)) + 26950) / 27500) =
      m := by
  have hcases : m = 1 ∨ m = 2 ∨ m = 3 ∨ m = 4 ∨ m = 5 ∨ m = 6 ∨ m = 7 ∨ m = 8 ∨ m = 9 ∨
      m = 10 ∨ m = 11 ∨ m = 12 := by omega
  rcases hcases with h | h | h | h | h | h | h | h | h | h | h | h <;> subst h <;>
    cases leap <;> norm_num [monthLength] at hd ⊢ <;> (try split_ifs) <;> (try intros) <;> omega

theorem dayOfYear_false (y m d : ℤ) (hm : 0 ≤ m) :
    DayOfYear y m d false = 275 * m / 9 - 2 * ((m + 9) / 12) - 30 + d := by
  rw [dayOfYear_eq _ _ _ _ hm]
  norm_num

theorem dayOfYear_true (y m d : ℤ) (hm : 0 ≤ m) :
    DayOfYear y m d true = 275 * m / 9 - 1 * ((m + 9) / 12) - 30 + d := by
  rw [dayOfYear_eq _ _ _ _ hm]
  norm_num

theorem dayOfYear_range (y m d : ℤ) (leap : Bool) (hm1 : 1 ≤ m) (hm12 : m ≤ 12)
    (hd1 : 1 ≤ d) (hd : d ≤ monthLength m leap) :
    1 ≤ DayOfYear y m d leap ∧ DayOfYear y m d leap ≤ (if leap then 366 else 365) := by
  have hcases : m = 1 ∨ m = 2 ∨ m = 3 ∨ m = 4 ∨ m = 5 ∨ m = 6 ∨ m = 7 ∨ m = 8 ∨ m = 9 ∨
      m = 10 ∨ m = 11 ∨ m = 12 := by omega
  rw [dayOfYear_eq _ _ _ _ (by omega)]
  rcases hcases with h | h | h | h | h | h | h | h | h | h | h | h <;> subst h <;>
    cases leap <;> norm_num [monthLength] at hd ⊢ <;> omega

theorem dayOfYear_onto_false (y n : ℤ) (h1 : 1 ≤ n) (h2 : n ≤ 365) :
    ∃ m d : ℤ, 1 ≤ m ∧ m ≤ 12 ∧ 1 ≤ d ∧ d ≤ monthLength m false ∧ DayOfYear y m d false = n := by
  have hcases : n ≤ 31 ∨ (31 < n ∧ n ≤ 59) ∨ (59 < n ∧ n ≤ 90) ∨ (90 < n ∧ n ≤ 120) ∨
      (120 < n ∧ n ≤ 151) ∨ (151 < n ∧ n ≤ 181) ∨ (181 < n ∧ n ≤ 212) ∨ (212 < n ∧ n ≤ 243) ∨
      (243 < n ∧ n ≤ 273) ∨ (273 < n ∧ n ≤ 304) ∨ (304 < n ∧ n ≤ 334) ∨ (334 < n ∧ n ≤ 365) := by
    omega
  rcases hcases with h | h | h | h | h | h | h | h | h | h | h | h
  · exact ⟨1, n - 0, by norm_num, by norm_num, by omega,
      by rw [show monthLength 1 false = 31 from by decide]; omega,
      by rw [dayOfYear_false _ _ _ (by norm_num)]; omega⟩
  · exact ⟨2, n - 31, by norm_num, by norm_num, by omega,
      by rw [show monthLength 2 false = 28 from by decide]; omega,
      by rw [dayOfYear_false _ _ _ (by norm_num)]; omega⟩
  · exact ⟨3, n - 59, by norm_num, by norm_num, by omega,
      by rw [show monthLength 3 false = 31 from by decide]; omega,
      by rw [dayOfYear_false _ _ _ (by norm_num)]; omega⟩
  · exact ⟨4, n - 90, by norm_num, by norm_num, by omega,
      by rw [show monthLength 4 false = 30 from by decide]; omega,
      by rw [dayOfYear_false _ _ _ (by norm_num)]; omega⟩
  · exact ⟨5, n - 120, by norm_num, by norm_num, by omega,
      by rw [show monthLength 5 false = 31 from by decide]; omega,
      by rw [dayOfYear_false _ _ _ (by norm_num)]; omega⟩
  · exact ⟨6, n - 151, by norm_num, by norm_num, by omega,
      by rw [show monthLength 6 false = 30 from by decide]; omega,
      by rw [dayOfYear_false _ _ _ (by norm_num)]; omega⟩
  · exact ⟨7, n - 181, by norm_num, by norm_num, by omega,
      by rw [show monthLength 7 false = 31 from by decide]; omega,
      by rw [dayOfYear_false _ _ _ (by norm_num)]; omega⟩
  · exact ⟨8, n - 212, by norm_num, by norm_num, by omega,
      by rw [show monthLength 8 false = 31 from by decide]; omega,
      by rw [dayOfYear_false _ _ _ (by norm_num)]; omega⟩
  · exact ⟨9, n - 243, by norm_num, by norm_num, by omega,
      by rw [show monthLength 9 false = 30 from by decide]; omega,
      by rw [dayOfYear_false _ _ _ (by norm_num)]; omega⟩
  · exact ⟨10, n - 273, by norm_num, by norm_num, by omega,
      by rw [show monthLength 10 false = 31 from by decide]; omega,
      by rw [dayOfYear_false _ _ _ (by norm_num)]; omega⟩
  · exact ⟨11, n - 304, by norm_num, by norm_num, by omega,
      by rw [show monthLength 11 false = 30 from by decide]; omega,
      by rw [dayOfYear_false _ _ _ (by norm_num)]; omega⟩
  · exact ⟨12, n - 334, by norm_num, by norm_num, by omega,
      by rw [show monthLength 12 false = 31 from by decide]; omega,
      by rw [dayOfYear_false _ _ _ (by norm_num)]; omega⟩

theorem dayOfYear_onto_true (y n : ℤ) (h1 : 1 ≤ n) (h2 : n ≤ 366) :
    ∃ m d : ℤ, 1 ≤ m ∧ m ≤ 12 ∧ 1 ≤ d ∧ d ≤ monthLength m true ∧ DayOfYear y m d true = n := by
  have hcases : n ≤ 31 ∨ (31 < n ∧ n ≤ 60) ∨ (60 < n ∧ n ≤ 91) ∨ (91 < n ∧ n ≤ 121) ∨
      (121 < n ∧ n ≤ 152) ∨ (152 < n ∧ n ≤ 182) ∨ (182 < n ∧ n ≤ 213) ∨ (213 < n ∧ n ≤ 244) ∨
      (244 < n ∧ n ≤ 274) ∨ (274 < n ∧ n ≤ 305) ∨ (305 < n ∧ n ≤ 335) ∨ (335 < n ∧ n ≤ 366) := by
    omega
  rcases hcases with h | h | h | h | h | h | h | h | h | h | h | h
  · exact ⟨1, n - 0, by norm_num, by norm_num, by omega,
      by rw [show monthLength 1 true = 31 from by decide]; omega,
      by rw [dayOfYear_true _ _ _ (by norm_num)]; omega⟩
  · exact ⟨2, n - 31, by norm_num, by norm_num, by omega,
      by rw [show monthLength 2 true = 29 from by decide]; omega,
      by rw [dayOfYear_true _ _ _ (by norm_num)]; omega⟩
  · exact ⟨3, n - 60, by norm_num, by norm_num, by omega,
      by rw [show monthLength 3 true = 31 from by decide]; omega,
      by rw [dayOfYear_true _ _ _ (by norm_num)]; omega⟩
  · exact ⟨4, n - 91, by norm_num, by norm_num, by omega,
      by rw [show monthLength 4 true = 30 from by decide]; omega,
      by rw [dayOfYear_true _ _ _ (by norm_num)]; omega⟩
  · exact ⟨5, n - 121, by norm_num, by norm_num, by omega,
      by rw [show monthLength 5 true = 31 from by decide]; omega,
      by rw [dayOfYear_true _ _ _ (by norm_num)]; omega⟩
  · exact ⟨6, n - 152, by norm_num, by norm_num, by omega,
      by rw [show monthLength 6 true = 30 from by decide]; omega,
      by rw [dayOfYear_true _ _ _ (by norm_num)]; omega⟩
  · exact ⟨7, n - 182, by norm_num, by norm_num, by omega,
      by rw [show monthLength 7 true = 31 from by decide]; omega,
      by rw [dayOfYear_true _ _ _ (by norm_num)]; omega⟩
  · exact ⟨8, n - 213, by norm_num, by norm_num, by omega,
      by rw [show monthLength 8 true = 31 from by decide]; omega,
      by rw [dayOfYear_true _ _ _ (by norm_num)]; omega⟩
  · exact ⟨9, n - 244, by norm_num, by norm_num, by omega,
      by rw [show monthLength 9 true = 30 from by decide]; omega,
      by rw [dayOfYear_true _ _ _ (by norm_num)]; omega⟩
  · exact ⟨10, n - 274, by norm_num, by norm_num, by omega,
      by rw [show monthLength 10 true = 31 from by decide]; omega,
      by rw [dayOfYear_true _ _ _ (by norm_num)]; omega⟩
  · exact ⟨11, n - 305, by norm_num, by norm_num, by omega,
      by rw [show monthLength 11 true = 30 from by decide]; omega,
      by rw [dayOfYear_true _ _ _ (by norm_num)]; omega⟩
  · exact ⟨12, n - 335, by norm_num, by norm_num, by omega,
      by rw [show monthLength 12 true = 31 from by decide]; omega,
      by rw [dayOfYear_true _ _ _ (by norm_num)]; omega⟩

/-! ### Theorems -/

/-- C25: `JDToCalendar` inverts `CalendarGregorianToJD` on every valid Gregorian
date on or after 1582 October 15 (month 1..12, whole day 1..month length, with
February of 29 days exactly in the years of `LeapYearGregorian`); JD 2446938.76803
falls on 1987 May 23 (day 23.26803) and `CalendarGregorianToJD(1992, 10, 13)` is
2448908.5. -/
theorem jdToCalendar_inverts_calendarGregorianToJD (y m d : ℤ) (hm : 1 ≤ m ∧ m ≤ 12)
    (hd : 1 ≤ d ∧ d ≤ monthLength m (LeapYearGregorian y))
    (hstart : 1582 < y ∨ (y = 1582 ∧ (10 < m ∨ (m = 10 ∧ 15 ≤ d)))) :
    JDToCalendar (CalendarGregorianToJD y m (d : ℚ)) = (y, m, (d : ℚ)) ∧
      JDToCalendar 2446938.76803 = (1987, 5, 23.26803) ∧
      interp.intOfFloat 23.26803 = 23 ∧
      CalendarGregorianToJD 1992 10 13 = 2448908.5 :=
  ⟨gregorian_roundtrip y m d hm.1 hm.2 hd.1 hd.2 hstart, JDToCalendar_example,
    intOfFloat_example, CalendarGregorianToJD_example⟩

/-- Witness for C25: the leap day 2000 February 29. -/
theorem jdToCalendar_inverts_calendarGregorianToJD_witness :
    JDToCalendar (CalendarGregorianToJD 2000 2 ((29 : ℤ) : ℚ)) = (2000, 2, ((29 : ℤ) : ℚ)) :=
  (jdToCalendar_inverts_calendarGregorianToJD 2000 2 29 (by decide) (by decide)
    (by decide)).1

/-- C26: `DayOfYearToCalendar` inverts `DayOfYear` on every month 1..12 and day
1..month length (February has 29 days iff `leap`), and `DayOfYear` takes exactly
the values 1..365 (1..366 when `leap`) on these dates. -/
theorem dayOfYearToCalendar_inverts_dayOfYear (y m d : ℤ) (leap : Bool)
    (hm : 1 ≤ m ∧ m ≤ 12) (hd : 1 ≤ d ∧ d ≤ monthLength m leap) :
    DayOfYearToCalendar (DayOfYear y m d leap) leap = (m, d) ∧
      (1 ≤ DayOfYear y m d leap ∧ DayOfYear y m d leap ≤ (if leap then 366 else 365)) ∧
      ∀ n : ℤ, 1 ≤ n → n ≤ (if leap then 366 else 365) →
        ∃ m1 d1 : ℤ, 1 ≤ m1 ∧ m1 ≤ 12 ∧ 1 ≤ d1 ∧ d1 ≤ monthLength m1 leap ∧
          DayOfYear y m1 d1 leap = n := by
  have hr := dayOfYear_range y m d leap hm.1 hm.2 hd.1 hd.2
  refine ⟨?_, hr, ?_⟩
  · rw [dayOfYearToCalendar_eq _ _ hr.1, dayOfYear_eq _ _ _ _ (by omega),
      dayOfYear_month m d leap hm.1 hm.2 hd.1 hd.2, wholeMonths_eq _ _ (by omega)]
    refine Prod.ext rfl ?_
    show _ - _ = d
    ring
  · intro n h1 h2
    cases leap
    · exact dayOfYear_onto_false y n h1 (by simpa using h2)
    · exact dayOfYear_onto_true y n h1 (by simpa using h2)

/-- Witness for C26: 1978 November 14 is day 318, and day 318 is November 14. -/
theorem dayOfYearToCalendar_inverts_dayOfYear_witness :
    DayOfYearToCalendar (DayOfYear 1978 11 14 false) false = (11, 14) :=
  (dayOfYearToCalendar_inverts_dayOfYear 1978 11 14 false (by decide) (by decide)).1

/-- C27: `DayOfWeek` is 1 (Monday) at JD 0 and lies in 0..6 for every `jd` from
-1.5 on, but not for every `jd`: `int(jd+1.5) % 7` keeps the sign of the dividend,
and JD -3 gives -1. -/
theorem dayOfWeek_negative_below_range :
    DayOfWeek (-3) = -1 ∧ DayOfWeek 0 = 1 ∧
      ∀ jd : ℚ, -1.5 ≤ jd → 0 ≤ DayOfWeek jd ∧ DayOfWeek jd ≤ 6 := by
  refine ⟨DayOfWeek_minus_three, DayOfWeek_zero, ?_⟩
  intro jd hjd
  have h0 : (0 : ℚ) ≤ jd + 1.5 := by linarith
  have hz : 0 ≤ interp.intOfFloat (jd + 1.5) := by
    unfold interp.intOfFloat
    rw [if_pos h0]
    exact Int.floor_nonneg.2 h0
  unfold DayOfWeek
  rw [Int.tmod_eq_emod hz (by norm_num)]
  omega

/-! ### Day of year and Julian day -/

theorem tmod_eq_zero_iff_emod (y n : ℤ) : Int.tmod y n = 0 ↔ y % n = 0 := by
  rw [← Int.dvd_iff_emod_eq_zero]
  exact ⟨Int.dvd_of_tmod_eq_zero, Int.tmod_eq_zero_of_dvd⟩

theorem LeapYearGregorian_iff_emod (y : ℤ) :
    LeapYearGregorian y = true ↔ (y % 4 = 0 ∧ y % 100 ≠ 0) ∨ y % 400 = 0 := by
  simp [LeapYearGregorian, tmod_eq_zero_iff_emod]

theorem yearLength_leap (y : ℤ) (h : (y % 4 = 0 ∧ y % 100 ≠ 0) ∨ y % 400 = 0) :
    36525 * (y + 4716) / 100 + (2 - y / 100 + y / 100 / 4) -
      (36525 * (y - 1 + 4716) / 100 + (2 - (y - 1) / 100 + (y - 1) / 100 / 4)) = 366 := by
  have h1 := yearDays_split y
  have h2 := yearDays_split (y - 1)
  by_cases h100 : y % 100 = 0
  · have e1 : (y - 1) / 100 = y / 100 - 1 := by omega
    have e2 : (y - 1) % 100 = 99 := by omega
    have e3 : y / 100 % 4 = 0 := by omega
    rw [e1, e2] at h2
    rw [e1]
    omega
  · have e1 : (y - 1) / 100 = y / 100 := by omega
    have e2 : (y - 1) % 100 = y % 100 - 1 := by omega
    have e3 : y % 100 % 4 = 0 := by omega
    rw [e1, e2] at h2
    rw [e1]
    omega

theorem yearLength_common (y : ℤ) (h : ¬ ((y % 4 = 0 ∧ y % 100 ≠ 0) ∨ y % 400 = 0)) :
    36525 * (y + 4716) / 100 + (2 - y / 100 + y / 100 / 4) -
      (36525 * (y - 1 + 4716) / 100 + (2 - (y - 1) / 100 + (y - 1) / 100 / 4)) = 365 := by
  have h1 := yearDays_split y
  have h2 := yearDays_split (y - 1)
  by_cases h100 : y % 100 = 0
  · have e1 : (y - 1) / 100 = y / 100 - 1 := by omega
    have e2 : (y - 1) % 100 = 99 := by omega
    have e3 : y / 100 % 4 ≠ 0 := by omega
    rw [e1, e2] at h2
    rw [e1]
    omega
  · have e1 : (y - 1) / 100 = y / 100 := by omega
    have e2 : (y - 1) % 100 = y % 100 - 1 := by omega
    have e3 : y % 100 % 4 ≠ 0 := by omega
    rw [e1, e2] at h2
    rw [e1]
    omega

theorem CalendarGregorianToJD_intCast (y m d : ℤ) :
    CalendarGregorianToJD y m (d : ℚ) =
      ((36525 * ((if m = 1 ∨ m = 2 then y - 1 else y) + 4716) / 100 +
        (306 * ((if m = 1 ∨ m = 2 then m + 12 else m) + 1) / 10 +
          (2 - (if m = 1 ∨ m = 2 then y - 1 else y) / 100 +
            (if m = 1 ∨ m = 2 then y - 1 else y) / 100 / 4)) + d : ℤ) : ℚ) - 3049 / 2 := by
  unfold CalendarGregorianToJD
  split_ifs <;> simp only [FloorDiv_eq_ediv _ _ (show (0 : ℤ) ≤ 100 by norm_num),
    FloorDiv_eq_ediv _ _ (show (0 : ℤ) ≤ 10 by norm_num),
    FloorDiv_eq_ediv _ _ (show (0 : ℤ) ≤ 4 by norm_num)] <;> push_cast <;> ring

theorem dayOfYearGregorian_int (y m d : ℤ) (hm1 : 1 ≤ m) (hm12 : m ≤ 12) :
    DayOfYearGregorian y m d =
      (36525 * ((if m = 1 ∨ m = 2 then y - 1 else y) + 4716) / 100 +
        (306 * ((if m = 1 ∨ m = 2 then m + 12 else m) + 1) / 10 +
          (2 - (if m = 1 ∨ m = 2 then y - 1 else y) / 100 +
            (if m = 1 ∨ m = 2 then y - 1 else y) / 100 / 4)) + d) -
      (36525 * (y - 1 + 4716) / 100 +
        (306 * (1 + 12 + 1) / 10 + (2 - (y - 1) / 100 + (y - 1) / 100 / 4)) + 1) + 1 := by
  have hcases : m = 1 ∨ m = 2 ∨ m = 3 ∨ m = 4 ∨ m = 5 ∨ m = 6 ∨ m = 7 ∨ m = 8 ∨ m = 9 ∨
      m = 10 ∨ m = 11 ∨ m = 12 := by omega
  rw [DayOfYearGregorian, dayOfYear_eq _ _ _ _ (by omega)]
  by_cases hl : (y % 4 = 0 ∧ y % 100 ≠ 0) ∨ y % 400 = 0
  · have hL := (LeapYearGregorian_iff_emod y).2 hl
    have hlen := yearLength_leap y hl
    rw [hL]
    clear hl hL
    rcases hcases with h | h | h | h | h | h | h | h | h | h | h | h <;> subst h <;>
      norm_num <;> omega
  · have hL : LeapYearGregorian y = false := by
      rw [← Bool.not_eq_true]
      exact fun h => hl ((LeapYearGregorian_iff_emod y).1 h)
    have hlen := yearLength_common y hl
    rw [hL]
    clear hl hL
    rcases hcases with h | h | h | h | h | h | h | h | h | h | h | h <;> subst h <;>
      norm_num <;> omega

/-- C33: for every year `y`, month `m` in 1..12 and whole day `d`,
`DayOfYearGregorian(y, m, d)` equals
`CalendarGregorianToJD(y, m, d) - CalendarGregorianToJD(y, 1, 1) + 1`. -/
theorem dayOfYearGregorian_eq_jd_difference (y m d : ℤ) (hm : 1 ≤ m ∧ m ≤ 12) :
    ((DayOfYearGregorian y m d : ℤ) : ℚ) =
      CalendarGregorianToJD y m (d : ℚ) - CalendarGregorianToJD y 1 1 + 1 := by
  have h1 := CalendarGregorianToJD_intCast y 1 1
  rw [Int.cast_one] at h1
  rw [CalendarGregorianToJD_intCast y m d, h1, dayOfYearGregorian_int y m d hm.1 hm.2]
  simp only [true_or, if_true]
  push_cast
  ring

/-- Witness of C33: 1978 November 14 is day 318 of the year. -/
theorem dayOfYearGregorian_eq_jd_difference_witness :
    ((DayOfYearGregorian 1978 11 14 : ℤ) : ℚ) =
      CalendarGregorianToJD 1978 11 ((14 : ℤ) : ℚ) - CalendarGregorianToJD 1978 1 1 + 1 :=
  dayOfYearGregorian_eq_jd_difference 1978 11 14 (by decide)

end julian
